import Mathlib

/-!
# Library lending state machine (library-backend/server.js)

A shallow embedding of the in-memory library server: the three global arrays
`books`, `members`, `borrowRecords` and the route handlers that mutate them.

Modelling conventions

* Ids and day counts are `Int`.  The copy counts and the publish year, which
  come from the request body through `parseInt` and are changed by `-= 1` and
  `+= 1`, are `JsNum`: the integers a double represents, with the rounding of
  double arithmetic and the `parseInt` of the language.
* A calendar date string `YYYY-MM-DD` is its day number (days since
  1970-01-01, UTC).  The borrow handler reads a `Clock`: the instants of its
  two `new Date()` calls and the offsets of the server's time zone, which
  `setDate` and `getDate` work in while `toISOString` prints UTC.  The return
  handler only prints `new Date()` in UTC: its clock is the day `today`.
* A handler is a function from the state before the request to the state
  after it together with the HTTP response.
* `find` / `findIndex` followed by an in-place mutation of the object found is
  `updateFirst`: the first element satisfying the predicate is replaced.
* The lending handlers are modelled from the point where `memberId` /
  `bookId` have been read from the body and parsed by `parseInt`.
* The form handlers of books and members take the request body as a record of
  optional strings and optional numbers and are modelled from their first
  line, validation block included.
-/

namespace Library

/-! ## JavaScript numbers

The numbers of the catalog are integers held in doubles: 53 significant bits,
rounded to nearest with ties to even.  The exponent range is not bounded in
the model. -/

/-- The spacing of the doubles around the natural number `m`: 1 below `2^53`,
and twice the spacing around `m / 2` from there on.  The first argument bounds
the recursion; `m` itself is always enough. -/
def ulp : Nat → Nat → Nat
  | 0, _ => 1
  | fuel + 1, m => if m < 9007199254740992 then 1 else 2 * ulp fuel (m / 2)

/-- The double nearest to the natural number `m`, ties to the even
significand. -/
def roundNat (m : Nat) : Nat :=
  let u := ulp m m
  let q := m / u
  let r := m % u
  if 2 * r < u then q * u
  else if u < 2 * r then (q + 1) * u
  else if q % 2 = 0 then q * u
  else (q + 1) * u

/-- The rounding decision on quotient q and remainder r for unit u. -/
def rnd (u q r : Nat) : Nat :=
  if 2 * r < u then q * u
  else if u < 2 * r then (q + 1) * u
  else if q % 2 = 0 then q * u
  else (q + 1) * u

/-- The double nearest to the integer `n`. -/
def roundDouble (n : Int) : Int :=
  if 0 ≤ n then (roundNat n.toNat : Int) else -(roundNat (-n).toNat : Int)

/-- An integer-valued JavaScript number: an integer that a double holds
exactly. -/
abbrev JsNum := { n : Int // roundDouble n = n }

/-- The number an integer expression evaluates to.  The second branch is
never taken (`roundDouble_idem`, `toJsNum_val`). -/
def toJsNum (n : Int) : JsNum :=
  if h : roundDouble (roundDouble n) = roundDouble n then ⟨roundDouble n, h⟩ else ⟨0, by decide⟩

instance (n : Nat) : OfNat JsNum n := ⟨toJsNum n⟩

/-- The operator `-` on numbers. -/
instance : Sub JsNum := ⟨fun a b => toJsNum (a.val - b.val)⟩

/-- The operator `+` on numbers. -/
instance : Add JsNum := ⟨fun a b => toJsNum (a.val + b.val)⟩

/-- Number of decimal digits of `m`; the first argument bounds the
recursion. -/
def decLen : Nat → Nat → Nat
  | 0, _ => 0
  | fuel + 1, m => if m = 0 then 0 else decLen fuel (m / 10) + 1

/-- The search of `Number::toString` for the decimal with the fewest
significant digits `k` that still reads back as the double `m`: among the
multiples of `10 ^ (n - k)` next to `m`, the closest one that rounds to `m`,
the even one at a tie; `n` is the number of digits of `m`. -/
def shortestAux (m n : Nat) : Nat → Nat → Nat
  | 0, _ => m
  | fuel + 1, k =>
    let p := 10 ^ (n - k)
    let lo := m / p * p
    let hi := lo + p
    let okLo : Bool := roundNat lo == m
    let okHi : Bool := roundNat hi == m
    if okLo && okHi then
      if m - lo < hi - m then lo
      else if hi - m < m - lo then hi
      else if (m / p) % 2 = 0 then lo else hi
    else if okLo then lo
    else if okHi then hi
    else shortestAux m n fuel (k + 1)

/-- The decimal that `String(m)` spells for a double `m ≥ 10^21`; 17
significant digits always suffice. -/
def shortestDecimal (m : Nat) : Nat := shortestAux m (decLen m m) 17 1

/-- The first digit of `String(m)`. -/
def leadingDigit (m : Nat) : Nat :=
  let d := shortestDecimal m
  d / 10 ^ (decLen d d - 1)

/-- The function `parseInt` applied to a number: the argument is converted to
a string first.  Below `10^21` the string is the decimal expansion and the
result is the argument; from `10^21` on the string is in exponent form
(`1e+21`, `1.2e+24`) and `parseInt` stops after the first digit. -/
def parseInt (x : JsNum) : JsNum :=
  if x.val.natAbs < 1000000000000000000000 then x
  else if 0 ≤ x.val then toJsNum (leadingDigit x.val.natAbs)
  else toJsNum (-(leadingDigit x.val.natAbs : Int))

/-- An entry of the `books` array. -/
structure Book where
  id : Int
  title : String
  author : String
  isbn : String
  category : String
  publishYear : JsNum
  copies : JsNum
  availableCopies : JsNum
deriving DecidableEq, Repr

/-- An entry of the `members` array. -/
structure Member where
  id : Int
  name : String
  email : String
  phone : String
  membershipDate : String
  borrowedBooks : List Int
deriving DecidableEq, Repr

/-- An entry of the `borrowRecords` array; `returnDate` is `null` while the
loan is open and `status` is the string the source stores. -/
structure BorrowRecord where
  id : Int
  memberId : Int
  bookId : Int
  borrowDate : Int
  dueDate : Int
  returnDate : Option Int
  status : String
deriving DecidableEq, Repr

/-- The in-memory database: the three module-level arrays. -/
structure State where
  books : List Book
  members : List Member
  borrowRecords : List BorrowRecord
deriving DecidableEq, Repr

/-- The body of a JSON response: `res.status(code).json(...)` with either
`success: true`, a message and data, or `success: false` and an error;
`invalid` is the form-validation body `{ success: false, errors }` and
`blocked` the member-deletion body that also carries `borrowedBooks`. -/
inductive Response (α : Type) where
  | success (status : Nat) (message : String) (data : α)
  | failure (status : Nat) (error : String)
  | invalid (status : Nat) (errors : List String)
  | blocked (status : Nat) (error : String) (borrowedBooks : List Int)
deriving DecidableEq, Repr

/-- The `book: { title, author }` part of a lending response. -/
structure BookSummary where
  title : String
  author : String
deriving DecidableEq, Repr

/-- The `member: { name, email }` part of a lending response. -/
structure MemberSummary where
  name : String
  email : String
deriving DecidableEq, Repr

/-- The `data` object of a successful `POST /api/borrow`. -/
structure BorrowData where
  record : BorrowRecord
  book : BookSummary
  member : MemberSummary
  dueDate : Int
deriving DecidableEq, Repr

/-- The `data` object of a successful `POST /api/return`. -/
structure ReturnData where
  record : BorrowRecord
  book : BookSummary
  member : MemberSummary
  isLate : Bool
  daysLate : Int
  fine : Int
deriving DecidableEq, Repr

/-- In-place mutation of the first element that satisfies `p` (the object a
`find` or `findIndex` call hands back); the list is unchanged when there is
none. -/
def updateFirst {α : Type} (p : α → Bool) (f : α → α) : List α → List α
  | [] => []
  | x :: xs => if p x then f x :: xs else x :: updateFirst p f xs

/-- `Math.max(...xs)` on a non-empty list of numbers; the value at the empty
list is never used, `nextId` tests the length first. -/
def mathMax : List Int → Int
  | [] => 0
  | x :: xs => xs.foldl max x

/-- The id expression `xs.length > 0 ? Math.max(...ids) + 1 : 1`. -/
def nextId (ids : List Int) : Int :=
  if ids.length > 0 then mathMax ids + 1 else 1

/-- The predicate of the `findIndex` call in the return handler. -/
def isActiveFor (memberId bookId : Int) (r : BorrowRecord) : Bool :=
  r.memberId == memberId && r.bookId == bookId && r.status == "borrowed"

/-- The predicate of the `some` call in the book deletion handler. -/
def isActiveLoanOf (bookId : Int) (r : BorrowRecord) : Bool :=
  r.bookId == bookId && r.status == "borrowed"

/-- Milliseconds in a day, `1000 * 60 * 60 * 24`. -/
def msPerDay : Int := 1000 * 60 * 60 * 24

/-- The epoch time of `new Date('YYYY-MM-DD')`: midnight UTC of that day. -/
def dateMs (day : Int) : Int := day * msPerDay

/-- What the borrow handler reads from the clock and the time zone of the
server.  `borrowNow` and `dueNow` are the epoch milliseconds of the two
`new Date()` calls; `offsetNow` is the offset of local time from UTC at
`dueNow` and `offsetDue` the offset in force at the local time 14 days later,
both in milliseconds (east of Greenwich positive). -/
structure Clock where
  borrowNow : Int
  dueNow : Int
  offsetNow : Int
  offsetDue : Int
deriving DecidableEq, Repr

/-- The string `borrowDate.toISOString().split('T')[0]`: the UTC day of the
first `new Date()`. -/
def Clock.borrowDate (clock : Clock) : Int := Int.fdiv clock.borrowNow msPerDay

/-- The string `dueDate.toISOString().split('T')[0]` after
`dueDate.setDate(dueDate.getDate() + 14)`: `getDate` and `setDate` work on the
local time `dueNow + offsetNow`, the new local time is 14 local days later and
is taken back to UTC with the offset in force then, and `toISOString` prints
the UTC day of that instant. -/
def Clock.dueDate (clock : Clock) : Int :=
  Int.fdiv (clock.dueNow + clock.offsetNow + 14 * msPerDay - clock.offsetDue) msPerDay

/-- A server whose local time is UTC, at midnight of the given day. -/
def utcClock (day : Int) : Clock :=
  { borrowNow := dateMs day, dueNow := dateMs day, offsetNow := 0, offsetDue := 0 }

/-- A server in the time zone `America/New_York` at `2024-10-27T23:30:00Z`
(day 20023): local time is 19:30 at UTC-4, and 14 local days later, on
November 10, daylight saving time has ended and the offset is UTC-5. -/
def newYorkClock : Clock :=
  { borrowNow := dateMs 20023 + 84600000, dueNow := dateMs 20023 + 84600000,
    offsetNow := -14400000, offsetDue := -18000000 }

/-- Handler of `POST /api/borrow`, from the two `find` calls on. -/
def borrow (s : State) (clock : Clock) (memberId bookId : Int) :
    State × Response BorrowData :=
  match s.members.find? (fun m => m.id == memberId),
        s.books.find? (fun b => b.id == bookId) with
  | none, _ => (s, .failure 404 "Member not found")
  | some _, none => (s, .failure 404 "Book not found")
  | some member, some book =>
    if book.availableCopies ≤ 0 then
      (s, .failure 400 "No copies available for this book")
    else if member.borrowedBooks.contains book.id then
      (s, .failure 400 "Member has already borrowed this book")
    else
      let borrowDate := clock.borrowDate
      let dueDate := clock.dueDate
      let newRecord : BorrowRecord :=
        { id := nextId (s.borrowRecords.map (fun r => r.id))
          memberId := member.id
          bookId := book.id
          borrowDate := borrowDate
          dueDate := dueDate
          returnDate := none
          status := "borrowed" }
      let s1 : State :=
        { books := updateFirst (fun b => b.id == bookId)
            (fun b => { b with availableCopies := b.availableCopies - 1 }) s.books
          members := updateFirst (fun m => m.id == memberId)
            (fun m => { m with borrowedBooks := m.borrowedBooks ++ [book.id] }) s.members
          borrowRecords := s.borrowRecords ++ [newRecord] }
      (s1, .success 201 "Book borrowed successfully"
        { record := newRecord
          book := { title := book.title, author := book.author }
          member := { name := member.name, email := member.email }
          dueDate := newRecord.dueDate })

/-- Handler of `POST /api/return`, from the two `find` calls on. -/
def returnBook (s : State) (today memberId bookId : Int) : State × Response ReturnData :=
  match s.members.find? (fun m => m.id == memberId),
        s.books.find? (fun b => b.id == bookId) with
  | none, _ => (s, .failure 404 "Member not found")
  | some _, none => (s, .failure 404 "Book not found")
  | some member, some book =>
    match s.borrowRecords.find? (isActiveFor member.id book.id) with
    | none => (s, .failure 400 "No active borrow record found for this member and book")
    | some found =>
      let record : BorrowRecord :=
        { found with returnDate := some today, status := "returned" }
      let dueDate := dateMs record.dueDate
      let returnDate := dateMs today
      let isLate : Bool := decide (returnDate > dueDate)
      let daysLate : Int := if isLate then Int.fdiv (returnDate - dueDate) msPerDay else 0
      let s1 : State :=
        { books := updateFirst (fun b => b.id == bookId)
            (fun b => { b with availableCopies := b.availableCopies + 1 }) s.books
          members := updateFirst (fun m => m.id == memberId)
            (fun m => { m with borrowedBooks := m.borrowedBooks.filter (fun id => id != book.id) })
            s.members
          borrowRecords := updateFirst (isActiveFor member.id book.id)
            (fun r => { r with returnDate := some today, status := "returned" }) s.borrowRecords }
      (s1, .success 200 "Book returned successfully"
        { record := record
          book := { title := book.title, author := book.author }
          member := { name := member.name, email := member.email }
          isLate := isLate
          daysLate := daysLate
          fine := if isLate then daysLate * 5 else 0 })

/-- Handler of `DELETE /api/books/:id`; `splice(bookIndex, 1)` removes the
first book with the id. -/
def deleteBook (s : State) (bookId : Int) : State × Response Book :=
  match s.books.find? (fun b => b.id == bookId) with
  | none => (s, .failure 404 "Book not found")
  | some book =>
    if s.borrowRecords.any (isActiveLoanOf bookId) then
      (s, .failure 400 "Cannot delete book as it is currently borrowed")
    else
      ({ s with books := s.books.eraseP (fun b => b.id == bookId) },
        .success 200 "Book deleted successfully" book)

/-- The seed data the module starts with; `2024-10-01` is day 19997 and
`2024-10-15` is day 20011. -/
def seed : State :=
  { books :=
      [ { id := 1, title := "The Great Gatsby", author := "F. Scott Fitzgerald",
          isbn := "978-0-7432-7356-5", category := "Fiction", publishYear := 1925,
          copies := 5, availableCopies := 3 },
        { id := 2, title := "To Kill a Mockingbird", author := "Harper Lee",
          isbn := "978-0-06-112008-4", category := "Fiction", publishYear := 1960,
          copies := 4, availableCopies := 4 },
        { id := 3, title := "1984", author := "George Orwell",
          isbn := "978-0-452-28423-4", category := "Science Fiction", publishYear := 1949,
          copies := 6, availableCopies := 2 } ]
    members :=
      [ { id := 1, name := "John Doe", email := "john.doe@email.com",
          phone := "1234567890", membershipDate := "2024-01-15", borrowedBooks := [1] },
        { id := 2, name := "Jane Smith", email := "jane.smith@email.com",
          phone := "9876543210", membershipDate := "2024-02-20", borrowedBooks := [] } ]
    borrowRecords :=
      [ { id := 1, memberId := 1, bookId := 1, borrowDate := 19997, dueDate := 20011,
          returnDate := none, status := "borrowed" } ] }

/-- The late-fee block of the return handler, as a function of the due day
found in the record and the day of the return. -/
def lateFee (due today : Int) : Bool × Int × Int :=
  let isLate : Bool := decide (dateMs today > dateMs due)
  let daysLate : Int := if isLate then Int.fdiv (dateMs today - dateMs due) msPerDay else 0
  (isLate, daysLate, if isLate then daysLate * 5 else 0)

/-- The state a successful `borrow` leaves behind. -/
def borrowedState (s : State) (clock : Clock) (memberId bookId : Int) (member : Member)
    (book : Book) : State :=
  { books := updateFirst (fun b => b.id == bookId)
      (fun b => { b with availableCopies := b.availableCopies - 1 }) s.books
    members := updateFirst (fun m => m.id == memberId)
      (fun m => { m with borrowedBooks := m.borrowedBooks ++ [book.id] }) s.members
    borrowRecords := s.borrowRecords ++
      [{ id := nextId (s.borrowRecords.map (fun r => r.id))
         memberId := member.id, bookId := book.id
         borrowDate := clock.borrowDate, dueDate := clock.dueDate
         returnDate := none, status := "borrowed" }] }

/-- The state a successful `returnBook` leaves behind. -/
def returnedState (s : State) (today memberId bookId : Int) (member : Member) (book : Book) :
    State :=
  { books := updateFirst (fun b => b.id == bookId)
      (fun b => { b with availableCopies := b.availableCopies + 1 }) s.books
    members := updateFirst (fun m => m.id == memberId)
      (fun m => { m with borrowedBooks := m.borrowedBooks.filter (fun id => id != book.id) })
      s.members
    borrowRecords := updateFirst (isActiveFor member.id book.id)
      (fun r => { r with returnDate := some today, status := "returned" }) s.borrowRecords }

/-- The spec's availability bound on every book of the catalog. -/
def boundsOk (s : State) : Prop :=
  ∀ b ∈ s.books, 0 ≤ b.availableCopies ∧ b.availableCopies ≤ b.copies

instance (s : State) : Decidable (boundsOk s) := by
  unfold boundsOk; infer_instance

/-- Number of ledger records of the pair that have the active status. -/
def activeCount (rs : List BorrowRecord) (memberId bookId : Int) : Nat :=
  rs.countP (isActiveFor memberId bookId)

/-- States the server can be in after any sequence of borrow and return
requests on the seed data. -/
inductive Reachable : State → Prop where
  | seed : Reachable seed
  | borrow {s : State} (clock : Clock) (memberId bookId : Int) :
      Reachable s → Reachable (borrow s clock memberId bookId).1
  | returnBook {s : State} (today memberId bookId : Int) :
      Reachable s → Reachable (returnBook s today memberId bookId).1

/-- A response with `success: false`. -/
def Response.isFailure {α : Type} : Response α → Bool
  | .success _ _ _ => false
  | .failure _ _ => true
  | .invalid _ _ => true
  | .blocked _ _ _ => true

/-- The seed data after member 2 and then member 1 have each borrowed book 3
on day 0: both copies that were available are out. -/
def book3Out : State := (borrow (borrow seed (utcClock 0) 2 3).1 (utcClock 0) 1 3).1

/-- The seed data after member 2 has borrowed book 3 on day 0: one copy of
book 3 is left. -/
def book3LastCopy : State := (borrow seed (utcClock 0) 2 3).1

/-- The seed data after `PUT /api/books/1` with `copies = 3`: the update
handler replaces `copies` and keeps `availableCopies = 3`, while the loan of
book 1 to member 1 is still open. -/
def shrunkCatalog : State :=
  { seed with
    books := updateFirst (fun b => b.id == 1) (fun b => { b with copies := 3 }) seed.books }

/-- The invariant behind the agreement of borrowed lists and ledger: member
ids are pairwise distinct, and for every member and book id the number of
active ledger records of the pair is 1 when the id is in the member's borrowed
list and 0 when it is not. -/
def LedgerInv (s : State) : Prop :=
  (s.members.map (fun m => m.id)).Nodup ∧
  ∀ m ∈ s.members, ∀ b : Int,
    (b ∈ m.borrowedBooks → activeCount s.borrowRecords m.id b = 1) ∧
    (b ∉ m.borrowedBooks → activeCount s.borrowRecords m.id b = 0)

/-! ## Form handling: JavaScript strings, truthiness and the two regexes

Request bodies are modelled with string fields `Option String` and numeric
fields `Option JsNum` (JSON integers, as the doubles `JSON.parse` makes of
them).  A field is falsy when it is absent, the empty string or the number 0.
The year of `new Date().getFullYear()` is the handler argument
`currentYear`. -/

/-- The characters that `String.prototype.trim` strips and the regex class
`\s` matches: WhiteSpace and LineTerminator of ECMAScript. -/
def isJsWhitespace (c : Char) : Bool :=
  let n := c.toNat
  (0x09 ≤ n && n ≤ 0x0D) || n == 0x20 || n == 0xA0 || n == 0x1680 ||
  (0x2000 ≤ n && n ≤ 0x200A) || n == 0x2028 || n == 0x2029 || n == 0x202F ||
  n == 0x205F || n == 0x3000 || n == 0xFEFF

/-- The method `trim` on the characters of a string. -/
def trimChars (cs : List Char) : List Char :=
  ((cs.dropWhile isJsWhitespace).reverse.dropWhile isJsWhitespace).reverse

/-- The method `String.prototype.trim`. -/
def jsTrim (s : String) : String := String.mk (trimChars s.data)

/-- The method `String.prototype.toLowerCase` on one character, for the
letters `A` to `Z`; characters outside that range are kept as they are, so
the model follows the method on strings whose cased letters are ASCII. -/
def lowerChar (c : Char) : Char :=
  if 65 ≤ c.toNat ∧ c.toNat ≤ 90 then Char.ofNat (c.toNat + 32) else c

/-- The method `String.prototype.toLowerCase`, through `lowerChar`. -/
def toLowerCase (s : String) : String := String.mk (s.data.map lowerChar)

/-- Truthiness of a string field: present and not the empty string. -/
def truthyStr (v : Option String) : Bool :=
  match v with
  | none => false
  | some t => t != ""

/-- Truthiness of a numeric field: present and not 0. -/
def truthyNum (v : Option JsNum) : Bool :=
  match v with
  | none => false
  | some n => n != 0

/-- The string a truthy string field holds. -/
def strOf (v : Option String) : String := v.getD ""

/-- The number a truthy numeric field holds. -/
def numOf (v : Option JsNum) : JsNum := v.getD 0

/-- The regex fragments the two patterns of the server are built from: a
literal character, `[class]+`, `[class]{n}` and concatenation. -/
inductive Re where
  | char (c : Char)
  | plus (cls : Char → Bool)
  | times (cls : Char → Bool) (n : Nat)
  | seq (a b : Re)

/-- What can be left of the input after `[cls]+` has matched a prefix. -/
def restsPlus (cls : Char → Bool) : List Char → List (List Char)
  | [] => []
  | c :: cs => if cls c then cs :: restsPlus cls cs else []

/-- What can be left of the input after `[cls]{n}` has matched a prefix. -/
def restsTimes (cls : Char → Bool) : Nat → List Char → List (List Char)
  | 0, cs => [cs]
  | _ + 1, [] => []
  | n + 1, c :: cs => if cls c then restsTimes cls n cs else []

/-- What can be left of the input after the regex has matched a prefix. -/
def Re.rests : Re → List Char → List (List Char)
  | .char _, [] => []
  | .char c, x :: xs => if x = c then [xs] else []
  | .plus cls, cs => restsPlus cls cs
  | .times cls n, cs => restsTimes cls n cs
  | .seq a b, cs => (a.rests cs).flatMap b.rests

/-- The method `test` of a regex anchored as `^...$`: some match uses up the
whole string. -/
def Re.test (r : Re) (s : String) : Bool := (r.rests s.data).any List.isEmpty

/-- The class `[^\s@]`. -/
def notSpaceAt (c : Char) : Bool := !(isJsWhitespace c || c == '@')

/-- The class `[0-9]`. -/
def isDigit09 (c : Char) : Bool := 48 ≤ c.toNat && c.toNat ≤ 57

/-- The pattern `/^[^\s@]+@[^\s@]+\.[^\s@]+$/`. -/
def emailRegex : Re :=
  .seq (.plus notSpaceAt) (.seq (.char '@') (.seq (.plus notSpaceAt)
    (.seq (.char '.') (.plus notSpaceAt))))

/-- The pattern `/^[0-9]{10}$/`. -/
def phoneRegex : Re := .times isDigit09 10

/-- The body of `POST /api/books` and `PUT /api/books/:id`. -/
structure BookRequest where
  title : Option String
  author : Option String
  isbn : Option String
  category : Option String
  publishYear : Option JsNum
  copies : Option JsNum
deriving DecidableEq, Repr

/-- The body of `POST /api/members` and `PUT /api/members/:id`. -/
structure MemberRequest where
  name : Option String
  email : Option String
  phone : Option String
  membershipDate : Option String
deriving DecidableEq, Repr

/-- The statement `if (cond) errors.push(message)`. -/
def pushIf (cond : Bool) (message : String) (errors : List String) : List String :=
  if cond then errors ++ [message] else errors

/-- The validation block of `POST /api/books`: the `errors` array after the
six checks. -/
def bookErrors (currentYear : JsNum) (req : BookRequest) : List String :=
  let errors : List String := []
  let errors := pushIf (!truthyStr req.title || jsTrim (strOf req.title) == "")
    "Title is required" errors
  let errors := pushIf (!truthyStr req.author || jsTrim (strOf req.author) == "")
    "Author is required" errors
  let errors := pushIf (!truthyStr req.isbn || jsTrim (strOf req.isbn) == "")
    "ISBN is required" errors
  let errors := pushIf (!truthyStr req.category || jsTrim (strOf req.category) == "")
    "Category is required" errors
  let errors :=
    if !truthyNum req.publishYear then errors ++ ["Publish year is required"]
    else if numOf req.publishYear < 1000 || numOf req.publishYear > currentYear then
      errors ++ ["Invalid publish year"]
    else errors
  let errors :=
    if !truthyNum req.copies then errors ++ ["Number of copies is required"]
    else if numOf req.copies < 1 then errors ++ ["Copies must be at least 1"]
    else errors
  errors

/-- Handler of `POST /api/books`. -/
def addBook (s : State) (currentYear : JsNum) (req : BookRequest) : State × Response Book :=
  let errors := bookErrors currentYear req
  if errors.length > 0 then (s, .invalid 400 errors)
  else
    match s.books.find? (fun b => b.isbn == strOf req.isbn) with
    | some _ => (s, .failure 400 "A book with this ISBN already exists")
    | none =>
      let newBook : Book :=
        { id := nextId (s.books.map (fun b => b.id))
          title := jsTrim (strOf req.title)
          author := jsTrim (strOf req.author)
          isbn := jsTrim (strOf req.isbn)
          category := jsTrim (strOf req.category)
          publishYear := parseInt (numOf req.publishYear)
          copies := parseInt (numOf req.copies)
          availableCopies := parseInt (numOf req.copies) }
      ({ s with books := s.books ++ [newBook] },
        .success 201 "Book added successfully" newBook)

/-- The validation block of `PUT /api/books/:id`. -/
def bookUpdateErrors (currentYear : JsNum) (req : BookRequest) : List String :=
  let errors : List String := []
  let errors := pushIf (truthyStr req.title && jsTrim (strOf req.title) == "")
    "Title cannot be empty" errors
  let errors := pushIf (truthyStr req.author && jsTrim (strOf req.author) == "")
    "Author cannot be empty" errors
  let errors := pushIf (truthyNum req.publishYear &&
      (numOf req.publishYear < 1000 || numOf req.publishYear > currentYear))
    "Invalid publish year" errors
  let errors := pushIf (truthyNum req.copies && numOf req.copies < 1)
    "Copies must be at least 1" errors
  errors

/-- The object `updatedBook` of `PUT /api/books/:id`: the spread of the
current book with the six fields the handler lists. -/
def mergeBook (currentBook : Book) (req : BookRequest) : Book :=
  { currentBook with
    title := if truthyStr req.title then jsTrim (strOf req.title) else currentBook.title
    author := if truthyStr req.author then jsTrim (strOf req.author) else currentBook.author
    isbn := if truthyStr req.isbn then jsTrim (strOf req.isbn) else currentBook.isbn
    category :=
      if truthyStr req.category then jsTrim (strOf req.category) else currentBook.category
    publishYear :=
      if truthyNum req.publishYear then parseInt (numOf req.publishYear)
      else currentBook.publishYear
    copies := if truthyNum req.copies then parseInt (numOf req.copies) else currentBook.copies }

/-- Handler of `PUT /api/books/:id`; `books[bookIndex] = updatedBook` replaces
the first book with the id. -/
def updateBook (s : State) (currentYear : JsNum) (bookId : Int) (req : BookRequest) :
    State × Response Book :=
  match s.books.find? (fun b => b.id == bookId) with
  | none => (s, .failure 404 "Book not found")
  | some currentBook =>
    let errors := bookUpdateErrors currentYear req
    if errors.length > 0 then (s, .invalid 400 errors)
    else
      let updatedBook := mergeBook currentBook req
      ({ s with books := updateFirst (fun b => b.id == bookId) (fun _ => updatedBook) s.books },
        .success 200 "Book updated successfully" updatedBook)

/-- The validation block of `POST /api/members`: the `errors` array after the
three checks. -/
def memberErrors (req : MemberRequest) : List String :=
  let errors : List String := []
  let errors := pushIf (!truthyStr req.name || jsTrim (strOf req.name) == "")
    "Name is required" errors
  let errors :=
    if !truthyStr req.email || jsTrim (strOf req.email) == "" then
      errors ++ ["Email is required"]
    else pushIf (!emailRegex.test (strOf req.email)) "Invalid email format" errors
  let errors :=
    if !truthyStr req.phone || jsTrim (strOf req.phone) == "" then
      errors ++ ["Phone is required"]
    else if !phoneRegex.test (strOf req.phone) then errors ++ ["Phone must be 10 digits"]
    else errors
  errors

/-- Handler of `POST /api/members`; `todayIso` is
`new Date().toISOString().split('T')[0]`. -/
def addMember (s : State) (todayIso : String) (req : MemberRequest) :
    State × Response Member :=
  let errors := memberErrors req
  if errors.length > 0 then (s, .invalid 400 errors)
  else
    match s.members.find? (fun m => m.email == strOf req.email) with
    | some _ => (s, .failure 400 "A member with this email already exists")
    | none =>
      let newMember : Member :=
        { id := nextId (s.members.map (fun m => m.id))
          name := jsTrim (strOf req.name)
          email := toLowerCase (jsTrim (strOf req.email))
          phone := jsTrim (strOf req.phone)
          membershipDate :=
            if truthyStr req.membershipDate then strOf req.membershipDate else todayIso
          borrowedBooks := [] }
      ({ s with members := s.members ++ [newMember] },
        .success 201 "Member registered successfully" newMember)

/-- The validation block of `PUT /api/members/:id`. -/
def memberUpdateErrors (req : MemberRequest) : List String :=
  let errors : List String := []
  let errors := pushIf (truthyStr req.name && jsTrim (strOf req.name) == "")
    "Name cannot be empty" errors
  let errors :=
    if truthyStr req.email && jsTrim (strOf req.email) != "" then
      pushIf (!emailRegex.test (strOf req.email)) "Invalid email format" errors
    else errors
  let errors := pushIf (truthyStr req.phone && !phoneRegex.test (strOf req.phone))
    "Phone must be 10 digits" errors
  errors

/-- The object `updatedMember` of `PUT /api/members/:id`. -/
def mergeMember (currentMember : Member) (req : MemberRequest) : Member :=
  { currentMember with
    name := if truthyStr req.name then jsTrim (strOf req.name) else currentMember.name
    email :=
      if truthyStr req.email then toLowerCase (jsTrim (strOf req.email))
      else currentMember.email
    phone := if truthyStr req.phone then jsTrim (strOf req.phone) else currentMember.phone }

/-- Handler of `PUT /api/members/:id`. -/
def updateMember (s : State) (memberId : Int) (req : MemberRequest) :
    State × Response Member :=
  match s.members.find? (fun m => m.id == memberId) with
  | none => (s, .failure 404 "Member not found")
  | some currentMember =>
    let errors := memberUpdateErrors req
    if errors.length > 0 then (s, .invalid 400 errors)
    else
      let updatedMember := mergeMember currentMember req
      ({ s with
          members := updateFirst (fun m => m.id == memberId) (fun _ => updatedMember) s.members },
        .success 200 "Member updated successfully" updatedMember)

/-- Handler of `DELETE /api/members/:id`. -/
def deleteMember (s : State) (memberId : Int) : State × Response Member :=
  match s.members.find? (fun m => m.id == memberId) with
  | none => (s, .failure 404 "Member not found")
  | some member =>
    if member.borrowedBooks.length > 0 then
      (s, .blocked 400 "Cannot delete member with borrowed books" member.borrowedBooks)
    else
      ({ s with members := s.members.eraseP (fun m => m.id == memberId) },
        .success 200 "Member deleted successfully" member)

/-- The object `newBook` of `POST /api/books`. -/
def newBookOf (s : State) (req : BookRequest) : Book :=
  { id := nextId (s.books.map (fun b => b.id))
    title := jsTrim (strOf req.title)
    author := jsTrim (strOf req.author)
    isbn := jsTrim (strOf req.isbn)
    category := jsTrim (strOf req.category)
    publishYear := parseInt (numOf req.publishYear)
    copies := parseInt (numOf req.copies)
    availableCopies := parseInt (numOf req.copies) }

/-- The object `newMember` of `POST /api/members`. -/
def newMemberOf (s : State) (todayIso : String) (req : MemberRequest) : Member :=
  { id := nextId (s.members.map (fun m => m.id))
    name := jsTrim (strOf req.name)
    email := toLowerCase (jsTrim (strOf req.email))
    phone := jsTrim (strOf req.phone)
    membershipDate :=
      if truthyStr req.membershipDate then strOf req.membershipDate else todayIso
    borrowedBooks := [] }

/-- No two books of the catalog have the same isbn. -/
def isbnUnique (books : List Book) : Prop := (books.map (fun b => b.isbn)).Nodup

instance (books : List Book) : Decidable (isbnUnique books) := by
  unfold isbnUnique; infer_instance

/-- A request body that leaves every book field out. -/
def emptyBookRequest : BookRequest :=
  { title := none, author := none, isbn := none, category := none,
    publishYear := none, copies := none }

/-- A request body that leaves every member field out. -/
def emptyMemberRequest : MemberRequest :=
  { name := none, email := none, phone := none, membershipDate := none }

/-- A complete add-book request whose isbn is the isbn of seed book 1. -/
def gatsbyAgain : BookRequest :=
  { title := some "The Great Gatsby (reprint)", author := some "F. Scott Fitzgerald",
    isbn := some "978-0-7432-7356-5", category := some "Fiction",
    publishYear := some 2004, copies := some 2 }

/-- A complete add-book request whose isbn is the isbn of seed book 1 with a
space before and after it. -/
def paddedGatsby : BookRequest :=
  { title := some "The Great Gatsby (reprint)", author := some "F. Scott Fitzgerald",
    isbn := some " 978-0-7432-7356-5 ", category := some "Fiction",
    publishYear := some 2004, copies := some 2 }

/-- A complete add-book request for a title the seed data does not have. -/
def duneRequest : BookRequest :=
  { title := some "Dune", author := some "Frank Herbert",
    isbn := some "978-0-441-17271-9", category := some "Science Fiction",
    publishYear := some 1965, copies := some 2 }

/-- A second complete add-book request, with another isbn. -/
def emmaRequest : BookRequest :=
  { title := some "Emma", author := some "Jane Austen",
    isbn := some "978-0-14-143958-7", category := some "Fiction",
    publishYear := some 1815, copies := some 1 }

/-- A complete registration request whose email is the email of seed member
1 with two letters in upper case. -/
def caseVariantRequest : MemberRequest :=
  { name := some "Johnny Doe", email := some "John.Doe@email.com",
    phone := some "5551234567", membershipDate := none }

/-- An update request that supplies only `copies = 1`. -/
def oneCopyUpdate : BookRequest := { emptyBookRequest with copies := some 1 }

/-- An update request that supplies only `copies = 1e21`. -/
def hugeCopiesUpdate : BookRequest :=
  { emptyBookRequest with copies := some 1000000000000000000000 }

/-- An update request that supplies only the empty string as title. -/
def emptyTitleUpdate : BookRequest := { emptyBookRequest with title := some "" }

/-- An update request that supplies only the isbn of seed book 1. -/
def isbnClashUpdate : BookRequest :=
  { emptyBookRequest with isbn := some "978-0-7432-7356-5" }

/-- The rule "field is blank", in the words of the specification: the field
is absent, or every character of it is whitespace (the empty string
included). -/
def IsBlank (v : Option String) : Prop :=
  v = none ∨ ∃ t, v = some t ∧ ∀ c ∈ t.data, isJsWhitespace c = true

/-- The rule "valid email shape", in the words of the specification: a
non-empty local part, an `@`, and a domain with a `.` that has something
before and after it; no whitespace and no further `@` anywhere. -/
def EmailShape (t : String) : Prop :=
  ∃ name dom tld : List Char,
    t.data = name ++ '@' :: (dom ++ '.' :: tld) ∧ name ≠ [] ∧ dom ≠ [] ∧ tld ≠ [] ∧
    ∀ c ∈ name ++ dom ++ tld, isJsWhitespace c = false ∧ c ≠ '@'

/-- The rule "exactly 10 digits", in the words of the specification. -/
def TenDigits (t : String) : Prop :=
  t.data.length = 10 ∧ ∀ c ∈ t.data, c ∈ ['0', '1', '2', '3', '4', '5', '6', '7', '8', '9']

/-- A registration request that breaks all three rules. -/
def allWrongRequest : MemberRequest :=
  { name := some "   ", email := some "john.doe.email.com", phone := some "12345",
    membershipDate := none }

/-- An update request that supplies only an email made of three spaces. -/
def blankEmailUpdate : MemberRequest := { emptyMemberRequest with email := some "   " }

/-! ## Loan listing, the registration form, and the predicates of the
remaining claims -/

/-- An element of `enrichedRecords`: the spread of a borrow record with
`memberName` and `bookTitle` added. -/
structure EnrichedRecord extends BorrowRecord where
  memberName : String
  bookTitle : String
deriving DecidableEq, Repr

/-- The body of `GET /api/borrow-records`: `{ success: true, count, data }`. -/
structure LoanListing where
  success : Bool
  count : Nat
  data : List EnrichedRecord
deriving DecidableEq, Repr

/-- The callback of `borrowRecords.map` in `GET /api/borrow-records`. -/
def enrich (s : State) (record : BorrowRecord) : EnrichedRecord :=
  let member := s.members.find? (fun m => m.id == record.memberId)
  let book := s.books.find? (fun b => b.id == record.bookId)
  { record with
    memberName := match member with
      | some m => m.name
      | none => "Unknown"
    bookTitle := match book with
      | some b => b.title
      | none => "Unknown" }

/-- Handler of `GET /api/borrow-records`: the state after the request and
the body sent. -/
def listLoans (s : State) : State × LoanListing :=
  let enrichedRecords := s.borrowRecords.map (enrich s)
  (s, { success := true, count := enrichedRecords.length, data := enrichedRecords })

/-- The method call `phone.replace(/\D/g, '')`: every character that is not
one of `0` to `9` is removed. -/
def stripNonDigits (phone : String) : String := String.mk (phone.data.filter isDigit09)

/-- The phone block of `validateForm` in the registration form: the value it
gives `newErrors.phone`, or `none` when it assigns nothing. -/
def formPhoneError (phone : String) : Option String :=
  if jsTrim phone == "" then some "Phone number is required"
  else if !phoneRegex.test (stripNonDigits phone) then
    some "Please enter a valid 10-digit phone number"
  else none

/-- Number of ledger records of the book that have the active status. -/
def activeLoansOf (rs : List BorrowRecord) (bookId : Int) : Nat :=
  rs.countP (isActiveLoanOf bookId)

/-- Every active ledger record names a member of the member list. -/
def ActiveOwned (s : State) : Prop :=
  ∀ r ∈ s.borrowRecords, r.status = "borrowed" → r.memberId ∈ s.members.map (fun m => m.id)

/-- What a ledger record keeps through a lending call, `r` before and `r2`
after: identity, pair and borrow and due dates; everything when it was
`'returned'`; and its status unless it goes from `'borrowed'` to
`'returned'`. -/
def RecordKept (r r2 : BorrowRecord) : Prop :=
  r2.id = r.id ∧ r2.memberId = r.memberId ∧ r2.bookId = r.bookId ∧
  r2.borrowDate = r.borrowDate ∧ r2.dueDate = r.dueDate ∧
  (r.status = "returned" → r2 = r) ∧
  (r2.status ≠ r.status → r.status = "borrowed" ∧ r2.status = "returned")

/-- Conservation of copies for one book through a call: `B` with ledger
`rs` before, `B2` with ledger `rs2` after; the id is the same and so is
`availableCopies` plus the number of active loans of the book. -/
def CopiesKept (rs rs2 : List BorrowRecord) (B B2 : Book) : Prop :=
  B2.id = B.id ∧
  B2.availableCopies.val + (activeLoansOf rs2 B2.id : Int) =
    B.availableCopies.val + (activeLoansOf rs B.id : Int)

/-- A complete registration request with a formatted phone number. -/
def formattedPhoneRequest : MemberRequest :=
  { name := some "Ada Lovelace", email := some "ada@example.org",
    phone := some "(123) 456-7890", membershipDate := none }

/-! ## States the API can reach -/

/-- States the server can be in after any sequence of requests to the routes
that write to the three arrays, starting from the seed data. -/
inductive ApiReachable : State → Prop where
  | seed : ApiReachable seed
  | addBook {s : State} (currentYear : JsNum) (req : BookRequest) :
      ApiReachable s → ApiReachable (addBook s currentYear req).1
  | updateBook {s : State} (currentYear : JsNum) (bookId : Int) (req : BookRequest) :
      ApiReachable s → ApiReachable (updateBook s currentYear bookId req).1
  | deleteBook {s : State} (bookId : Int) :
      ApiReachable s → ApiReachable (deleteBook s bookId).1
  | addMember {s : State} (todayIso : String) (req : MemberRequest) :
      ApiReachable s → ApiReachable (addMember s todayIso req).1
  | updateMember {s : State} (memberId : Int) (req : MemberRequest) :
      ApiReachable s → ApiReachable (updateMember s memberId req).1
  | deleteMember {s : State} (memberId : Int) :
      ApiReachable s → ApiReachable (deleteMember s memberId).1
  | borrow {s : State} (clock : Clock) (memberId bookId : Int) :
      ApiReachable s → ApiReachable (borrow s clock memberId bookId).1
  | returnBook {s : State} (today memberId bookId : Int) :
      ApiReachable s → ApiReachable (returnBook s today memberId bookId).1

/-- What every state the API can reach satisfies: the ledger invariant, every
active record names a member, and book ids are pairwise distinct. -/
def ApiInv (s : State) : Prop :=
  LedgerInv s ∧ ActiveOwned s ∧ (s.books.map (fun b => b.id)).Nodup

/-- The test `Number.isSafeInteger`: the magnitude is below `2^53`. -/
def isSafeInteger (x : JsNum) : Prop :=
  -9007199254740992 < x.val ∧ x.val < 9007199254740992

instance (x : JsNum) : Decidable (isSafeInteger x) := by
  unfold isSafeInteger; infer_instance

/-- A complete add-book request with `copies = 9007199254740994`, which is
`2^53 + 2`. -/
def hugeStockRequest : BookRequest :=
  { title := some "Dune", author := some "Frank Herbert",
    isbn := some "978-0-441-17271-9", category := some "Science Fiction",
    publishYear := some 1965, copies := some 9007199254740994 }

/-- The seed data after `POST /api/books` with `hugeStockRequest`: book 4 has
`2^53 + 2` copies, all available. -/
def hugeStock : State := (addBook seed 2026 hugeStockRequest).1

/-! # Theorems -/

/-! ## Rounding to a double -/

theorem ulp_small (fuel m : Nat) (h : m < 9007199254740992) : ulp fuel m = 1 := by
  cases fuel with
  | zero => rfl
  | succ f => simp [ulp, h]

theorem ulp_spec : ∀ (fuel m : Nat), m ≤ fuel → 9007199254740992 ≤ m →
    ∃ e, 1 ≤ e ∧ ulp fuel m = 2 ^ e ∧ 4503599627370496 * 2 ^ e ≤ m ∧
      m < 9007199254740992 * 2 ^ e := by
  intro fuel
  induction fuel with
  | zero => intro m h1 h2; omega
  | succ f ih =>
    intro m h1 h2
    have hnot : ¬ m < 9007199254740992 := by omega
    by_cases hh : m / 2 < 9007199254740992
    · refine ⟨1, le_refl _, ?_, ?_, ?_⟩
      · simp [ulp, hnot, ulp_small f _ hh]
      · omega
      · omega
    · obtain ⟨e, he1, he2, he3, he4⟩ := ih (m / 2) (by omega) (by omega)
      refine ⟨e + 1, by omega, ?_, ?_, ?_⟩
      · simp [ulp, hnot, he2, pow_succ, Nat.mul_comm]
      · rw [pow_succ]; omega
      · rw [pow_succ]; omega

theorem roundNat_eq_rnd (m : Nat) :
    roundNat m = rnd (ulp m m) (m / ulp m m) (m % ulp m m) := rfl

theorem rnd_ge (u q r : Nat) : q * u ≤ rnd u q r := by
  unfold rnd
  have h : (q + 1) * u = q * u + u := by ring
  split_ifs <;> omega

theorem rnd_le (u q r : Nat) : rnd u q r ≤ (q + 1) * u := by
  unfold rnd
  have h : (q + 1) * u = q * u + u := by ring
  split_ifs <;> omega

theorem rnd_cases (u q r : Nat) : rnd u q r = q * u ∨ rnd u q r = (q + 1) * u := by
  unfold rnd
  split_ifs <;> simp

theorem rnd_mono_r (u q r1 r2 : Nat) (h : r1 ≤ r2) : rnd u q r1 ≤ rnd u q r2 := by
  unfold rnd
  have h : (q + 1) * u = q * u + u := by ring
  split_ifs <;> omega

theorem rnd_zero (u q : Nat) (hu : 0 < u) : rnd u q 0 = q * u := by
  unfold rnd
  simp [hu]

theorem roundNat_small (m : Nat) (h : m < 9007199254740992) : roundNat m = m := by
  rw [roundNat_eq_rnd, ulp_small m m h]
  simp [rnd, Nat.mod_one]

theorem pow_unique (m e1 e2 : Nat) (h1 : 4503599627370496 * 2 ^ e1 ≤ m)
    (h2 : m < 9007199254740992 * 2 ^ e2) : e1 ≤ e2 := by
  by_contra hlt
  have h3 : 2 ^ (e2 + 1) ≤ 2 ^ e1 := Nat.pow_le_pow_right (by decide) (by omega)
  rw [pow_succ] at h3
  omega

theorem roundNat_of_bounds (m e q r : Nat) (he : 1 ≤ e) (hm : m = q * 2 ^ e + r)
    (hr : r < 2 ^ e) (hq1 : 4503599627370496 ≤ q) (hq2 : q < 9007199254740992) :
    roundNat m = rnd (2 ^ e) q r := by
  have hpos : 0 < 2 ^ e := Nat.pow_pos (by decide)
  have h2 : 2 * 2 ^ 1 ≤ 2 * 2 ^ e := by
    have := Nat.pow_le_pow_right (show 0 < 2 by decide) he
    omega
  have hlo : 4503599627370496 * 2 ^ e ≤ m := by
    rw [hm]
    have := Nat.mul_le_mul_right (2 ^ e) hq1
    omega
  have hhi : m < 9007199254740992 * 2 ^ e := by
    rw [hm]
    have := Nat.mul_le_mul_right (2 ^ e) (show q + 1 ≤ 9007199254740992 by omega)
    have h3 : (q + 1) * 2 ^ e = q * 2 ^ e + 2 ^ e := by ring
    omega
  have hbig : 9007199254740992 ≤ m := by
    have : 2 ^ 1 ≤ 2 ^ e := Nat.pow_le_pow_right (by decide) he
    omega
  obtain ⟨e2, _, hu, hlo2, hhi2⟩ := ulp_spec m m (le_refl _) hbig
  have hee : e2 = e :=
    le_antisymm (pow_unique m e2 e hlo2 hhi) (pow_unique m e e2 hlo hhi2)
  subst hee
  rw [roundNat_eq_rnd, hu]
  have hdiv : m / 2 ^ e2 = q := by
    rw [hm, Nat.mul_comm q, Nat.mul_add_div hpos, Nat.div_eq_of_lt hr]
    rfl
  have hmod : m % 2 ^ e2 = r := by
    rw [hm, Nat.mul_comm q, Nat.mul_add_mod, Nat.mod_eq_of_lt hr]
  rw [hdiv, hmod]

theorem roundNat_big (m : Nat) (h : 9007199254740992 ≤ m) :
    ∃ e q r, 1 ≤ e ∧ m = q * 2 ^ e + r ∧ r < 2 ^ e ∧ 4503599627370496 ≤ q ∧
      q < 9007199254740992 ∧ roundNat m = rnd (2 ^ e) q r := by
  obtain ⟨e, he, hu, hlo, hhi⟩ := ulp_spec m m (le_refl _) h
  have hpos : 0 < 2 ^ e := Nat.pow_pos (by decide)
  have hm : m = m / 2 ^ e * 2 ^ e + m % 2 ^ e := by
    rw [Nat.mul_comm]; exact (Nat.div_add_mod m (2 ^ e)).symm
  have hr : m % 2 ^ e < 2 ^ e := Nat.mod_lt _ hpos
  have hq1 : 4503599627370496 ≤ m / 2 ^ e := by
    rw [Nat.le_div_iff_mul_le hpos]; exact hlo
  have hq2 : m / 2 ^ e < 9007199254740992 := by
    rw [Nat.div_lt_iff_lt_mul hpos]; exact hhi
  exact ⟨e, m / 2 ^ e, m % 2 ^ e, he, hm, hr, hq1, hq2,
    roundNat_of_bounds m e _ _ he hm hr hq1 hq2⟩

theorem roundNat_mul_pow (k e : Nat) (he : 1 ≤ e) (hk1 : 4503599627370496 ≤ k)
    (hk2 : k ≤ 9007199254740992) : roundNat (k * 2 ^ e) = k * 2 ^ e := by
  have hpos : 0 < 2 ^ e := Nat.pow_pos (by decide)
  by_cases hk : k < 9007199254740992
  · rw [roundNat_of_bounds (k * 2 ^ e) e k 0 he (by simp) hpos hk1 hk, rnd_zero _ _ hpos]
  · have hk3 : k = 9007199254740992 := by omega
    have hpos2 : 0 < 2 ^ (e + 1) := Nat.pow_pos (by decide)
    have heq : k * 2 ^ e = 4503599627370496 * 2 ^ (e + 1) := by
      rw [hk3, pow_succ]; omega
    rw [heq, roundNat_of_bounds (4503599627370496 * 2 ^ (e + 1)) (e + 1) 4503599627370496 0
      (by omega) (by simp) hpos2 (le_refl _) (by decide), rnd_zero _ _ hpos2]

theorem roundNat_idem (m : Nat) : roundNat (roundNat m) = roundNat m := by
  by_cases h : m < 9007199254740992
  · rw [roundNat_small m h, roundNat_small m h]
  · obtain ⟨e, q, r, he, _, _, hq1, hq2, hrn⟩ := roundNat_big m (by omega)
    rw [hrn]
    rcases rnd_cases (2 ^ e) q r with h1 | h1
    · rw [h1]; exact roundNat_mul_pow q e he hq1 (by omega)
    · rw [h1]; exact roundNat_mul_pow (q + 1) e he (by omega) (by omega)

theorem roundNat_mono (m n : Nat) (h : m ≤ n) : roundNat m ≤ roundNat n := by
  by_cases hn : n < 9007199254740992
  · rw [roundNat_small m (by omega), roundNat_small n hn]; exact h
  · obtain ⟨en, qn, rn, hen, hnq, hrn, hqn1, hqn2, hroundn⟩ := roundNat_big n (by omega)
    have hposn : 0 < 2 ^ en := Nat.pow_pos (by decide)
    have hgen := rnd_ge (2 ^ en) qn rn
    have hqn : 4503599627370496 * 2 ^ en ≤ qn * 2 ^ en := Nat.mul_le_mul_right _ hqn1
    by_cases hm : m < 9007199254740992
    · rw [roundNat_small m hm, hroundn]
      have : 2 ^ 1 ≤ 2 ^ en := Nat.pow_le_pow_right (by decide) hen
      omega
    · obtain ⟨em, qm, rm, hem, hmq, hrm, hqm1, hqm2, hroundm⟩ := roundNat_big m (by omega)
      have hposm : 0 < 2 ^ em := Nat.pow_pos (by decide)
      have hlem := rnd_le (2 ^ em) qm rm
      have hqm : (qm + 1) * 2 ^ em ≤ 9007199254740992 * 2 ^ em :=
        Nat.mul_le_mul_right _ (by omega)
      rw [hroundm, hroundn]
      have hloM : 4503599627370496 * 2 ^ em ≤ m := by
        have := Nat.mul_le_mul_right (2 ^ em) hqm1
        omega
      have hhiN : n < 9007199254740992 * 2 ^ en := by
        have := Nat.mul_le_mul_right (2 ^ en) (show qn + 1 ≤ 9007199254740992 by omega)
        have h3 : (qn + 1) * 2 ^ en = qn * 2 ^ en + 2 ^ en := by ring
        omega
      have hee : em ≤ en := pow_unique m em en hloM (by omega)
      rcases Nat.lt_or_ge em en with hlt | hge
      · have h3 : 2 ^ (em + 1) ≤ 2 ^ en := Nat.pow_le_pow_right (by decide) hlt
        rw [pow_succ] at h3
        omega
      · have heq : em = en := by omega
        subst heq
        have hqle : qm ≤ qn := by
          by_contra hc
          have := Nat.mul_le_mul_right (2 ^ em) (show qn + 1 ≤ qm by omega)
          have h3 : (qn + 1) * 2 ^ em = qn * 2 ^ em + 2 ^ em := by ring
          omega
        rcases Nat.lt_or_ge qm qn with hlt | hge
        · have := Nat.mul_le_mul_right (2 ^ em) (show qm + 1 ≤ qn by omega)
          omega
        · have heq : qm = qn := by omega
          subst heq
          exact rnd_mono_r _ _ _ _ (by omega)

theorem roundNat_pos (m : Nat) (h : 0 < m) : 0 < roundNat m := by
  have := roundNat_mono 1 m h
  rw [roundNat_small 1 (by decide)] at this
  exact this

theorem roundDouble_idem (n : Int) : roundDouble (roundDouble n) = roundDouble n := by
  unfold roundDouble
  by_cases h : 0 ≤ n
  · have h2 : (0 : Int) ≤ (roundNat n.toNat : Int) := Int.ofNat_nonneg _
    simp only [h, if_true, h2, Int.toNat_ofNat, roundNat_idem]
  · have hpos : 0 < (-n).toNat := by omega
    have h2 := roundNat_pos _ hpos
    have h3 : ¬ (0 : Int) ≤ -(roundNat (-n).toNat : Int) := by omega
    simp only [h, if_false, h3, neg_neg, Int.toNat_ofNat, roundNat_idem]

theorem roundDouble_mono (a b : Int) (h : a ≤ b) : roundDouble a ≤ roundDouble b := by
  unfold roundDouble
  by_cases ha : 0 ≤ a
  · have hb : 0 ≤ b := le_trans ha h
    simp only [ha, hb, if_true]
    exact Int.ofNat_le.mpr (roundNat_mono _ _ (by omega))
  · by_cases hb : 0 ≤ b
    · simp only [ha, hb, if_true, if_false]
      have := Int.ofNat_nonneg (roundNat (-a).toNat)
      have := Int.ofNat_nonneg (roundNat b.toNat)
      omega
    · simp only [ha, hb, if_false]
      have := Int.ofNat_le.mpr (roundNat_mono (-b).toNat (-a).toNat (by omega))
      omega

theorem roundDouble_exact (n : Int) (h1 : -9007199254740992 ≤ n) (h2 : n ≤ 9007199254740992) :
    roundDouble n = n := by
  unfold roundDouble
  by_cases h : 0 ≤ n
  · simp only [h, if_true]
    by_cases h3 : n.toNat < 9007199254740992
    · rw [roundNat_small _ h3]; omega
    · have h4 : n.toNat = 9007199254740992 := by omega
      rw [h4]
      have : roundNat 9007199254740992 = 9007199254740992 := by decide
      rw [this]; omega
  · simp only [h, if_false]
    by_cases h3 : (-n).toNat < 9007199254740992
    · rw [roundNat_small _ h3]; omega
    · have h4 : (-n).toNat = 9007199254740992 := by omega
      rw [h4]
      have : roundNat 9007199254740992 = 9007199254740992 := by decide
      rw [this]; omega

theorem toJsNum_val (n : Int) : (toJsNum n).val = roundDouble n := by
  unfold toJsNum
  rw [dif_pos (roundDouble_idem n)]

theorem ofNat_val (n : Nat) : (OfNat.ofNat n : JsNum).val = roundDouble n := toJsNum_val n

theorem sub_val (a b : JsNum) : (a - b).val = roundDouble (a.val - b.val) :=
  toJsNum_val _

theorem add_val (a b : JsNum) : (a + b).val = roundDouble (a.val + b.val) :=
  toJsNum_val _

theorem zero_val : (0 : JsNum).val = 0 := by decide

theorem one_val : (1 : JsNum).val = 1 := by decide

theorem le_iff_val (a b : JsNum) : a ≤ b ↔ a.val ≤ b.val := Iff.rfl

theorem lt_iff_val (a b : JsNum) : a < b ↔ a.val < b.val := Iff.rfl

/-- Subtracting 1 never goes up. -/
theorem dec_le (a : JsNum) : a - 1 ≤ a := by
  rw [le_iff_val, sub_val, one_val]
  have h := roundDouble_mono (a.val - 1) a.val (by omega)
  rw [a.property] at h
  exact h

/-- Subtracting 1 from a positive number does not go below 0. -/
theorem dec_nonneg (a : JsNum) (h : 0 < a) : 0 ≤ a - 1 := by
  rw [lt_iff_val, zero_val] at h
  rw [le_iff_val, sub_val, one_val, zero_val]
  have h2 := roundDouble_mono 0 (a.val - 1) (by omega)
  rw [roundDouble_exact 0 (by decide) (by decide)] at h2
  exact h2

/-- Subtracting 1 from a number above 1 stays above 0. -/
theorem dec_pos (a : JsNum) (h : 1 < a) : 0 < a - 1 := by
  rw [lt_iff_val, one_val] at h
  rw [lt_iff_val, sub_val, one_val, zero_val]
  have h2 := roundDouble_mono 1 (a.val - 1) (by omega)
  rw [roundDouble_exact 1 (by decide) (by decide)] at h2
  omega

/-- Subtracting 1 from a number that is at most 1 gives at most 0. -/
theorem dec_nonpos (a : JsNum) (h : a ≤ 1) : a - 1 ≤ 0 := by
  rw [le_iff_val, one_val] at h
  rw [le_iff_val, sub_val, one_val, zero_val]
  have h2 := roundDouble_mono (a.val - 1) 0 (by omega)
  rw [roundDouble_exact 0 (by decide) (by decide)] at h2
  exact h2

/-- Adding 1 to a number below `c` does not pass `c`. -/
theorem inc_le (a c : JsNum) (h : a < c) : a + 1 ≤ c := by
  rw [lt_iff_val] at h
  rw [le_iff_val, add_val, one_val]
  have h2 := roundDouble_mono (a.val + 1) c.val (by omega)
  rw [c.property] at h2
  exact h2

/-- Adding 1 never goes down. -/
theorem le_inc (a : JsNum) : a ≤ a + 1 := by
  rw [le_iff_val, add_val, one_val]
  have h := roundDouble_mono a.val (a.val + 1) (by omega)
  rw [a.property] at h
  exact h

/-- Subtracting 1 is exact up to `2^53`. -/
theorem dec_val_exact (a : JsNum) (h1 : -9007199254740992 < a.val)
    (h2 : a.val ≤ 9007199254740992) : (a - 1).val = a.val - 1 := by
  rw [sub_val, one_val]
  exact roundDouble_exact _ (by omega) (by omega)

/-- Adding 1 is exact below `2^53`. -/
theorem inc_val_exact (a : JsNum) (h1 : -9007199254740992 ≤ a.val)
    (h2 : a.val < 9007199254740992) : (a + 1).val = a.val + 1 := by
  rw [add_val, one_val]
  exact roundDouble_exact _ (by omega) (by omega)

/-- Subtracting 1 and adding 1 again gives the number back up to `2^53`. -/
theorem dec_inc_exact (a : JsNum) (h1 : -9007199254740992 < a.val)
    (h2 : a.val ≤ 9007199254740992) : a - 1 + 1 = a := by
  apply Subtype.ext
  rw [add_val, one_val, dec_val_exact a h1 h2]
  rw [show a.val - 1 + 1 = a.val by omega]
  exact a.property

/-- Below `10^21` the function `parseInt` gives its argument back. -/
theorem parseInt_small (x : JsNum) (h : x.val.natAbs < 1000000000000000000000) :
    parseInt x = x := by
  unfold parseInt
  rw [if_pos h]


/-! ## Auxiliary facts about `updateFirst` -/

theorem updateFirst_append_cons {α : Type} (p : α → Bool) (f : α → α) (l1 l2 : List α) (x : α)
    (hx : p x = true) (h1 : ∀ y ∈ l1, p y = false) :
    updateFirst p f (l1 ++ x :: l2) = l1 ++ f x :: l2 := by
  induction l1 with
  | nil => simp [updateFirst, hx]
  | cons y ys ih =>
    have hy : p y = false := h1 y (List.mem_cons_self _ _)
    have hys : ∀ z ∈ ys, p z = false := fun z hz => h1 z (List.mem_cons_of_mem _ hz)
    simp [updateFirst, hy, ih hys]

theorem updateFirst_of_find?_none {α : Type} (p : α → Bool) (f : α → α) (l : List α)
    (h : l.find? p = none) : updateFirst p f l = l := by
  induction l with
  | nil => rfl
  | cons y ys ih =>
    by_cases hy : p y = true
    · simp [List.find?, hy] at h
    · have hy2 : p y = false := by simpa using hy
      simp only [List.find?, hy2] at h
      simp [updateFirst, hy2, ih h]

theorem find?_split {α : Type} {p : α → Bool} {l : List α} {x : α}
    (h : l.find? p = some x) :
    p x = true ∧ ∃ l1 l2, l = l1 ++ x :: l2 ∧ ∀ y ∈ l1, p y = false := by
  obtain ⟨hx, l1, l2, hl, hn⟩ := List.find?_eq_some.mp h
  exact ⟨hx, l1, l2, hl, fun y hy => by simpa using hn y hy⟩

theorem updateFirst_of_find?_some {α : Type} {p : α → Bool} (f : α → α) {l : List α} {x : α}
    (h : l.find? p = some x) :
    ∃ l1 l2, l = l1 ++ x :: l2 ∧ (∀ y ∈ l1, p y = false) ∧
      updateFirst p f l = l1 ++ f x :: l2 := by
  obtain ⟨hx, l1, l2, hl, hn⟩ := find?_split h
  exact ⟨l1, l2, hl, hn, by rw [hl]; exact updateFirst_append_cons p f l1 l2 x hx hn⟩

theorem find?_updateFirst {α : Type} (p : α → Bool) (f : α → α) (l : List α)
    (hf : ∀ x, p (f x) = p x) :
    (updateFirst p f l).find? p = (l.find? p).map f := by
  induction l with
  | nil => rfl
  | cons y ys ih =>
    by_cases hy : p y = true
    · simp [updateFirst, List.find?, hy, hf]
    · have hy2 : p y = false := by simpa using hy
      simp [updateFirst, List.find?, hy2, ih]

theorem mem_updateFirst {α : Type} {p : α → Bool} {f : α → α} {l : List α} {y : α}
    (h : y ∈ updateFirst p f l) : y ∈ l ∨ ∃ x, l.find? p = some x ∧ y = f x := by
  cases hf : l.find? p with
  | none =>
    rw [updateFirst_of_find?_none p f l hf] at h
    exact Or.inl h
  | some x =>
    obtain ⟨l1, l2, hl, _, hu⟩ := updateFirst_of_find?_some f hf
    rw [hu] at h
    rcases List.mem_append.mp h with h1 | h1
    · exact Or.inl (by rw [hl]; exact List.mem_append_left _ h1)
    · rcases List.mem_cons.mp h1 with h2 | h2
      · exact Or.inr ⟨x, rfl, h2⟩
      · exact Or.inl (by rw [hl]; exact List.mem_append_right _ (List.mem_cons_of_mem _ h2))

theorem countP_updateFirst_same {α : Type} (p : α → Bool) (f : α → α) (l : List α) (x : α)
    (hf : ∀ a, p a = true → p (f a) = false) (h : l.find? p = some x) :
    (updateFirst p f l).countP p + 1 = l.countP p := by
  obtain ⟨hx, _⟩ := find?_split h
  obtain ⟨l1, l2, hl, _, hu⟩ := updateFirst_of_find?_some f h
  rw [hu, hl]
  simp [List.countP_append, List.countP_cons, hx, hf x hx]
  omega

theorem countP_updateFirst_other {α : Type} (p q : α → Bool) (f : α → α) (l : List α)
    (hf : ∀ a, p a = true → q (f a) = q a) :
    (updateFirst p f l).countP q = l.countP q := by
  cases h : l.find? p with
  | none => rw [updateFirst_of_find?_none p f l h]
  | some x =>
    obtain ⟨hx, _⟩ := find?_split h
    obtain ⟨l1, l2, hl, _, hu⟩ := updateFirst_of_find?_some f h
    rw [hu, hl]
    simp [List.countP_append, List.countP_cons, hf x hx]

theorem find?_eq_none_of_countP {α : Type} (p : α → Bool) (l : List α)
    (h : l.countP p = 0) : l.find? p = none := by
  rw [List.find?_eq_none]
  intro x hx hpx
  have := List.countP_pos_iff.mpr ⟨x, hx, hpx⟩
  omega

theorem countP_eq_zero_of_find? {α : Type} (p : α → Bool) (l : List α)
    (h : l.find? p = none) : l.countP p = 0 := by
  rw [List.find?_eq_none] at h
  rw [List.countP_eq_zero]
  exact h

theorem isActiveFor_iff (memberId bookId : Int) (r : BorrowRecord) :
    isActiveFor memberId bookId r = true ↔
      r.memberId = memberId ∧ r.bookId = bookId ∧ r.status = "borrowed" := by
  simp [isActiveFor, and_assoc]

theorem updateFirst_append_of_none {α : Type} (p : α → Bool) (f : α → α) (l : List α) (x : α)
    (h : l.find? p = none) (hx : p x = true) :
    updateFirst p f (l ++ [x]) = l ++ [f x] := by
  refine updateFirst_append_cons p f l [] x hx ?_
  intro y hy
  have := List.find?_eq_none.mp h y hy
  simpa using this

theorem updateFirst_append_of_some {α : Type} (p : α → Bool) (f : α → α) (l l' : List α)
    (y : α) (h : l.find? p = some y) :
    updateFirst p f (l ++ l') = updateFirst p f l ++ l' := by
  obtain ⟨hy, l1, l2, hl, hn⟩ := find?_split h
  rw [hl, updateFirst_append_cons p f l1 l2 y hy hn, List.append_assoc, List.cons_append,
    updateFirst_append_cons p f l1 (l2 ++ l') y hy hn, List.append_assoc, List.cons_append]

theorem updateFirst_updateFirst {α : Type} (p : α → Bool) (f g : α → α) (l : List α)
    (hp : ∀ a, p (f a) = p a) :
    updateFirst p g (updateFirst p f l) = updateFirst p (fun a => g (f a)) l := by
  cases h : l.find? p with
  | none =>
    rw [updateFirst_of_find?_none p f l h, updateFirst_of_find?_none p g l h,
      updateFirst_of_find?_none p _ l h]
  | some x =>
    obtain ⟨hx, l1, l2, hl, hn⟩ := find?_split h
    rw [hl, updateFirst_append_cons p f l1 l2 x hx hn,
      updateFirst_append_cons p g l1 l2 (f x) (by rw [hp, hx]) hn,
      updateFirst_append_cons p _ l1 l2 x hx hn]

theorem updateFirst_updateFirst_cancel {α : Type} (p : α → Bool) (f g : α → α) (l : List α)
    (hp : ∀ a, p (f a) = p a) (hgf : ∀ a, l.find? p = some a → g (f a) = a) :
    updateFirst p g (updateFirst p f l) = l := by
  cases h : l.find? p with
  | none =>
    rw [updateFirst_of_find?_none p f l h, updateFirst_of_find?_none p g l h]
  | some x =>
    obtain ⟨hx, l1, l2, hl, hn⟩ := find?_split h
    have hg := hgf x h
    rw [hl, updateFirst_append_cons p f l1 l2 x hx hn,
      updateFirst_append_cons p g l1 l2 (f x) (by rw [hp, hx]) hn, hg]

/-! ## Unfolding the handlers -/

theorem borrow_member_none {s : State} {clock : Clock} {memberId bookId : Int}
    (h : s.members.find? (fun m => m.id == memberId) = none) :
    borrow s clock memberId bookId = (s, .failure 404 "Member not found") := by
  simp [borrow, h]

theorem borrow_book_none {s : State} {clock : Clock} {memberId bookId : Int} {member : Member}
    (hm : s.members.find? (fun m => m.id == memberId) = some member)
    (hb : s.books.find? (fun b => b.id == bookId) = none) :
    borrow s clock memberId bookId = (s, .failure 404 "Book not found") := by
  simp [borrow, hm, hb]

theorem borrow_unavailable {s : State} {clock : Clock} {memberId bookId : Int} {member : Member}
    {book : Book}
    (hm : s.members.find? (fun m => m.id == memberId) = some member)
    (hb : s.books.find? (fun b => b.id == bookId) = some book)
    (ha : book.availableCopies ≤ 0) :
    borrow s clock memberId bookId = (s, .failure 400 "No copies available for this book") := by
  simp [borrow, hm, hb, ha]

theorem borrow_conflict {s : State} {clock : Clock} {memberId bookId : Int} {member : Member}
    {book : Book}
    (hm : s.members.find? (fun m => m.id == memberId) = some member)
    (hb : s.books.find? (fun b => b.id == bookId) = some book)
    (ha : 0 < book.availableCopies) (hin : book.id ∈ member.borrowedBooks) :
    borrow s clock memberId bookId =
      (s, .failure 400 "Member has already borrowed this book") := by
  have ha2 : ¬ book.availableCopies ≤ 0 := not_le.mpr ha
  simp [borrow, hm, hb, ha2, hin]

theorem borrow_success {s : State} {clock : Clock} {memberId bookId : Int} {member : Member}
    {book : Book}
    (hm : s.members.find? (fun m => m.id == memberId) = some member)
    (hb : s.books.find? (fun b => b.id == bookId) = some book)
    (ha : 0 < book.availableCopies) (hin : book.id ∉ member.borrowedBooks) :
    borrow s clock memberId bookId =
      ({ books := updateFirst (fun b => b.id == bookId)
            (fun b => { b with availableCopies := b.availableCopies - 1 }) s.books
         members := updateFirst (fun m => m.id == memberId)
            (fun m => { m with borrowedBooks := m.borrowedBooks ++ [book.id] }) s.members
         borrowRecords := s.borrowRecords ++
            [{ id := nextId (s.borrowRecords.map (fun r => r.id))
               memberId := member.id, bookId := book.id
               borrowDate := clock.borrowDate, dueDate := clock.dueDate
               returnDate := none, status := "borrowed" }] },
       .success 201 "Book borrowed successfully"
        { record := { id := nextId (s.borrowRecords.map (fun r => r.id))
                      memberId := member.id, bookId := book.id
                      borrowDate := clock.borrowDate, dueDate := clock.dueDate
                      returnDate := none, status := "borrowed" }
          book := { title := book.title, author := book.author }
          member := { name := member.name, email := member.email }
          dueDate := clock.dueDate }) := by
  have ha2 : ¬ book.availableCopies ≤ 0 := not_le.mpr ha
  simp [borrow, hm, hb, ha2, hin]

theorem find?_id_eq {α : Type} {idOf : α → Int} {l : List α} {i : Int} {x : α}
    (h : l.find? (fun a => idOf a == i) = some x) : idOf x = i := by
  have := List.find?_some h
  simpa using this

/-- Every outcome of `borrow` is one of the five branches of the handler. -/
theorem borrow_cases (s : State) (clock : Clock) (memberId bookId : Int) :
    (s.members.find? (fun m => m.id == memberId) = none ∧
      borrow s clock memberId bookId = (s, .failure 404 "Member not found")) ∨
    (∃ member, s.members.find? (fun m => m.id == memberId) = some member ∧
      s.books.find? (fun b => b.id == bookId) = none ∧
      borrow s clock memberId bookId = (s, .failure 404 "Book not found")) ∨
    (∃ member book, s.members.find? (fun m => m.id == memberId) = some member ∧
      s.books.find? (fun b => b.id == bookId) = some book ∧ book.availableCopies ≤ 0 ∧
      borrow s clock memberId bookId =
        (s, .failure 400 "No copies available for this book")) ∨
    (∃ member book, s.members.find? (fun m => m.id == memberId) = some member ∧
      s.books.find? (fun b => b.id == bookId) = some book ∧ 0 < book.availableCopies ∧
      book.id ∈ member.borrowedBooks ∧
      borrow s clock memberId bookId =
        (s, .failure 400 "Member has already borrowed this book")) ∨
    (∃ member book, s.members.find? (fun m => m.id == memberId) = some member ∧
      s.books.find? (fun b => b.id == bookId) = some book ∧ 0 < book.availableCopies ∧
      book.id ∉ member.borrowedBooks ∧
      ∃ d, borrow s clock memberId bookId =
        ({ books := updateFirst (fun b => b.id == bookId)
              (fun b => { b with availableCopies := b.availableCopies - 1 }) s.books
           members := updateFirst (fun m => m.id == memberId)
              (fun m => { m with borrowedBooks := m.borrowedBooks ++ [book.id] }) s.members
           borrowRecords := s.borrowRecords ++
              [{ id := nextId (s.borrowRecords.map (fun r => r.id))
                 memberId := member.id, bookId := book.id
                 borrowDate := clock.borrowDate, dueDate := clock.dueDate
                 returnDate := none, status := "borrowed" }] },
         .success 201 "Book borrowed successfully" d)) := by
  cases hm : s.members.find? (fun m => m.id == memberId) with
  | none => exact Or.inl ⟨rfl, borrow_member_none hm⟩
  | some member =>
    cases hb : s.books.find? (fun b => b.id == bookId) with
    | none => exact Or.inr (Or.inl ⟨member, rfl, rfl, borrow_book_none hm hb⟩)
    | some book =>
      by_cases ha : book.availableCopies ≤ 0
      · exact Or.inr (Or.inr (Or.inl ⟨member, book, rfl, rfl, ha, borrow_unavailable hm hb ha⟩))
      · have ha2 : 0 < book.availableCopies := not_le.mp ha
        by_cases hin : book.id ∈ member.borrowedBooks
        · exact Or.inr (Or.inr (Or.inr (Or.inl
            ⟨member, book, rfl, rfl, ha2, hin, borrow_conflict hm hb ha2 hin⟩)))
        · exact Or.inr (Or.inr (Or.inr (Or.inr
            ⟨member, book, rfl, rfl, ha2, hin, _, borrow_success hm hb ha2 hin⟩)))

theorem returnBook_member_none {s : State} {today memberId bookId : Int}
    (h : s.members.find? (fun m => m.id == memberId) = none) :
    returnBook s today memberId bookId = (s, .failure 404 "Member not found") := by
  simp [returnBook, h]

theorem returnBook_book_none {s : State} {today memberId bookId : Int} {member : Member}
    (hm : s.members.find? (fun m => m.id == memberId) = some member)
    (hb : s.books.find? (fun b => b.id == bookId) = none) :
    returnBook s today memberId bookId = (s, .failure 404 "Book not found") := by
  simp [returnBook, hm, hb]

theorem returnBook_no_record {s : State} {today memberId bookId : Int} {member : Member}
    {book : Book}
    (hm : s.members.find? (fun m => m.id == memberId) = some member)
    (hb : s.books.find? (fun b => b.id == bookId) = some book)
    (hr : s.borrowRecords.find? (isActiveFor member.id book.id) = none) :
    returnBook s today memberId bookId =
      (s, .failure 400 "No active borrow record found for this member and book") := by
  simp only [returnBook, hm, hb, hr]

theorem returnBook_success {s : State} {today memberId bookId : Int} {member : Member}
    {book : Book} {found : BorrowRecord}
    (hm : s.members.find? (fun m => m.id == memberId) = some member)
    (hb : s.books.find? (fun b => b.id == bookId) = some book)
    (hr : s.borrowRecords.find? (isActiveFor member.id book.id) = some found) :
    returnBook s today memberId bookId =
      (returnedState s today memberId bookId member book,
       .success 200 "Book returned successfully"
        { record := { found with returnDate := some today, status := "returned" }
          book := { title := book.title, author := book.author }
          member := { name := member.name, email := member.email }
          isLate := (lateFee found.dueDate today).1
          daysLate := (lateFee found.dueDate today).2.1
          fine := (lateFee found.dueDate today).2.2 }) := by
  simp only [returnBook, hm, hb, hr, returnedState, lateFee]

/-- Every outcome of `returnBook` is one of the four branches of the handler. -/
theorem returnBook_cases (s : State) (today memberId bookId : Int) :
    (s.members.find? (fun m => m.id == memberId) = none ∧
      returnBook s today memberId bookId = (s, .failure 404 "Member not found")) ∨
    (∃ member, s.members.find? (fun m => m.id == memberId) = some member ∧
      s.books.find? (fun b => b.id == bookId) = none ∧
      returnBook s today memberId bookId = (s, .failure 404 "Book not found")) ∨
    (∃ member book, s.members.find? (fun m => m.id == memberId) = some member ∧
      s.books.find? (fun b => b.id == bookId) = some book ∧
      s.borrowRecords.find? (isActiveFor member.id book.id) = none ∧
      returnBook s today memberId bookId =
        (s, .failure 400 "No active borrow record found for this member and book")) ∨
    (∃ member book found, s.members.find? (fun m => m.id == memberId) = some member ∧
      s.books.find? (fun b => b.id == bookId) = some book ∧
      s.borrowRecords.find? (isActiveFor member.id book.id) = some found ∧
      returnBook s today memberId bookId =
        (returnedState s today memberId bookId member book,
         .success 200 "Book returned successfully"
          { record := { found with returnDate := some today, status := "returned" }
            book := { title := book.title, author := book.author }
            member := { name := member.name, email := member.email }
            isLate := (lateFee found.dueDate today).1
            daysLate := (lateFee found.dueDate today).2.1
            fine := (lateFee found.dueDate today).2.2 })) := by
  cases hm : s.members.find? (fun m => m.id == memberId) with
  | none => exact Or.inl ⟨rfl, returnBook_member_none hm⟩
  | some member =>
    cases hb : s.books.find? (fun b => b.id == bookId) with
    | none => exact Or.inr (Or.inl ⟨member, rfl, rfl, returnBook_book_none hm hb⟩)
    | some book =>
      cases hr : s.borrowRecords.find? (isActiveFor member.id book.id) with
      | none =>
        exact Or.inr (Or.inr (Or.inl ⟨member, book, rfl, rfl, hr, returnBook_no_record hm hb hr⟩))
      | some found =>
        exact Or.inr (Or.inr (Or.inr
          ⟨member, book, found, rfl, rfl, hr, returnBook_success hm hb hr⟩))

theorem msPerDay_pos : 0 < msPerDay := by decide

theorem lateFee_eq (due today : Int) :
    lateFee due today =
      (decide (today > due), (if today > due then today - due else 0),
        (if today > due then (today - due) * 5 else 0)) := by
  have hpos := msPerDay_pos
  have hiff : dateMs today > dateMs due ↔ today > due := by
    unfold dateMs
    constructor
    · intro h
      exact lt_of_mul_lt_mul_right h (le_of_lt hpos)
    · intro h
      exact mul_lt_mul_of_pos_right h hpos
  have hdiv : Int.fdiv (dateMs today - dateMs due) msPerDay = today - due := by
    rw [Int.fdiv_eq_ediv _ (le_of_lt hpos)]
    unfold dateMs
    rw [← sub_mul]
    exact Int.mul_ediv_cancel _ (ne_of_gt hpos)
  unfold lateFee
  by_cases h : today > due
  · have h2 : dateMs today > dateMs due := hiff.mpr h
    simp [h, h2, hdiv]
  · have h2 : ¬ dateMs today > dateMs due := fun h3 => h (hiff.mp h3)
    simp [h, h2]

theorem borrow_fst_of_success {s : State} {clock : Clock} {memberId bookId : Int} {status : Nat}
    {message : String} {data : BorrowData}
    (h : (borrow s clock memberId bookId).2 = .success status message data) :
    ∃ member book, s.members.find? (fun m => m.id == memberId) = some member ∧
      s.books.find? (fun b => b.id == bookId) = some book ∧ 0 < book.availableCopies ∧
      book.id ∉ member.borrowedBooks ∧
      (borrow s clock memberId bookId).1 = borrowedState s clock memberId bookId member book := by
  rcases borrow_cases s clock memberId bookId with
    ⟨_, h2⟩ | ⟨_, _, _, h2⟩ | ⟨_, _, _, _, _, h2⟩ | ⟨_, _, _, _, _, _, h2⟩ |
    ⟨member, book, hm, hb, ha, hin, _, h2⟩
  · rw [h2] at h; simp at h
  · rw [h2] at h; simp at h
  · rw [h2] at h; simp at h
  · rw [h2] at h; simp at h
  · exact ⟨member, book, hm, hb, ha, hin, by rw [h2]; rfl⟩

theorem returnBook_fst_of_success {s : State} {today memberId bookId : Int} {status : Nat}
    {message : String} {data : ReturnData}
    (h : (returnBook s today memberId bookId).2 = .success status message data) :
    ∃ member book found, s.members.find? (fun m => m.id == memberId) = some member ∧
      s.books.find? (fun b => b.id == bookId) = some book ∧
      s.borrowRecords.find? (isActiveFor member.id book.id) = some found ∧
      (returnBook s today memberId bookId).1 =
        returnedState s today memberId bookId member book := by
  rcases returnBook_cases s today memberId bookId with
    ⟨_, h2⟩ | ⟨_, _, _, h2⟩ | ⟨_, _, _, _, _, h2⟩ | ⟨member, book, found, hm, hb, hr, h2⟩
  · rw [h2] at h; simp at h
  · rw [h2] at h; simp at h
  · rw [h2] at h; simp at h
  · exact ⟨member, book, found, hm, hb, hr, by rw [h2]⟩

theorem borrowedState_find_member {s : State} {clock : Clock} {memberId bookId : Int} {member : Member}
    (book : Book) (hm : s.members.find? (fun m => m.id == memberId) = some member) :
    (borrowedState s clock memberId bookId member book).members.find?
        (fun m => m.id == memberId) =
      some { member with borrowedBooks := member.borrowedBooks ++ [book.id] } := by
  unfold borrowedState
  simp only
  refine (find?_updateFirst _ _ _ ?_).trans ?_
  · intro x; rfl
  · rw [hm]; rfl

theorem borrowedState_find_book {s : State} {clock : Clock} {memberId bookId : Int} (member : Member)
    {book : Book} (hb : s.books.find? (fun b => b.id == bookId) = some book) :
    (borrowedState s clock memberId bookId member book).books.find?
        (fun b => b.id == bookId) =
      some { book with availableCopies := book.availableCopies - 1 } := by
  unfold borrowedState
  simp only
  refine (find?_updateFirst _ _ _ ?_).trans ?_
  · intro x; rfl
  · rw [hb]; rfl

theorem returnedState_find_member {s : State} {today memberId bookId : Int} {member : Member}
    (book : Book) (hm : s.members.find? (fun m => m.id == memberId) = some member) :
    (returnedState s today memberId bookId member book).members.find?
        (fun m => m.id == memberId) =
      some { member with
        borrowedBooks := member.borrowedBooks.filter (fun id => id != book.id) } := by
  unfold returnedState
  simp only
  refine (find?_updateFirst _ _ _ ?_).trans ?_
  · intro x; rfl
  · rw [hm]; rfl

theorem returnedState_find_book {s : State} {today memberId bookId : Int} (member : Member)
    {book : Book} (hb : s.books.find? (fun b => b.id == bookId) = some book) :
    (returnedState s today memberId bookId member book).books.find?
        (fun b => b.id == bookId) =
      some { book with availableCopies := book.availableCopies + 1 } := by
  unfold returnedState
  simp only
  refine (find?_updateFirst _ _ _ ?_).trans ?_
  · intro x; rfl
  · rw [hb]; rfl

theorem isActiveFor_closed (memberId bookId today : Int) (r : BorrowRecord) :
    isActiveFor memberId bookId { r with returnDate := some today, status := "returned" } =
      false := by
  simp [isActiveFor]

theorem returnedState_activeCount {s : State} {today memberId bookId : Int} {member : Member}
    {book : Book} {found : BorrowRecord}
    (hr : s.borrowRecords.find? (isActiveFor member.id book.id) = some found) :
    activeCount (returnedState s today memberId bookId member book).borrowRecords
        member.id book.id + 1 =
      activeCount s.borrowRecords member.id book.id := by
  unfold returnedState activeCount
  exact countP_updateFirst_same _ _ _ found
    (fun a _ => isActiveFor_closed member.id book.id today a) hr

theorem borrow_data_of_success {s : State} {clock : Clock} {memberId bookId : Int} {status : Nat}
    {message : String} {data : BorrowData} {member : Member} {book : Book}
    (hm : s.members.find? (fun m => m.id == memberId) = some member)
    (hb : s.books.find? (fun b => b.id == bookId) = some book)
    (h : (borrow s clock memberId bookId).2 = .success status message data) :
    data.record =
      { id := nextId (s.borrowRecords.map (fun r => r.id))
        memberId := member.id, bookId := book.id
        borrowDate := clock.borrowDate, dueDate := clock.dueDate
        returnDate := none, status := "borrowed" } := by
  obtain ⟨member2, book2, hm2, hb2, ha, hin, _⟩ := borrow_fst_of_success h
  rw [hm] at hm2
  rw [hb] at hb2
  obtain rfl : member = member2 := Option.some.inj hm2
  obtain rfl : book = book2 := Option.some.inj hb2
  rw [borrow_success hm hb ha hin] at h
  simp only [Response.success.injEq] at h
  rw [← h.2.2]

theorem filter_ne_append_self (l : List Int) (b : Int) (h : b ∉ l) :
    (l ++ [b]).filter (fun id => id != b) = l := by
  rw [List.filter_append]
  have h1 : l.filter (fun id => id != b) = l := by
    rw [List.filter_eq_self]
    intro a ha
    have : a ≠ b := fun hab => h (hab ▸ ha)
    simpa using this
  simp [h1]

/-- The catalog after a borrow and the return of the same book: the book has
had 1 subtracted and 1 added. -/
theorem round_trip_books {s : State} {clock : Clock} {memberId bookId today2 : Int}
    (member : Member) (book : Book) (member1 : Member) (book1 : Book) :
    (returnedState (borrowedState s clock memberId bookId member book) today2 memberId bookId
      member1 book1).books =
      updateFirst (fun b => b.id == bookId)
        (fun b => { b with availableCopies := b.availableCopies - 1 + 1 }) s.books := by
  unfold returnedState borrowedState
  simp only
  refine (updateFirst_updateFirst _ _ _ _ ?_).trans ?_
  · intro a; rfl
  · rfl

theorem round_trip_members {s : State} {clock : Clock} {memberId bookId today2 : Int} {member : Member}
    {book : Book} (member1 : Member) (book1 : Book)
    (hm : s.members.find? (fun m => m.id == memberId) = some member)
    (hin : book.id ∉ member.borrowedBooks) (hid : book1.id = book.id) :
    (returnedState (borrowedState s clock memberId bookId member book) today2 memberId bookId
      member1 book1).members = s.members := by
  unfold returnedState borrowedState
  simp only
  refine updateFirst_updateFirst_cancel _ _ _ _ (fun _ => rfl) ?_
  intro a ha
  rw [hm] at ha
  obtain rfl : member = a := Option.some.inj ha
  simp only [hid, filter_ne_append_self _ _ hin]

theorem eraseP_append_cons {α : Type} (p : α → Bool) (l1 l2 : List α) (x : α)
    (hx : p x = true) (h1 : ∀ y ∈ l1, p y = false) :
    (l1 ++ x :: l2).eraseP p = l1 ++ l2 := by
  induction l1 with
  | nil => simp [List.eraseP_cons, hx]
  | cons y ys ih =>
    have hy : p y = false := h1 y (List.mem_cons_self _ _)
    have hys : ∀ z ∈ ys, p z = false := fun z hz => h1 z (List.mem_cons_of_mem _ hz)
    simp [List.eraseP_cons, hy, ih hys]

theorem isActiveLoanOf_iff (bookId : Int) (r : BorrowRecord) :
    isActiveLoanOf bookId r = true ↔ r.bookId = bookId ∧ r.status = "borrowed" := by
  simp [isActiveLoanOf]

theorem any_isActiveLoanOf_iff (rs : List BorrowRecord) (bookId : Int) :
    rs.any (isActiveLoanOf bookId) = true ↔
      ∃ r ∈ rs, r.bookId = bookId ∧ r.status = "borrowed" := by
  rw [List.any_eq_true]
  constructor
  · rintro ⟨r, hr, h⟩
    exact ⟨r, hr, (isActiveLoanOf_iff bookId r).mp h⟩
  · rintro ⟨r, hr, h⟩
    exact ⟨r, hr, (isActiveLoanOf_iff bookId r).mpr h⟩

theorem deleteBook_blocked {s : State} {bookId : Int} {book : Book}
    (hb : s.books.find? (fun b => b.id == bookId) = some book)
    (ha : s.borrowRecords.any (isActiveLoanOf bookId) = true) :
    deleteBook s bookId =
      (s, .failure 400 "Cannot delete book as it is currently borrowed") := by
  simp only [deleteBook, hb, ha, if_true]

theorem deleteBook_success {s : State} {bookId : Int} {book : Book}
    (hb : s.books.find? (fun b => b.id == bookId) = some book)
    (ha : s.borrowRecords.any (isActiveLoanOf bookId) = false) :
    deleteBook s bookId =
      ({ s with books := s.books.eraseP (fun b => b.id == bookId) },
        .success 200 "Book deleted successfully" book) := by
  simp [deleteBook, hb, ha]

/-- The state reached by a successful `borrow` followed by the `returnBook` of
the same pair. -/
theorem returnBook_after_borrow {s : State} {clock : Clock} {memberId bookId : Int} (today2 : Int)
    {status : Nat} {message : String} {data : BorrowData}
    (h : (borrow s clock memberId bookId).2 = .success status message data) :
    ∃ member book,
      s.members.find? (fun m => m.id == memberId) = some member ∧
      s.books.find? (fun b => b.id == bookId) = some book ∧
      (returnBook (borrow s clock memberId bookId).1 today2 memberId bookId).1.books =
        updateFirst (fun b => b.id == bookId)
          (fun b => { b with availableCopies := b.availableCopies - 1 + 1 }) s.books ∧
      (returnBook (borrow s clock memberId bookId).1 today2 memberId bookId).1.borrowRecords =
        updateFirst (isActiveFor member.id book.id)
          (fun r => { r with returnDate := some today2, status := "returned" })
          (s.borrowRecords ++ [data.record]) ∧
      isActiveFor member.id book.id data.record = true := by
  obtain ⟨member, book, hm, hb, ha, hin, hs⟩ := borrow_fst_of_success h
  have hrec := borrow_data_of_success hm hb h
  have hm1 := @borrowedState_find_member s clock memberId bookId member book hm
  have hb1 := @borrowedState_find_book s clock memberId bookId member book hb
  have hnew : isActiveFor member.id book.id data.record = true := by
    rw [hrec]; simp [isActiveFor]
  have hlog : (borrowedState s clock memberId bookId member book).borrowRecords =
      s.borrowRecords ++ [data.record] := by
    rw [hrec]; rfl
  have hsome : ∃ y, (borrowedState s clock memberId bookId member book).borrowRecords.find?
      (isActiveFor member.id book.id) = some y := by
    rw [hlog, List.find?_append]
    cases s.borrowRecords.find? (isActiveFor member.id book.id) with
    | none => exact ⟨data.record, by simp [List.find?, hnew]⟩
    | some y => exact ⟨y, rfl⟩
  obtain ⟨y, hfind⟩ := hsome
  have hret := @returnBook_success _ today2 _ _ _ _ _ hm1 hb1 hfind
  rw [hs, hret]
  refine ⟨member, book, hm, hb, round_trip_books _ _ _ _, ?_, hnew⟩
  rw [← hlog]
  rfl

/-! ## The ledger invariant -/

theorem map_id_updateFirst {α : Type} (idOf : α → Int) (p : α → Bool) (f : α → α)
    (l : List α) (hf : ∀ a, idOf (f a) = idOf a) :
    (updateFirst p f l).map idOf = l.map idOf := by
  induction l with
  | nil => rfl
  | cons y ys ih =>
    by_cases hy : p y = true
    · simp [updateFirst, hy, hf]
    · have hy2 : p y = false := by simpa using hy
      simp [updateFirst, hy2, ih]

theorem id_ne_of_nodup_split {l1 l2 : List Member} {x : Member}
    (h : ((l1 ++ x :: l2).map (fun m => m.id)).Nodup) :
    ∀ y, y ∈ l1 ∨ y ∈ l2 → y.id ≠ x.id := by
  rw [List.map_append, List.map_cons] at h
  have h2 := List.nodup_middle.mp h
  rw [List.nodup_cons] at h2
  intro y hy hid
  apply h2.1
  rw [← hid, ← List.map_append]
  exact List.mem_map_of_mem _ (List.mem_append.mpr hy)

theorem activeCount_append_singleton (rs : List BorrowRecord) (r : BorrowRecord)
    (memberId bookId : Int) :
    activeCount (rs ++ [r]) memberId bookId =
      activeCount rs memberId bookId + (if isActiveFor memberId bookId r = true then 1 else 0) := by
  unfold activeCount
  rw [List.countP_append, List.countP_singleton]

theorem activeCount_close_other (rs : List BorrowRecord) (today m b m2 b2 : Int)
    (hne : ¬ (m2 = m ∧ b2 = b)) :
    activeCount (updateFirst (isActiveFor m b)
      (fun r => { r with returnDate := some today, status := "returned" }) rs) m2 b2 =
    activeCount rs m2 b2 := by
  unfold activeCount
  apply countP_updateFirst_other
  intro a ha
  have h1 := (isActiveFor_iff m b a).mp ha
  have h2 : isActiveFor m2 b2 a = false := by
    rw [← Bool.not_eq_true, isActiveFor_iff]
    rintro ⟨h3, h4, _⟩
    exact hne ⟨by rw [← h3, h1.1], by rw [← h4, h1.2.1]⟩
  rw [h2]
  exact isActiveFor_closed m2 b2 today a

theorem ledgerInv_seed : LedgerInv seed := by
  refine ⟨by decide, ?_⟩
  intro m hm b
  simp only [seed, List.mem_cons, List.mem_singleton, List.not_mem_nil, or_false] at hm
  rcases hm with rfl | rfl
  · by_cases hb : b = 1
    · subst hb
      exact ⟨fun _ => by decide, fun h => absurd (by decide) h⟩
    · refine ⟨fun h => absurd (by simpa using h) hb, fun _ => ?_⟩
      simp [activeCount, seed, isActiveFor, List.countP_cons]
      intro h
      exact absurd h.symm hb
  · refine ⟨fun h => by simp at h, fun _ => ?_⟩
    simp [activeCount, seed, isActiveFor, List.countP_cons]

theorem ledgerInv_borrow (s : State) (clock : Clock) (memberId bookId : Int) (h : LedgerInv s) :
    LedgerInv (borrow s clock memberId bookId).1 := by
  rcases borrow_cases s clock memberId bookId with
    ⟨_, h2⟩ | ⟨_, _, _, h2⟩ | ⟨_, _, _, _, _, h2⟩ | ⟨_, _, _, _, _, _, h2⟩ |
    ⟨member, book, hm, hb, _, hin, _, h2⟩
  · rw [h2]; exact h
  · rw [h2]; exact h
  · rw [h2]; exact h
  · rw [h2]; exact h
  · rw [h2]
    obtain ⟨hnd, hag⟩ := h
    obtain ⟨l1, l2, hl, _, hu⟩ := updateFirst_of_find?_some
      (fun m : Member => { m with borrowedBooks := m.borrowedBooks ++ [book.id] }) hm
    have hmem : member ∈ s.members := List.mem_of_find?_eq_some hm
    refine ⟨?_, ?_⟩
    · show ((updateFirst _ _ s.members).map (fun m => m.id)).Nodup
      have hmap := map_id_updateFirst (fun m : Member => m.id) (fun m => m.id == memberId)
        (fun m : Member => { m with borrowedBooks := m.borrowedBooks ++ [book.id] })
        s.members (fun _ => rfl)
      rw [hmap]
      exact hnd
    · intro m hmm b
      have hmm2 : m ∈ l1 ++
          { member with borrowedBooks := member.borrowedBooks ++ [book.id] } :: l2 := by
        rw [← hu]; exact hmm
      show (b ∈ m.borrowedBooks → activeCount (s.borrowRecords ++ [_]) m.id b = 1) ∧
        (b ∉ m.borrowedBooks → activeCount (s.borrowRecords ++ [_]) m.id b = 0)
      rw [activeCount_append_singleton]
      have hne := id_ne_of_nodup_split (hl ▸ hnd)
      rcases List.mem_append.mp hmm2 with h1 | h1
      · have hid := hne m (Or.inl h1)
        have hold := hag m (by rw [hl]; exact List.mem_append_left _ h1) b
        have hq : isActiveFor m.id b
            { id := nextId (s.borrowRecords.map (fun r => r.id)), memberId := member.id,
              bookId := book.id, borrowDate := clock.borrowDate, dueDate := clock.dueDate,
              returnDate := none, status := "borrowed" } = false := by
          simp [isActiveFor, Ne.symm hid]
        simpa [hq] using hold
      · rcases List.mem_cons.mp h1 with h3 | h3
        · subst h3
          have hold := hag member hmem b
          by_cases hb2 : b = book.id
          · subst hb2
            have hzero := (hag member hmem book.id).2 hin
            simp [isActiveFor, hzero]
          · have hq : isActiveFor member.id b
                { id := nextId (s.borrowRecords.map (fun r => r.id)), memberId := member.id,
                  bookId := book.id, borrowDate := clock.borrowDate, dueDate := clock.dueDate,
                  returnDate := none, status := "borrowed" } = false := by
              simp [isActiveFor, Ne.symm hb2]
            simpa [hq, hb2] using hold
        · have hid := hne m (Or.inr h3)
          have hold := hag m
            (by rw [hl]; exact List.mem_append_right _ (List.mem_cons_of_mem _ h3)) b
          have hq : isActiveFor m.id b
              { id := nextId (s.borrowRecords.map (fun r => r.id)), memberId := member.id,
                bookId := book.id, borrowDate := clock.borrowDate, dueDate := clock.dueDate,
                returnDate := none, status := "borrowed" } = false := by
            simp [isActiveFor, Ne.symm hid]
          simpa [hq] using hold

theorem ledgerInv_returnBook (s : State) (today memberId bookId : Int) (h : LedgerInv s) :
    LedgerInv (returnBook s today memberId bookId).1 := by
  rcases returnBook_cases s today memberId bookId with
    ⟨_, h2⟩ | ⟨_, _, _, h2⟩ | ⟨_, _, _, _, _, h2⟩ | ⟨member, book, found, hm, hb, hr, h2⟩
  · rw [h2]; exact h
  · rw [h2]; exact h
  · rw [h2]; exact h
  · rw [h2]
    obtain ⟨hnd, hag⟩ := h
    obtain ⟨l1, l2, hl, _, hu⟩ := updateFirst_of_find?_some
      (fun m : Member =>
        { m with borrowedBooks := m.borrowedBooks.filter (fun id => id != book.id) }) hm
    have hmem : member ∈ s.members := List.mem_of_find?_eq_some hm
    have hdec := @returnedState_activeCount s today memberId bookId member book found hr
    refine ⟨?_, ?_⟩
    · show ((updateFirst _ _ s.members).map (fun m => m.id)).Nodup
      have hmap := map_id_updateFirst (fun m : Member => m.id) (fun m => m.id == memberId)
        (fun m : Member =>
          { m with borrowedBooks := m.borrowedBooks.filter (fun id => id != book.id) })
        s.members (fun _ => rfl)
      rw [hmap]
      exact hnd
    · intro m hmm b
      have hmm2 : m ∈ l1 ++
          { member with
            borrowedBooks := member.borrowedBooks.filter (fun id => id != book.id) } :: l2 := by
        rw [← hu]; exact hmm
      have hne := id_ne_of_nodup_split (hl ▸ hnd)
      have hother : ∀ m2 b2 : Int, ¬ (m2 = member.id ∧ b2 = book.id) →
          activeCount (returnedState s today memberId bookId member book).borrowRecords m2 b2 =
            activeCount s.borrowRecords m2 b2 :=
        fun m2 b2 hne2 => activeCount_close_other s.borrowRecords today _ _ m2 b2 hne2
      rcases List.mem_append.mp hmm2 with h1 | h1
      · have hid := hne m (Or.inl h1)
        have hold := hag m (by rw [hl]; exact List.mem_append_left _ h1) b
        rw [hother m.id b (fun hc => hid hc.1)]
        exact hold
      · rcases List.mem_cons.mp h1 with h3 | h3
        · subst h3
          have hold := hag member hmem b
          by_cases hb2 : b = book.id
          · subst hb2
            have hle : activeCount s.borrowRecords member.id book.id ≤ 1 := by
              by_cases hmemb : book.id ∈ member.borrowedBooks
              · exact le_of_eq (hold.1 hmemb)
              · rw [hold.2 hmemb]; exact Nat.zero_le 1
            refine ⟨fun hc => ?_, fun _ => ?_⟩
            · simp at hc
            · show activeCount (returnedState s today memberId bookId member
                book).borrowRecords member.id book.id = 0
              omega
          · show (b ∈ member.borrowedBooks.filter (fun id => id != book.id) → _) ∧
              (b ∉ member.borrowedBooks.filter (fun id => id != book.id) → _)
            have hfilt : b ∈ member.borrowedBooks.filter (fun id => id != book.id) ↔
                b ∈ member.borrowedBooks := by
              simp [List.mem_filter, hb2]
            rw [hfilt]
            show (_ → activeCount (returnedState s today memberId bookId member
                book).borrowRecords member.id b = 1) ∧
              (_ → activeCount (returnedState s today memberId bookId member
                book).borrowRecords member.id b = 0)
            rw [hother member.id b (fun hc => hb2 hc.2)]
            exact hold
        · have hid := hne m (Or.inr h3)
          have hold := hag m
            (by rw [hl]; exact List.mem_append_right _ (List.mem_cons_of_mem _ h3)) b
          rw [hother m.id b (fun hc => hid hc.1)]
          exact hold

theorem ledgerInv_of_reachable {s : State} (h : Reachable s) : LedgerInv s := by
  induction h with
  | seed => exact ledgerInv_seed
  | borrow clock memberId bookId _ ih => exact ledgerInv_borrow _ clock memberId bookId ih
  | returnBook today memberId bookId _ ih =>
    exact ledgerInv_returnBook _ today memberId bookId ih

/-! ## Claims -/

/-- C3 (atomicity of failure): whenever `borrow` or `returnBook` answers with a
failure response, of whatever kind, the state after the call (books, members
and borrow records) is exactly the state before it. -/
theorem failed_lending_leaves_state (s : State) (clock : Clock) (today memberId bookId : Int) :
    ((borrow s clock memberId bookId).2.isFailure = true →
      (borrow s clock memberId bookId).1.books = s.books ∧
      (borrow s clock memberId bookId).1.members = s.members ∧
      (borrow s clock memberId bookId).1.borrowRecords = s.borrowRecords) ∧
    ((returnBook s today memberId bookId).2.isFailure = true →
      (returnBook s today memberId bookId).1.books = s.books ∧
      (returnBook s today memberId bookId).1.members = s.members ∧
      (returnBook s today memberId bookId).1.borrowRecords = s.borrowRecords) := by
  constructor
  · intro hf
    rcases borrow_cases s clock memberId bookId with
      ⟨_, h⟩ | ⟨_, _, _, h⟩ | ⟨_, _, _, _, _, h⟩ | ⟨_, _, _, _, _, _, h⟩ |
      ⟨_, _, _, _, _, _, _, h⟩
    · rw [h]; exact ⟨rfl, rfl, rfl⟩
    · rw [h]; exact ⟨rfl, rfl, rfl⟩
    · rw [h]; exact ⟨rfl, rfl, rfl⟩
    · rw [h]; exact ⟨rfl, rfl, rfl⟩
    · rw [h] at hf; simp [Response.isFailure] at hf
  · intro hf
    rcases returnBook_cases s today memberId bookId with
      ⟨_, h⟩ | ⟨_, _, _, h⟩ | ⟨_, _, _, _, _, h⟩ | ⟨_, _, _, _, _, _, h⟩
    · rw [h]; exact ⟨rfl, rfl, rfl⟩
    · rw [h]; exact ⟨rfl, rfl, rfl⟩
    · rw [h]; exact ⟨rfl, rfl, rfl⟩
    · rw [h] at hf; simp [Response.isFailure] at hf

/-- Witness of C3: on the seed data a borrow by the unknown member 9 and a
return of book 2 by member 2, who never borrowed it, both fail and leave the
three collections as they were. -/
theorem failed_lending_leaves_state_witness :
    ((borrow seed (utcClock 0) 9 1).1.books = seed.books ∧
      (borrow seed (utcClock 0) 9 1).1.members = seed.members ∧
      (borrow seed (utcClock 0) 9 1).1.borrowRecords = seed.borrowRecords) ∧
    ((returnBook seed 0 2 2).1.books = seed.books ∧
      (returnBook seed 0 2 2).1.members = seed.members ∧
      (returnBook seed 0 2 2).1.borrowRecords = seed.borrowRecords) :=
  ⟨(failed_lending_leaves_state seed (utcClock 0) 0 9 1).1 (by decide),
   (failed_lending_leaves_state seed (utcClock 0) 0 2 2).2 (by decide)⟩

/-- C6 (borrow failure classification and check order): `borrow` answers
404 (NotFound) when the member, or else the book, does not resolve; otherwise
400 "No copies available" (Unavailable) when the book has
`availableCopies <= 0`, whether or not the member already holds it; otherwise
400 "Member has already borrowed this book" (Conflict) when the book id is in
the member's borrowed list; otherwise it succeeds.  Hence the Unavailable
answer is given exactly when both resolve and `availableCopies <= 0`. -/
theorem borrow_failure_classification (s : State) (clock : Clock) (memberId bookId : Int) :
    (s.members.find? (fun m => m.id == memberId) = none →
      (borrow s clock memberId bookId).2 = .failure 404 "Member not found") ∧
    (s.members.find? (fun m => m.id == memberId) ≠ none →
      s.books.find? (fun b => b.id == bookId) = none →
      (borrow s clock memberId bookId).2 = .failure 404 "Book not found") ∧
    (∀ member book,
      s.members.find? (fun m => m.id == memberId) = some member →
      s.books.find? (fun b => b.id == bookId) = some book →
      (book.availableCopies ≤ 0 →
        (borrow s clock memberId bookId).2 =
          .failure 400 "No copies available for this book") ∧
      (0 < book.availableCopies → bookId ∈ member.borrowedBooks →
        (borrow s clock memberId bookId).2 =
          .failure 400 "Member has already borrowed this book") ∧
      (0 < book.availableCopies → bookId ∉ member.borrowedBooks →
        ∃ data, (borrow s clock memberId bookId).2 =
          .success 201 "Book borrowed successfully" data)) ∧
    ((borrow s clock memberId bookId).2 = .failure 400 "No copies available for this book" ↔
      ∃ member book,
        s.members.find? (fun m => m.id == memberId) = some member ∧
        s.books.find? (fun b => b.id == bookId) = some book ∧
        book.availableCopies ≤ 0) := by
  refine ⟨fun h => by rw [borrow_member_none h], ?_, ?_, ?_⟩
  · intro hm hb
    obtain ⟨member, hm2⟩ := Option.ne_none_iff_exists'.mp hm
    rw [borrow_book_none hm2 hb]
  · intro member book hm hb
    have hid : book.id = bookId := find?_id_eq hb
    refine ⟨fun ha => by rw [borrow_unavailable hm hb ha], ?_, ?_⟩
    · intro ha hin
      rw [borrow_conflict hm hb ha (hid ▸ hin)]
    · intro ha hin
      exact ⟨_, by rw [borrow_success hm hb ha (hid ▸ hin)]⟩
  · constructor
    · intro h
      rcases borrow_cases s clock memberId bookId with
        ⟨_, h2⟩ | ⟨_, _, _, h2⟩ | ⟨member, book, hm, hb, ha, _⟩ | ⟨_, _, _, _, _, _, h2⟩ |
        ⟨_, _, _, _, _, _, _, h2⟩
      · rw [h2] at h; simp at h
      · rw [h2] at h; simp at h
      · exact ⟨member, book, hm, hb, ha⟩
      · rw [h2] at h; simp at h
      · rw [h2] at h; simp at h
    · rintro ⟨member, book, hm, hb, ha⟩
      rw [borrow_unavailable hm hb ha]

/-- Witness of C6 on the seed data: unknown member, unknown book, a book
whose last copies are out (asked for by a member who already holds it), a
book the member already holds, and a fresh loan. -/
theorem borrow_failure_classification_witness :
    (borrow seed (utcClock 0) 9 1).2 = .failure 404 "Member not found" ∧
    (borrow seed (utcClock 0) 1 9).2 = .failure 404 "Book not found" ∧
    (borrow book3Out (utcClock 0) 1 3).2 = .failure 400 "No copies available for this book" ∧
    (borrow seed (utcClock 0) 1 1).2 = .failure 400 "Member has already borrowed this book" ∧
    (∃ data, (borrow seed (utcClock 0) 2 2).2 = .success 201 "Book borrowed successfully" data) :=
  ⟨(borrow_failure_classification seed (utcClock 0) 9 1).1 (by decide),
   (borrow_failure_classification seed (utcClock 0) 1 9).2.1 (by decide) (by decide),
   ((borrow_failure_classification book3Out (utcClock 0) 1 3).2.2.1 _ _ rfl rfl).1 (by decide),
   ((borrow_failure_classification seed (utcClock 0) 1 1).2.2.1 _ _ rfl rfl).2.1 (by decide) (by decide),
   ((borrow_failure_classification seed (utcClock 0) 2 2).2.2.1 _ _ rfl rfl).2.2 (by decide) (by decide)⟩

/-- C5 (late-fee arithmetic): a successful return on day `today` closes an
active ledger record of the pair and reports, for that record's due day `d`,
`isLate = true` exactly when `today > d`, `daysLate = today - d` when late and
`0` otherwise, and `fine = 5 * daysLate`.  A return on the due day itself is
not late and costs nothing; on the seed data a loan made on day 0 is due on
day 14, and returning it on day 16 gives late, 2 days, fine 10, while
returning it on day 14 gives not late, fine 0. -/
theorem return_late_fee (s : State) (today memberId bookId : Int) (status : Nat)
    (message : String) (data : ReturnData)
    (h : (returnBook s today memberId bookId).2 = .success status message data) :
    (∃ found ∈ s.borrowRecords, isActiveFor memberId bookId found = true ∧
      data.record = { found with returnDate := some today, status := "returned" }) ∧
    data.record.returnDate = some today ∧
    (data.isLate = true ↔ today > data.record.dueDate) ∧
    data.daysLate = (if today > data.record.dueDate then today - data.record.dueDate else 0) ∧
    data.fine = 5 * data.daysLate ∧
    (today = data.record.dueDate → data.isLate = false ∧ data.fine = 0) ∧
    (∃ d0, (borrow seed (utcClock 0) 2 2).2 = .success 201 "Book borrowed successfully" d0 ∧
      d0.dueDate = 14 ∧
      (∃ d16, (returnBook (borrow seed (utcClock 0) 2 2).1 16 2 2).2 =
          .success 200 "Book returned successfully" d16 ∧
        d16.isLate = true ∧ d16.daysLate = 2 ∧ d16.fine = 10) ∧
      (∃ d14, (returnBook (borrow seed (utcClock 0) 2 2).1 14 2 2).2 =
          .success 200 "Book returned successfully" d14 ∧
        d14.isLate = false ∧ d14.daysLate = 0 ∧ d14.fine = 0)) := by
  have hscen : ∃ d0, (borrow seed (utcClock 0) 2 2).2 = .success 201 "Book borrowed successfully" d0 ∧
      d0.dueDate = 14 ∧
      (∃ d16, (returnBook (borrow seed (utcClock 0) 2 2).1 16 2 2).2 =
          .success 200 "Book returned successfully" d16 ∧
        d16.isLate = true ∧ d16.daysLate = 2 ∧ d16.fine = 10) ∧
      (∃ d14, (returnBook (borrow seed (utcClock 0) 2 2).1 14 2 2).2 =
          .success 200 "Book returned successfully" d14 ∧
        d14.isLate = false ∧ d14.daysLate = 0 ∧ d14.fine = 0) :=
    ⟨_, rfl, by decide, ⟨_, rfl, by decide, by decide, by decide⟩,
      ⟨_, rfl, by decide, by decide, by decide⟩⟩
  rcases returnBook_cases s today memberId bookId with
    ⟨_, h2⟩ | ⟨_, _, _, h2⟩ | ⟨_, _, _, _, _, h2⟩ | ⟨member, book, found, hm, hb, hr, h2⟩
  · rw [h2] at h; simp at h
  · rw [h2] at h; simp at h
  · rw [h2] at h; simp at h
  · rw [h2] at h
    simp only [Response.success.injEq] at h
    obtain ⟨_, _, hd⟩ := h
    subst hd
    have hmid : member.id = memberId := find?_id_eq hm
    have hbid : book.id = bookId := find?_id_eq hb
    have hact : isActiveFor memberId bookId found = true := by
      have := List.find?_some hr
      rwa [hmid, hbid] at this
    have hfee := lateFee_eq found.dueDate today
    refine ⟨⟨found, List.mem_of_find?_eq_some hr, hact, rfl⟩, rfl, ?_, ?_, ?_, ?_, hscen⟩
    · simp [hfee]
    · simp [hfee]
    · simp only [hfee]
      split <;> ring
    · intro ht
      have hnot : ¬ today > found.dueDate := by
        have : today = found.dueDate := ht
        omega
      simp [hfee, hnot]

/-- Witness of C5: the open loan of the seed data (member 1, book 1, due on
day 20011) returned on day 20013. -/
theorem return_late_fee_witness :
    (∃ data, (returnBook seed 20013 1 1).2 = .success 200 "Book returned successfully" data ∧
      data.isLate = true ∧ data.daysLate = 2 ∧ data.fine = 10) :=
  ⟨_, rfl, by
    have h := return_late_fee seed 20013 1 1 200 "Book returned successfully" _ rfl
    refine ⟨h.2.2.1.mpr (by decide), ?_, ?_⟩
    · rw [h.2.2.2.1]; decide
    · rw [h.2.2.2.2.1, h.2.2.2.1]; decide⟩

/-- The effect of a successful `borrow`: when member and book resolve, the
book has `availableCopies > 0` and the book id is not in the member's borrowed
list, the call succeeds; the ledger afterwards is the old ledger followed by
exactly one new record with that member id and book id, the borrow date and
the due date the clock gives, `returnDate = null` and status `'borrowed'`; the
resolved book has had 1 subtracted from `availableCopies` and nothing else in
the catalog changes; the resolved member has the book id appended at the end
of the borrowed list and no other member changes; and the `dueDate` of the
response is the due date of the new record. -/
theorem borrow_success_state (s : State) (clock : Clock) (memberId bookId : Int)
    (member : Member) (book : Book)
    (hm : s.members.find? (fun m => m.id == memberId) = some member)
    (hb : s.books.find? (fun b => b.id == bookId) = some book)
    (ha : 0 < book.availableCopies) (hin : bookId ∉ member.borrowedBooks) :
    ∃ (data : BorrowData) (newRecord : BorrowRecord) (b1 b2 : List Book) (m1 m2 : List Member),
      (borrow s clock memberId bookId).2 = .success 201 "Book borrowed successfully" data ∧
      (borrow s clock memberId bookId).1.borrowRecords = s.borrowRecords ++ [newRecord] ∧
      newRecord.memberId = memberId ∧ newRecord.bookId = bookId ∧
      newRecord.borrowDate = clock.borrowDate ∧ newRecord.dueDate = clock.dueDate ∧
      newRecord.returnDate = none ∧ newRecord.status = "borrowed" ∧
      data.record = newRecord ∧ data.dueDate = newRecord.dueDate ∧
      s.books = b1 ++ book :: b2 ∧
      (borrow s clock memberId bookId).1.books =
        b1 ++ { book with availableCopies := book.availableCopies - 1 } :: b2 ∧
      s.members = m1 ++ member :: m2 ∧
      (borrow s clock memberId bookId).1.members =
        m1 ++ { member with borrowedBooks := member.borrowedBooks ++ [bookId] } :: m2 := by
  have hmid : member.id = memberId := find?_id_eq hm
  have hbid : book.id = bookId := find?_id_eq hb
  obtain ⟨b1, b2, hbl, _, hbu⟩ := updateFirst_of_find?_some
    (fun b : Book => { b with availableCopies := b.availableCopies - 1 }) hb
  obtain ⟨m1, m2, hml, _, hmu⟩ := updateFirst_of_find?_some
    (fun m : Member => { m with borrowedBooks := m.borrowedBooks ++ [book.id] }) hm
  rw [borrow_success hm hb ha (hbid ▸ hin)]
  refine ⟨_, _, b1, b2, m1, m2, rfl, rfl, hmid, hbid, rfl, rfl, rfl, rfl, rfl, rfl, hbl, hbu,
    hml, ?_⟩
  show updateFirst _ _ s.members = _
  rw [hmu, hbid]

/-- When the server's time zone has the same offset now and 14 local days
later, and the two clock reads fall on the same instant, the due date is the
borrow date plus 14. -/
theorem dueDate_of_constant_offset (clock : Clock) (h1 : clock.dueNow = clock.borrowNow)
    (h2 : clock.offsetDue = clock.offsetNow) : clock.dueDate = clock.borrowDate + 14 := by
  unfold Clock.dueDate Clock.borrowDate msPerDay
  rw [h1, h2]
  have h3 : clock.borrowNow + clock.offsetNow + 14 * (1000 * 60 * 60 * 24) - clock.offsetNow =
      clock.borrowNow + 14 * 86400000 := by ring
  rw [h3, show (1000 * 60 * 60 * 24 : Int) = 86400000 by decide, Int.fdiv_eq_ediv _ (by decide),
    Int.fdiv_eq_ediv _ (by decide)]
  omega

/-- C9 (successful borrow postcondition), evaluated where the handler
departs from it: a server in the time zone `America/New_York` at
`2024-10-27T23:30:00Z` (day 20023), on which member 2 borrows book 2 from the
seed data.  The request succeeds and appends one record with borrow date
`2024-10-27` (day 20023) and due date `2024-11-11` (day 20038): the due date
of the record and of the response is 15 days after the borrow date, not 14. -/
theorem borrow_due_date_across_dst :
    ∃ data, (borrow seed newYorkClock 2 2).2 =
        .success 201 "Book borrowed successfully" data ∧
      (borrow seed newYorkClock 2 2).1.borrowRecords = seed.borrowRecords ++ [data.record] ∧
      data.record.borrowDate = 20023 ∧ data.record.dueDate = 20038 ∧
      data.record.dueDate = data.record.borrowDate + 15 ∧
      data.record.dueDate ≠ data.record.borrowDate + 14 ∧
      data.dueDate = data.record.dueDate :=
  ⟨_, rfl, by decide, by decide, by decide, by decide, by decide, by decide⟩

/-- C7 (double borrow is rejected), as the handler does it: after a
successful `borrow` of a pair, an immediately following `borrow` of the same
pair fails and leaves the state exactly as the first call left it.  The answer
is 400 "Member has already borrowed this book" (Conflict) when the book had
more than one available copy before the first call, and 400 "No copies
available for this book" (Unavailable) when the first call took the last
copy, because availability is checked first. -/
theorem double_borrow_rejected (s : State) (clock clock2 : Clock) (memberId bookId : Int)
    (status : Nat) (message : String) (data : BorrowData)
    (h : (borrow s clock memberId bookId).2 = .success status message data) :
    (borrow (borrow s clock memberId bookId).1 clock2 memberId bookId).1 =
      (borrow s clock memberId bookId).1 ∧
    ∃ book, s.books.find? (fun b => b.id == bookId) = some book ∧
      (1 < book.availableCopies →
        (borrow (borrow s clock memberId bookId).1 clock2 memberId bookId).2 =
          .failure 400 "Member has already borrowed this book") ∧
      (book.availableCopies ≤ 1 →
        (borrow (borrow s clock memberId bookId).1 clock2 memberId bookId).2 =
          .failure 400 "No copies available for this book") := by
  obtain ⟨member, book, hm, hb, ha, hin, hs⟩ := borrow_fst_of_success h
  have hm1 := @borrowedState_find_member s clock memberId bookId member book hm
  have hb1 := @borrowedState_find_book s clock memberId bookId member book hb
  rw [hs]
  by_cases h1 : book.availableCopies ≤ 1
  · have hu := @borrow_unavailable _ clock2 _ _ _ _ hm1 hb1 (dec_nonpos _ h1)
    refine ⟨by rw [hu], book, hb, fun h2 => absurd h2 (not_lt.mpr h1), fun _ => by rw [hu]⟩
  · have hc := @borrow_conflict _ clock2 _ _ _ _ hm1 hb1 (dec_pos _ (not_le.mp h1))
      (by simp)
    refine ⟨by rw [hc], book, hb, fun _ => by rw [hc], fun h2 => absurd h2 h1⟩

/-- Witness of C7: member 2 borrows book 2 from the seed data twice. -/
theorem double_borrow_rejected_witness :
    (borrow (borrow seed (utcClock 0) 2 2).1 (utcClock 1) 2 2).1 = (borrow seed (utcClock 0) 2 2).1 ∧
    ∃ book, seed.books.find? (fun b => b.id == 2) = some book ∧
      (1 < book.availableCopies →
        (borrow (borrow seed (utcClock 0) 2 2).1 (utcClock 1) 2 2).2 =
          .failure 400 "Member has already borrowed this book") ∧
      (book.availableCopies ≤ 1 →
        (borrow (borrow seed (utcClock 0) 2 2).1 (utcClock 1) 2 2).2 =
          .failure 400 "No copies available for this book") :=
  double_borrow_rejected seed (utcClock 0) (utcClock 1) 2 2 201 "Book borrowed successfully" _ rfl

/-- Counterexample to C7 as stated: with one copy of book 3 left, member 1
borrows it successfully; the repeated call is answered "No copies available
for this book", not with the Conflict answer. -/
theorem double_borrow_last_copy_counterexample :
    (∃ data, (borrow book3LastCopy (utcClock 0) 1 3).2 =
        .success 201 "Book borrowed successfully" data) ∧
    (borrow (borrow book3LastCopy (utcClock 0) 1 3).1 (utcClock 0) 1 3).2 =
      .failure 400 "No copies available for this book" ∧
    (borrow (borrow book3LastCopy (utcClock 0) 1 3).1 (utcClock 0) 1 3).2 ≠
      .failure 400 "Member has already borrowed this book" :=
  ⟨⟨_, rfl⟩, by decide, by decide⟩

/-- C8 (return failure classification): `returnBook` answers 404 (NotFound)
when the member, or else the book, does not resolve; otherwise it answers 400
"No active borrow record found for this member and book" (Conflict) exactly
when no ledger record with that member id and book id has status
`'borrowed'`, and succeeds when there is one.  Consequently, when the pair
had exactly one active record, a second `returnBook` right after a successful
one gets the Conflict answer. -/
theorem return_failure_classification (s : State) (today memberId bookId : Int) :
    (s.members.find? (fun m => m.id == memberId) = none →
      (returnBook s today memberId bookId).2 = .failure 404 "Member not found") ∧
    (s.members.find? (fun m => m.id == memberId) ≠ none →
      s.books.find? (fun b => b.id == bookId) = none →
      (returnBook s today memberId bookId).2 = .failure 404 "Book not found") ∧
    (s.members.find? (fun m => m.id == memberId) ≠ none →
      s.books.find? (fun b => b.id == bookId) ≠ none →
      ((returnBook s today memberId bookId).2 =
          .failure 400 "No active borrow record found for this member and book" ↔
        ∀ r ∈ s.borrowRecords,
          ¬ (r.memberId = memberId ∧ r.bookId = bookId ∧ r.status = "borrowed")) ∧
      ((∃ r ∈ s.borrowRecords,
          r.memberId = memberId ∧ r.bookId = bookId ∧ r.status = "borrowed") →
        ∃ data, (returnBook s today memberId bookId).2 =
          .success 200 "Book returned successfully" data)) ∧
    (∀ (today2 : Int) (status : Nat) (message : String) (data : ReturnData),
      (returnBook s today memberId bookId).2 = .success status message data →
      activeCount s.borrowRecords memberId bookId = 1 →
      (returnBook (returnBook s today memberId bookId).1 today2 memberId bookId).2 =
        .failure 400 "No active borrow record found for this member and book") := by
  refine ⟨fun h => by rw [returnBook_member_none h], ?_, ?_, ?_⟩
  · intro hm hb
    obtain ⟨member, hm2⟩ := Option.ne_none_iff_exists'.mp hm
    rw [returnBook_book_none hm2 hb]
  · intro hm hb
    obtain ⟨member, hm2⟩ := Option.ne_none_iff_exists'.mp hm
    obtain ⟨book, hb2⟩ := Option.ne_none_iff_exists'.mp hb
    have hmid : member.id = memberId := find?_id_eq hm2
    have hbid : book.id = bookId := find?_id_eq hb2
    cases hr : s.borrowRecords.find? (isActiveFor member.id book.id) with
    | none =>
      rw [returnBook_no_record hm2 hb2 hr]
      have hnone : ∀ r ∈ s.borrowRecords,
          ¬ (r.memberId = memberId ∧ r.bookId = bookId ∧ r.status = "borrowed") := by
        intro r hrm hact
        have h1 := List.find?_eq_none.mp hr r hrm
        rw [hmid, hbid] at h1
        exact h1 ((isActiveFor_iff memberId bookId r).mpr hact)
      refine ⟨⟨fun _ => hnone, fun _ => rfl⟩, ?_⟩
      rintro ⟨r, hrm, hact⟩
      exact absurd hact (hnone r hrm)
    | some found =>
      rw [returnBook_success hm2 hb2 hr]
      have hfound : found ∈ s.borrowRecords := List.mem_of_find?_eq_some hr
      have hact : found.memberId = memberId ∧ found.bookId = bookId ∧
          found.status = "borrowed" := by
        have h1 := List.find?_some hr
        rw [hmid, hbid] at h1
        exact (isActiveFor_iff memberId bookId found).mp h1
      refine ⟨⟨fun h => by simp at h, fun h => absurd hact (h found hfound)⟩, fun _ => ⟨_, rfl⟩⟩
  · intro today2 status message data hsucc hone
    obtain ⟨member, book, found, hm, hb, hr, hs⟩ := returnBook_fst_of_success hsucc
    have hmid : member.id = memberId := find?_id_eq hm
    have hbid : book.id = bookId := find?_id_eq hb
    have hm1 := @returnedState_find_member s today memberId bookId member book hm
    have hb1 := @returnedState_find_book s today memberId bookId member book hb
    have hcount := @returnedState_activeCount s today memberId bookId member book found hr
    rw [hmid, hbid, hone] at hcount
    have hzero : activeCount
        (returnedState s today memberId bookId member book).borrowRecords memberId bookId = 0 := by
      omega
    have hnone := find?_eq_none_of_countP _ _ hzero
    rw [hs]
    refine congrArg Prod.snd (returnBook_no_record hm1 hb1 ?_)
    show List.find? (isActiveFor member.id book.id) _ = none
    rw [hmid, hbid]
    exact hnone

/-- Witness of C8 on the seed data: unknown member, unknown book, a pair
without an active record, the pair with the one active record, and the
repeated return of that pair. -/
theorem return_failure_classification_witness :
    (returnBook seed 0 9 1).2 = .failure 404 "Member not found" ∧
    (returnBook seed 0 1 9).2 = .failure 404 "Book not found" ∧
    (returnBook seed 0 2 2).2 =
      .failure 400 "No active borrow record found for this member and book" ∧
    (∃ data, (returnBook seed 0 1 1).2 = .success 200 "Book returned successfully" data) ∧
    (returnBook (returnBook seed 0 1 1).1 5 1 1).2 =
      .failure 400 "No active borrow record found for this member and book" :=
  ⟨(return_failure_classification seed 0 9 1).1 (by decide),
   (return_failure_classification seed 0 1 9).2.1 (by decide) (by decide),
   ((return_failure_classification seed 0 2 2).2.2.1 (by decide) (by decide)).1.mpr (by decide),
   ((return_failure_classification seed 0 1 1).2.2.1 (by decide) (by decide)).2 (by decide),
   (return_failure_classification seed 0 1 1).2.2.2 5 200 "Book returned successfully" _ rfl
     (by decide)⟩

/-- C1 (availability bounds under lending), as the handlers keep them: from
a state in which every book has `0 <= availableCopies <= copies`, every
`borrow` call, successful or failed, leaves every book within the bounds; a
`returnBook` call leaves every book within the bounds when it fails, and when
it succeeds provided the book it resolves had `availableCopies < copies`
before the call. -/
theorem lending_preserves_bounds (s : State) (clock : Clock) (today memberId bookId : Int)
    (h : boundsOk s) :
    boundsOk (borrow s clock memberId bookId).1 ∧
    ((returnBook s today memberId bookId).2.isFailure = true →
      boundsOk (returnBook s today memberId bookId).1) ∧
    ((∀ book, s.books.find? (fun b => b.id == bookId) = some book →
        book.availableCopies < book.copies) →
      boundsOk (returnBook s today memberId bookId).1) := by
  refine ⟨?_, ?_, ?_⟩
  · rcases borrow_cases s clock memberId bookId with
      ⟨_, h2⟩ | ⟨_, _, _, h2⟩ | ⟨_, _, _, _, _, h2⟩ | ⟨_, _, _, _, _, _, h2⟩ |
      ⟨member, book, hm, hb, ha, hin, _, h2⟩
    · rw [h2]; exact h
    · rw [h2]; exact h
    · rw [h2]; exact h
    · rw [h2]; exact h
    · rw [h2]
      intro b hbmem
      rcases mem_updateFirst hbmem with hold | ⟨x, hx, hbx⟩
      · exact h b hold
      · rw [hb] at hx
        obtain rfl : book = x := Option.some.inj hx
        have hbk := h book (List.mem_of_find?_eq_some hb)
        subst hbx
        exact ⟨dec_nonneg _ ha, le_trans (dec_le _) hbk.2⟩
  · intro hf
    rcases returnBook_cases s today memberId bookId with
      ⟨_, h2⟩ | ⟨_, _, _, h2⟩ | ⟨_, _, _, _, _, h2⟩ | ⟨_, _, _, _, _, _, h2⟩
    · rw [h2]; exact h
    · rw [h2]; exact h
    · rw [h2]; exact h
    · rw [h2] at hf; simp [Response.isFailure] at hf
  · intro hlt
    rcases returnBook_cases s today memberId bookId with
      ⟨_, h2⟩ | ⟨_, _, _, h2⟩ | ⟨_, _, _, _, _, h2⟩ | ⟨member, book, found, hm, hb, hr, h2⟩
    · rw [h2]; exact h
    · rw [h2]; exact h
    · rw [h2]; exact h
    · rw [h2]
      intro b hbmem
      rcases mem_updateFirst hbmem with hold | ⟨x, hx, hbx⟩
      · exact h b hold
      · rw [hb] at hx
        obtain rfl : book = x := Option.some.inj hx
        have hbk := h book (List.mem_of_find?_eq_some hb)
        have hlt2 := hlt book hb
        subst hbx
        exact ⟨le_trans hbk.1 (le_inc _), inc_le _ _ hlt2⟩

/-- Witness of C1 on the seed data, whose books are within the bounds: member
2 borrows book 2, member 2 returns a book never borrowed, and member 1 returns
book 1, of which 3 of 5 copies were available. -/
theorem lending_preserves_bounds_witness :
    boundsOk (borrow seed (utcClock 0) 2 2).1 ∧ boundsOk (returnBook seed 0 2 2).1 ∧
    boundsOk (returnBook seed 0 1 1).1 :=
  ⟨(lending_preserves_bounds seed (utcClock 0) 0 2 2 (by decide)).1,
   (lending_preserves_bounds seed (utcClock 0) 0 2 2 (by decide)).2.1 (by decide),
   (lending_preserves_bounds seed (utcClock 0) 0 1 1 (by decide)).2.2 (by decide)⟩

/-- Counterexample to C1 as stated: in `shrunkCatalog` every book is within
the bounds (book 1 has 3 of 3 copies available) and the loan of book 1 to
member 1 is open; the return succeeds and leaves book 1 with 4 available
copies of 3. -/
theorem return_breaks_bounds_counterexample :
    boundsOk shrunkCatalog ∧
    (∃ data, (returnBook shrunkCatalog 0 1 1).2 =
      .success 200 "Book returned successfully" data) ∧
    ¬ boundsOk (returnBook shrunkCatalog 0 1 1).1 :=
  ⟨by decide, ⟨_, rfl⟩, by decide⟩

/-- C10 (book removal is blocked by active loans): for an existing book id,
`deleteBook` answers 400 "Cannot delete book as it is currently borrowed"
(Conflict) and leaves the state as it was exactly when some ledger record
with that book id has status `'borrowed'`; otherwise it succeeds, removes the
first book with that id from the catalog, leaves every other book in place and
does not touch members or ledger.  In particular, when no loan of the book is
active, after a successful `borrow` of the book and the `returnBook` of the
same pair, `deleteBook` succeeds and answers with the book as the two calls
left it. -/
theorem delete_book_blocked_by_active_loans (s : State) (bookId : Int) (book : Book)
    (hb : s.books.find? (fun b => b.id == bookId) = some book) :
    (((deleteBook s bookId).2 =
          .failure 400 "Cannot delete book as it is currently borrowed" ∧
        (deleteBook s bookId).1 = s) ↔
      ∃ r ∈ s.borrowRecords, r.bookId = bookId ∧ r.status = "borrowed") ∧
    ((¬ ∃ r ∈ s.borrowRecords, r.bookId = bookId ∧ r.status = "borrowed") →
      (deleteBook s bookId).2 = .success 200 "Book deleted successfully" book ∧
      (∃ b1 b2, s.books = b1 ++ book :: b2 ∧ (∀ x ∈ b1, x.id ≠ bookId) ∧
        (deleteBook s bookId).1.books = b1 ++ b2) ∧
      (deleteBook s bookId).1.members = s.members ∧
      (deleteBook s bookId).1.borrowRecords = s.borrowRecords) ∧
    (∀ (clock : Clock) (today2 memberId : Int) (status : Nat) (message : String) (data : BorrowData),
      (¬ ∃ r ∈ s.borrowRecords, r.bookId = bookId ∧ r.status = "borrowed") →
      (borrow s clock memberId bookId).2 = .success status message data →
      (deleteBook (returnBook (borrow s clock memberId bookId).1 today2 memberId bookId).1
        bookId).2 = .success 200 "Book deleted successfully"
          { book with availableCopies := book.availableCopies - 1 + 1 }) := by
  refine ⟨?_, ?_, ?_⟩
  · constructor
    · rintro ⟨hresp, _⟩
      by_contra hno
      have ha : s.borrowRecords.any (isActiveLoanOf bookId) = false := by
        rw [← Bool.not_eq_true, any_isActiveLoanOf_iff]
        exact hno
      rw [deleteBook_success hb ha] at hresp
      simp at hresp
    · intro hex
      have ha := (any_isActiveLoanOf_iff s.borrowRecords bookId).mpr hex
      rw [deleteBook_blocked hb ha]
      exact ⟨rfl, rfl⟩
  · intro hno
    have ha : s.borrowRecords.any (isActiveLoanOf bookId) = false := by
      rw [← Bool.not_eq_true, any_isActiveLoanOf_iff]
      exact hno
    obtain ⟨hx, b1, b2, hl, hn⟩ := find?_split hb
    rw [deleteBook_success hb ha]
    refine ⟨rfl, ⟨b1, b2, hl, ?_, ?_⟩, rfl, rfl⟩
    · intro x hxmem
      have := hn x hxmem
      simpa using this
    · show s.books.eraseP _ = _
      rw [hl]
      exact eraseP_append_cons _ b1 b2 book hx hn
  · intro clock today2 memberId status message data hno hsucc
    obtain ⟨member, book2, hm, hb2, hbooks, hrecs, hnew⟩ :=
      returnBook_after_borrow today2 hsucc
    rw [hb] at hb2
    obtain rfl : book = book2 := Option.some.inj hb2
    have hbid : book.id = bookId := find?_id_eq hb
    have hr0 : s.borrowRecords.find? (isActiveFor member.id book.id) = none := by
      rw [List.find?_eq_none]
      intro r hr hact
      have h1 := (isActiveFor_iff member.id book.id r).mp hact
      exact hno ⟨r, hr, hbid ▸ h1.2.1, h1.2.2⟩
    rw [updateFirst_append_of_none _ _ _ _ hr0 hnew] at hrecs
    have hfindb : (returnBook (borrow s clock memberId bookId).1 today2 memberId
        bookId).1.books.find? (fun b => b.id == bookId) =
        some { book with availableCopies := book.availableCopies - 1 + 1 } := by
      rw [hbooks, find?_updateFirst _ _ _ (by intro a; rfl), hb]
      rfl
    have ha : (returnBook (borrow s clock memberId bookId).1 today2 memberId
        bookId).1.borrowRecords.any (isActiveLoanOf bookId) = false := by
      rw [← Bool.not_eq_true, any_isActiveLoanOf_iff, hrecs]
      rintro ⟨r, hr, hact⟩
      rcases List.mem_append.mp hr with h1 | h1
      · exact hno ⟨r, h1, hact⟩
      · rw [List.mem_singleton] at h1
        rw [h1] at hact
        simp at hact
    rw [deleteBook_success hfindb ha]

/-- Witness of C10 on the seed data: book 1 has an open loan and cannot be
deleted; book 2 has none and is the only book removed; and book 2 can still
be deleted after member 2 has borrowed and returned it. -/
theorem delete_book_blocked_by_active_loans_witness :
    ((deleteBook seed 1).2 = .failure 400 "Cannot delete book as it is currently borrowed" ∧
      (deleteBook seed 1).1 = seed) ∧
    (∃ b1 b2, seed.books = b1 ++ seed.books.get ⟨1, by decide⟩ :: b2 ∧
      (∀ x ∈ b1, x.id ≠ 2) ∧ (deleteBook seed 2).1.books = b1 ++ b2) ∧
    (deleteBook (returnBook (borrow seed (utcClock 0) 2 2).1 3 2 2).1 2).2 =
      .success 200 "Book deleted successfully" (seed.books.get ⟨1, by decide⟩) :=
  ⟨(delete_book_blocked_by_active_loans seed 1 (seed.books.get ⟨0, by decide⟩) rfl).1.mpr
      (by decide),
   ((delete_book_blocked_by_active_loans seed 2 (seed.books.get ⟨1, by decide⟩) rfl).2.1
      (by decide)).2.1,
   ((delete_book_blocked_by_active_loans seed 2 (seed.books.get ⟨1, by decide⟩) rfl).2.2
      (utcClock 0) 3 2 201 "Book borrowed successfully" _ (by decide) rfl).trans (by decide)⟩

/-- C2 (borrowed-set / ledger agreement): in every state reachable from the
seed data by `borrow` and `returnBook` calls, for every member of the member
list and every book id, the id is in the member's borrowed list if and only if
exactly one ledger record with that member id and book id has status
`'borrowed'`. -/
theorem borrowed_set_agrees_with_ledger (s : State) (h : Reachable s) (m : Member)
    (hm : m ∈ s.members) (b : Int) :
    b ∈ m.borrowedBooks ↔ activeCount s.borrowRecords m.id b = 1 := by
  have hinv := (ledgerInv_of_reachable h).2 m hm b
  constructor
  · exact hinv.1
  · intro hone
    by_contra hnot
    have hzero := hinv.2 hnot
    omega

/-- Witness of C2: after member 2 has borrowed book 3 on day 0 and member 1
has returned book 1 on day 5, book 3 is in the borrowed list of member 2 and
has exactly one active record for that member. -/
theorem borrowed_set_agrees_with_ledger_witness :
    (3 : Int) ∈ ((returnBook (borrow seed (utcClock 0) 2 3).1 5 1 1).1.members.get
        ⟨1, by decide⟩).borrowedBooks ∧
    activeCount (returnBook (borrow seed (utcClock 0) 2 3).1 5 1 1).1.borrowRecords 2 3 = 1 :=
  ⟨by decide,
   (borrowed_set_agrees_with_ledger (returnBook (borrow seed (utcClock 0) 2 3).1 5 1 1).1
      (Reachable.returnBook 5 1 1 (Reachable.borrow (utcClock 0) 2 3 Reachable.seed))
      ((returnBook (borrow seed (utcClock 0) 2 3).1 5 1 1).1.members.get ⟨1, by decide⟩)
      (List.get_mem _ _ _) 3).mp (by decide)⟩

/-! ## Member removal -/

theorem deleteMember_blocked {s : State} {memberId : Int} {member : Member}
    (hm : s.members.find? (fun m => m.id == memberId) = some member)
    (hne : member.borrowedBooks ≠ []) :
    deleteMember s memberId =
      (s, .blocked 400 "Cannot delete member with borrowed books" member.borrowedBooks) := by
  have hlen : member.borrowedBooks.length > 0 := List.length_pos.mpr hne
  simp only [deleteMember, hm, hlen, if_true]

theorem deleteMember_success {s : State} {memberId : Int} {member : Member}
    (hm : s.members.find? (fun m => m.id == memberId) = some member)
    (he : member.borrowedBooks = []) :
    deleteMember s memberId =
      ({ s with members := s.members.eraseP (fun m => m.id == memberId) },
        .success 200 "Member deleted successfully" member) := by
  simp [deleteMember, hm, he]

/-- A member with an empty borrowed list is found unchanged after a `borrow`
and a `returnBook` of any book in that member's name, whatever the two calls
answer. -/
theorem find_member_after_borrow_return {s : State} {memberId : Int} {member : Member}
    (clock : Clock) (today2 bookId : Int)
    (hm : s.members.find? (fun m => m.id == memberId) = some member)
    (he : member.borrowedBooks = []) :
    (returnBook (borrow s clock memberId bookId).1 today2 memberId bookId).1.members.find?
      (fun m => m.id == memberId) = some member := by
  have hret : ∀ s0 : State, s0.members.find? (fun m => m.id == memberId) = some member →
      (returnBook s0 today2 memberId bookId).1.members.find? (fun m => m.id == memberId) =
        some member := by
    intro s0 hm0
    rcases returnBook_cases s0 today2 memberId bookId with
      ⟨_, h2⟩ | ⟨_, _, _, h2⟩ | ⟨_, _, _, _, _, h2⟩ | ⟨member2, book, found, hm2, hb, hr, h2⟩
    · rw [h2]; exact hm0
    · rw [h2]; exact hm0
    · rw [h2]; exact hm0
    · rw [h2]
      rw [hm0] at hm2
      obtain rfl : member = member2 := Option.some.inj hm2
      have h3 := @returnedState_find_member s0 today2 memberId bookId member book hm0
      show (returnedState s0 today2 memberId bookId member book).members.find? _ = _
      rw [h3, he]
      cases member
      simp only [List.filter_nil] at *
      rw [he]
  rcases borrow_cases s clock memberId bookId with
    ⟨_, h2⟩ | ⟨_, _, _, h2⟩ | ⟨_, _, _, _, _, h2⟩ | ⟨_, _, _, _, _, _, h2⟩ |
    ⟨member2, book, hm2, hb, ha, hin, d, h2⟩
  · rw [h2]; exact hret s hm
  · rw [h2]; exact hret s hm
  · rw [h2]; exact hret s hm
  · rw [h2]; exact hret s hm
  · have hs : (borrow s clock memberId bookId).1 =
        borrowedState s clock memberId bookId member2 book := by rw [h2]; rfl
    have hm1 := @borrowedState_find_member s clock memberId bookId member2 book hm2
    have hb1 := @borrowedState_find_book s clock memberId bookId member2 book hb
    have hsome : ∃ y, (borrowedState s clock memberId bookId member2 book).borrowRecords.find?
        (isActiveFor member2.id book.id) = some y := by
      show ∃ y, List.find? _ (s.borrowRecords ++ [_]) = some y
      rw [List.find?_append]
      cases s.borrowRecords.find? (isActiveFor member2.id book.id) with
      | none => simp [List.find?, isActiveFor]
      | some y => exact ⟨y, rfl⟩
    obtain ⟨y, hfind⟩ := hsome
    have hr := @returnBook_success _ today2 _ _ _ _ _ hm1 hb1 hfind
    rw [hs, hr]
    show (returnedState _ _ _ _ _ _).members.find? _ = _
    rw [round_trip_members _ _ hm2 hin (by rfl)]
    exact hm

/-- C11 (member removal is blocked by a non-empty borrowed list): for an
existing member id, `deleteMember` answers 400 "Cannot delete member with
borrowed books" (Conflict) exactly when the member's `borrowedBooks` is
non-empty; the state is then unchanged and the payload is that list.
Otherwise it succeeds, removes the first member with that id, leaves every
other member in place and does not touch books or ledger.  In particular a
member with an empty borrowed list can be deleted after a `borrow` and a
`returnBook` of the same book in that member's name. -/
theorem delete_member_blocked_by_borrowed_books (s : State) (memberId : Int)
    (member : Member) (hm : s.members.find? (fun m => m.id == memberId) = some member) :
    ((∃ error payload, (deleteMember s memberId).2 = .blocked 400 error payload) ↔
      member.borrowedBooks ≠ []) ∧
    (member.borrowedBooks ≠ [] →
      (deleteMember s memberId).2 =
        .blocked 400 "Cannot delete member with borrowed books" member.borrowedBooks ∧
      (deleteMember s memberId).1 = s) ∧
    (member.borrowedBooks = [] →
      (deleteMember s memberId).2 = .success 200 "Member deleted successfully" member ∧
      (∃ m1 m2, s.members = m1 ++ member :: m2 ∧ (∀ x ∈ m1, x.id ≠ memberId) ∧
        (deleteMember s memberId).1.members = m1 ++ m2) ∧
      (deleteMember s memberId).1.books = s.books ∧
      (deleteMember s memberId).1.borrowRecords = s.borrowRecords) ∧
    (∀ (clock : Clock) (today2 bookId : Int), member.borrowedBooks = [] →
      (deleteMember (returnBook (borrow s clock memberId bookId).1 today2 memberId bookId).1
        memberId).2 = .success 200 "Member deleted successfully" member) := by
  refine ⟨?_, ?_, ?_, ?_⟩
  · constructor
    · rintro ⟨error, payload, hresp⟩ he
      rw [deleteMember_success hm he] at hresp
      simp at hresp
    · intro hne
      exact ⟨_, _, by rw [deleteMember_blocked hm hne]⟩
  · intro hne
    rw [deleteMember_blocked hm hne]
    exact ⟨rfl, rfl⟩
  · intro he
    obtain ⟨hx, m1, m2, hl, hn⟩ := find?_split hm
    rw [deleteMember_success hm he]
    refine ⟨rfl, ⟨m1, m2, hl, ?_, ?_⟩, rfl, rfl⟩
    · intro x hxmem
      have := hn x hxmem
      simpa using this
    · show s.members.eraseP _ = _
      rw [hl]
      exact eraseP_append_cons _ m1 m2 member hx hn
  · intro clock today2 bookId he
    have hfind := find_member_after_borrow_return clock today2 bookId hm he
    rw [deleteMember_success hfind he]

/-- Witness of C11 on the seed data: member 1 holds book 1 and cannot be
deleted; member 2 holds nothing and is the only member removed; and member 2
can still be deleted after borrowing and returning book 2. -/
theorem delete_member_blocked_by_borrowed_books_witness :
    ((deleteMember seed 1).2 =
        .blocked 400 "Cannot delete member with borrowed books" [1] ∧
      (deleteMember seed 1).1 = seed) ∧
    (∃ m1 m2, seed.members = m1 ++ seed.members.get ⟨1, by decide⟩ :: m2 ∧
      (∀ x ∈ m1, x.id ≠ 2) ∧ (deleteMember seed 2).1.members = m1 ++ m2) ∧
    (deleteMember (returnBook (borrow seed (utcClock 0) 2 2).1 3 2 2).1 2).2 =
      .success 200 "Member deleted successfully" (seed.members.get ⟨1, by decide⟩) :=
  ⟨(delete_member_blocked_by_borrowed_books seed 1 (seed.members.get ⟨0, by decide⟩) rfl).2.1
      (by decide),
   ((delete_member_blocked_by_borrowed_books seed 2 (seed.members.get ⟨1, by decide⟩) rfl).2.2.1
      (by decide)).2.1,
   (delete_member_blocked_by_borrowed_books seed 2 (seed.members.get ⟨1, by decide⟩) rfl).2.2.2
      (utcClock 0) 3 2 (by decide)⟩

/-! ## Unfolding the form handlers -/

theorem addBook_invalid {s : State} {currentYear : JsNum} {req : BookRequest}
    (h : bookErrors currentYear req ≠ []) :
    addBook s currentYear req = (s, .invalid 400 (bookErrors currentYear req)) := by
  have hlen : (bookErrors currentYear req).length > 0 := List.length_pos.mpr h
  simp only [addBook, hlen, if_true]

theorem addBook_duplicate {s : State} {currentYear : JsNum} {req : BookRequest} {b : Book}
    (h : bookErrors currentYear req = [])
    (hf : s.books.find? (fun b => b.isbn == strOf req.isbn) = some b) :
    addBook s currentYear req = (s, .failure 400 "A book with this ISBN already exists") := by
  simp [addBook, h, hf]

theorem addBook_success {s : State} {currentYear : JsNum} {req : BookRequest}
    (h : bookErrors currentYear req = [])
    (hf : s.books.find? (fun b => b.isbn == strOf req.isbn) = none) :
    addBook s currentYear req =
      ({ s with books := s.books ++ [newBookOf s req] },
        .success 201 "Book added successfully" (newBookOf s req)) := by
  simp [addBook, h, hf, newBookOf]

/-- Every outcome of `addBook` is one of the three branches of the handler. -/
theorem addBook_cases (s : State) (currentYear : JsNum) (req : BookRequest) :
    (bookErrors currentYear req ≠ [] ∧
      addBook s currentYear req = (s, .invalid 400 (bookErrors currentYear req))) ∨
    (bookErrors currentYear req = [] ∧
      (∃ b, s.books.find? (fun b => b.isbn == strOf req.isbn) = some b) ∧
      addBook s currentYear req = (s, .failure 400 "A book with this ISBN already exists")) ∨
    (bookErrors currentYear req = [] ∧
      s.books.find? (fun b => b.isbn == strOf req.isbn) = none ∧
      addBook s currentYear req =
        ({ s with books := s.books ++ [newBookOf s req] },
          .success 201 "Book added successfully" (newBookOf s req))) := by
  by_cases h : bookErrors currentYear req = []
  · cases hf : s.books.find? (fun b => b.isbn == strOf req.isbn) with
    | none => exact Or.inr (Or.inr ⟨h, rfl, addBook_success h hf⟩)
    | some b => exact Or.inr (Or.inl ⟨h, ⟨b, rfl⟩, addBook_duplicate h hf⟩)
  · exact Or.inl ⟨h, addBook_invalid h⟩

theorem addMember_invalid {s : State} {todayIso : String} {req : MemberRequest}
    (h : memberErrors req ≠ []) :
    addMember s todayIso req = (s, .invalid 400 (memberErrors req)) := by
  have hlen : (memberErrors req).length > 0 := List.length_pos.mpr h
  simp only [addMember, hlen, if_true]

theorem addMember_duplicate {s : State} {todayIso : String} {req : MemberRequest}
    {m : Member} (h : memberErrors req = [])
    (hf : s.members.find? (fun m => m.email == strOf req.email) = some m) :
    addMember s todayIso req =
      (s, .failure 400 "A member with this email already exists") := by
  simp [addMember, h, hf]

theorem addMember_success {s : State} {todayIso : String} {req : MemberRequest}
    (h : memberErrors req = [])
    (hf : s.members.find? (fun m => m.email == strOf req.email) = none) :
    addMember s todayIso req =
      ({ s with members := s.members ++ [newMemberOf s todayIso req] },
        .success 201 "Member registered successfully" (newMemberOf s todayIso req)) := by
  simp [addMember, h, hf, newMemberOf]

/-- Every outcome of `addMember` is one of the three branches of the handler. -/
theorem addMember_cases (s : State) (todayIso : String) (req : MemberRequest) :
    (memberErrors req ≠ [] ∧
      addMember s todayIso req = (s, .invalid 400 (memberErrors req))) ∨
    (memberErrors req = [] ∧
      (∃ m, s.members.find? (fun m => m.email == strOf req.email) = some m) ∧
      addMember s todayIso req =
        (s, .failure 400 "A member with this email already exists")) ∨
    (memberErrors req = [] ∧
      s.members.find? (fun m => m.email == strOf req.email) = none ∧
      addMember s todayIso req =
        ({ s with members := s.members ++ [newMemberOf s todayIso req] },
          .success 201 "Member registered successfully" (newMemberOf s todayIso req))) := by
  by_cases h : memberErrors req = []
  · cases hf : s.members.find? (fun m => m.email == strOf req.email) with
    | none => exact Or.inr (Or.inr ⟨h, rfl, addMember_success h hf⟩)
    | some m => exact Or.inr (Or.inl ⟨h, ⟨m, rfl⟩, addMember_duplicate h hf⟩)
  · exact Or.inl ⟨h, addMember_invalid h⟩

theorem updateBook_not_found {s : State} {currentYear : JsNum} {bookId : Int} {req : BookRequest}
    (hb : s.books.find? (fun b => b.id == bookId) = none) :
    updateBook s currentYear bookId req = (s, .failure 404 "Book not found") := by
  simp [updateBook, hb]

theorem updateBook_invalid {s : State} {currentYear : JsNum} {bookId : Int} {req : BookRequest}
    {currentBook : Book}
    (hb : s.books.find? (fun b => b.id == bookId) = some currentBook)
    (h : bookUpdateErrors currentYear req ≠ []) :
    updateBook s currentYear bookId req =
      (s, .invalid 400 (bookUpdateErrors currentYear req)) := by
  have hlen : (bookUpdateErrors currentYear req).length > 0 := List.length_pos.mpr h
  simp only [updateBook, hb, hlen, if_true]

theorem updateBook_success {s : State} {currentYear : JsNum} {bookId : Int} {req : BookRequest}
    {currentBook : Book}
    (hb : s.books.find? (fun b => b.id == bookId) = some currentBook)
    (h : bookUpdateErrors currentYear req = []) :
    updateBook s currentYear bookId req =
      ({ s with
          books := updateFirst (fun b => b.id == bookId)
            (fun _ => mergeBook currentBook req) s.books },
        .success 200 "Book updated successfully" (mergeBook currentBook req)) := by
  simp [updateBook, hb, h]

/-- A successful `updateBook` went through the last branch of the handler. -/
theorem updateBook_of_success {s : State} {currentYear : JsNum} {bookId : Int} {req : BookRequest}
    {status : Nat} {message : String} {updated : Book}
    (h : (updateBook s currentYear bookId req).2 = .success status message updated) :
    ∃ currentBook, s.books.find? (fun b => b.id == bookId) = some currentBook ∧
      bookUpdateErrors currentYear req = [] ∧ updated = mergeBook currentBook req ∧
      updateBook s currentYear bookId req =
        ({ s with
            books := updateFirst (fun b => b.id == bookId)
              (fun _ => mergeBook currentBook req) s.books },
          .success 200 "Book updated successfully" (mergeBook currentBook req)) := by
  cases hb : s.books.find? (fun b => b.id == bookId) with
  | none =>
    rw [updateBook_not_found hb] at h
    simp at h
  | some currentBook =>
    by_cases he : bookUpdateErrors currentYear req = []
    · have h2 := updateBook_success hb he
      rw [h2] at h
      simp only [Response.success.injEq] at h
      exact ⟨currentBook, rfl, he, h.2.2.symm, h2⟩
    · rw [updateBook_invalid hb he] at h
      simp at h

theorem updateMember_not_found {s : State} {memberId : Int} {req : MemberRequest}
    (hm : s.members.find? (fun m => m.id == memberId) = none) :
    updateMember s memberId req = (s, .failure 404 "Member not found") := by
  simp [updateMember, hm]

theorem updateMember_invalid {s : State} {memberId : Int} {req : MemberRequest}
    {currentMember : Member}
    (hm : s.members.find? (fun m => m.id == memberId) = some currentMember)
    (h : memberUpdateErrors req ≠ []) :
    updateMember s memberId req = (s, .invalid 400 (memberUpdateErrors req)) := by
  have hlen : (memberUpdateErrors req).length > 0 := List.length_pos.mpr h
  simp only [updateMember, hm, hlen, if_true]

theorem updateMember_success {s : State} {memberId : Int} {req : MemberRequest}
    {currentMember : Member}
    (hm : s.members.find? (fun m => m.id == memberId) = some currentMember)
    (h : memberUpdateErrors req = []) :
    updateMember s memberId req =
      ({ s with
          members := updateFirst (fun m => m.id == memberId)
            (fun _ => mergeMember currentMember req) s.members },
        .success 200 "Member updated successfully" (mergeMember currentMember req)) := by
  simp [updateMember, hm, h]

theorem find?_append_cons {α : Type} (p : α → Bool) (l1 l2 : List α) (x : α)
    (hx : p x = true) (h1 : ∀ y ∈ l1, p y = false) :
    (l1 ++ x :: l2).find? p = some x := by
  induction l1 with
  | nil => simp [List.find?, hx]
  | cons y ys ih =>
    have hy : p y = false := h1 y (List.mem_cons_self _ _)
    have hys : ∀ z ∈ ys, p z = false := fun z hz => h1 z (List.mem_cons_of_mem _ hz)
    simp [List.find?, hy, ih hys]

theorem truthyStr_some {v : String} (h : v ≠ "") : truthyStr (some v) = true := by
  simp [truthyStr, h]

theorem truthyStr_none : truthyStr none = false := rfl

theorem truthyStr_empty : truthyStr (some "") = false := by
  simp [truthyStr]

theorem truthyNum_some {n : JsNum} (h : n ≠ 0) : truthyNum (some n) = true := by
  simp [truthyNum, h]

theorem truthyNum_none : truthyNum none = false := rfl

theorem truthyNum_zero : truthyNum (some 0) = false := by
  simp [truthyNum]

/-- The catalog after a successful `updateBook`: the first book with the id
is replaced by the merged book and the others stay. -/
theorem updateBook_books_of_success {s : State} {currentYear : JsNum} {bookId : Int}
    {req : BookRequest} {status : Nat} {message : String} {updated : Book}
    (h : (updateBook s currentYear bookId req).2 = .success status message updated) :
    ∃ currentBook b1 b2, s.books.find? (fun b => b.id == bookId) = some currentBook ∧
      bookUpdateErrors currentYear req = [] ∧ updated = mergeBook currentBook req ∧
      s.books = b1 ++ currentBook :: b2 ∧ (∀ y ∈ b1, (y.id == bookId) = false) ∧
      (updateBook s currentYear bookId req).1.books = b1 ++ updated :: b2 ∧
      (updateBook s currentYear bookId req).1.members = s.members ∧
      (updateBook s currentYear bookId req).1.borrowRecords = s.borrowRecords := by
  obtain ⟨currentBook, hb, he, hu, h2⟩ := updateBook_of_success h
  obtain ⟨b1, b2, hl, hn, hupd⟩ := updateFirst_of_find?_some
    (fun _ : Book => mergeBook currentBook req) hb
  refine ⟨currentBook, b1, b2, hb, he, hu, hl, hn, ?_, ?_, ?_⟩
  · rw [h2, hu]; exact hupd
  · rw [h2]
  · rw [h2]

theorem foldl_max_bounds (xs : List Int) (x : Int) :
    x ≤ xs.foldl max x ∧ (∀ i ∈ xs, i ≤ xs.foldl max x) ∧
      (xs.foldl max x = x ∨ xs.foldl max x ∈ xs) := by
  induction xs generalizing x with
  | nil => simp
  | cons y ys ih =>
    obtain ⟨h1, h2, h3⟩ := ih (max x y)
    simp only [List.foldl_cons, List.mem_cons]
    refine ⟨le_trans (le_max_left x y) h1, ?_, ?_⟩
    · intro i hi
      rcases hi with rfl | hi
      · exact le_trans (le_max_right x i) h1
      · exact h2 i hi
    · rcases h3 with h3 | h3
      · rw [h3]
        rcases max_choice x y with hm | hm
        · exact Or.inl hm
        · exact Or.inr (Or.inl hm)
      · exact Or.inr (Or.inr h3)

theorem mathMax_mem {ids : List Int} (h : ids ≠ []) : mathMax ids ∈ ids := by
  cases ids with
  | nil => exact absurd rfl h
  | cons x xs =>
    rcases (foldl_max_bounds xs x).2.2 with h1 | h1
    · show xs.foldl max x ∈ x :: xs
      rw [h1]; exact List.mem_cons_self _ _
    · exact List.mem_cons_of_mem _ h1

theorem le_mathMax {ids : List Int} {i : Int} (h : i ∈ ids) : i ≤ mathMax ids := by
  cases ids with
  | nil => simp at h
  | cons x xs =>
    rcases List.mem_cons.mp h with rfl | h1
    · exact (foldl_max_bounds xs i).1
    · exact (foldl_max_bounds xs x).2.1 i h1

theorem nextId_nil : nextId [] = 1 := rfl

theorem nextId_of_ne_nil {ids : List Int} (h : ids ≠ []) : nextId ids = mathMax ids + 1 := by
  have hlen : ids.length > 0 := List.length_pos.mpr h
  simp [nextId, hlen]

theorem lt_nextId {ids : List Int} {i : Int} (h : i ∈ ids) : i < nextId ids := by
  have hne : ids ≠ [] := List.ne_nil_of_mem h
  rw [nextId_of_ne_nil hne]
  have := le_mathMax h
  omega

/-- A successful `addBook` went through the last branch of the handler. -/
theorem addBook_of_success {s : State} {currentYear : JsNum} {req : BookRequest}
    {status : Nat} {message : String} {book : Book}
    (h : (addBook s currentYear req).2 = .success status message book) :
    bookErrors currentYear req = [] ∧
    s.books.find? (fun b => b.isbn == strOf req.isbn) = none ∧
    book = newBookOf s req ∧
    (addBook s currentYear req).1 = { s with books := s.books ++ [book] } := by
  rcases addBook_cases s currentYear req with ⟨_, h2⟩ | ⟨_, _, h2⟩ | ⟨he, hf, h2⟩
  · rw [h2] at h; simp at h
  · rw [h2] at h; simp at h
  · rw [h2] at h
    simp only [Response.success.injEq] at h
    refine ⟨he, hf, h.2.2.symm, ?_⟩
    rw [h2, h.2.2]

/-- A successful `addMember` went through the last branch of the handler. -/
theorem addMember_of_success {s : State} {todayIso : String} {req : MemberRequest}
    {status : Nat} {message : String} {member : Member}
    (h : (addMember s todayIso req).2 = .success status message member) :
    memberErrors req = [] ∧
    s.members.find? (fun m => m.email == strOf req.email) = none ∧
    member = newMemberOf s todayIso req ∧
    (addMember s todayIso req).1 = { s with members := s.members ++ [member] } := by
  rcases addMember_cases s todayIso req with ⟨_, h2⟩ | ⟨_, _, h2⟩ | ⟨he, hf, h2⟩
  · rw [h2] at h; simp at h
  · rw [h2] at h; simp at h
  · rw [h2] at h
    simp only [Response.success.injEq] at h
    refine ⟨he, hf, h.2.2.symm, ?_⟩
    rw [h2, h.2.2]

/-! ## The two regexes and `trim` -/

theorem mem_restsPlus (cls : Char → Bool) (cs t : List Char) :
    t ∈ restsPlus cls cs ↔
      ∃ m, m ≠ [] ∧ (∀ c ∈ m, cls c = true) ∧ cs = m ++ t := by
  induction cs with
  | nil =>
    simp only [restsPlus, List.not_mem_nil, false_iff]
    rintro ⟨m, hm, _, h⟩
    cases m with
    | nil => exact hm rfl
    | cons a m => simp at h
  | cons c cs ih =>
    by_cases hc : cls c = true
    · simp only [restsPlus, hc, if_true, List.mem_cons, ih]
      constructor
      · rintro (rfl | ⟨m, hm, hall, rfl⟩)
        · exact ⟨[c], by simp, by simpa using hc, by simp⟩
        · refine ⟨c :: m, by simp, ?_, by simp⟩
          intro x hx
          rcases List.mem_cons.mp hx with rfl | hx
          · exact hc
          · exact hall x hx
      · rintro ⟨m, hm, hall, h⟩
        cases m with
        | nil => exact absurd rfl hm
        | cons a m =>
          simp only [List.cons_append, List.cons.injEq] at h
          obtain ⟨rfl, rfl⟩ := h
          by_cases hm2 : m = []
          · subst hm2; exact Or.inl (by simp)
          · exact Or.inr ⟨m, hm2, fun x hx => hall x (List.mem_cons_of_mem _ hx), rfl⟩
    · have hc2 : cls c = false := by simpa using hc
      simp only [restsPlus, hc2, Bool.false_eq_true, if_false, List.not_mem_nil, false_iff]
      rintro ⟨m, hm, hall, h⟩
      cases m with
      | nil => exact hm rfl
      | cons a m =>
        simp only [List.cons_append, List.cons.injEq] at h
        obtain ⟨rfl, _⟩ := h
        have := hall c (List.mem_cons_self _ _)
        rw [hc2] at this
        exact absurd this (by decide)

theorem mem_restsTimes (cls : Char → Bool) (n : Nat) (cs t : List Char) :
    t ∈ restsTimes cls n cs ↔
      ∃ m, m.length = n ∧ (∀ c ∈ m, cls c = true) ∧ cs = m ++ t := by
  induction n generalizing cs with
  | zero =>
    simp only [restsTimes, List.mem_singleton]
    constructor
    · rintro rfl
      exact ⟨[], rfl, by simp, rfl⟩
    · rintro ⟨m, hm, _, h⟩
      rw [List.length_eq_zero] at hm
      subst hm
      exact h.symm
  | succ n ih =>
    cases cs with
    | nil =>
      simp only [restsTimes, List.not_mem_nil, false_iff]
      rintro ⟨m, hm, _, h⟩
      cases m with
      | nil => simp at hm
      | cons a m => simp at h
    | cons c cs =>
      by_cases hc : cls c = true
      · simp only [restsTimes, hc, if_true, ih]
        constructor
        · rintro ⟨m, hm, hall, rfl⟩
          refine ⟨c :: m, by simp [hm], ?_, by simp⟩
          intro x hx
          rcases List.mem_cons.mp hx with rfl | hx
          · exact hc
          · exact hall x hx
        · rintro ⟨m, hm, hall, h⟩
          cases m with
          | nil => simp at hm
          | cons a m =>
            simp only [List.cons_append, List.cons.injEq] at h
            obtain ⟨rfl, rfl⟩ := h
            exact ⟨m, by simpa using hm, fun x hx => hall x (List.mem_cons_of_mem _ hx), rfl⟩
      · have hc2 : cls c = false := by simpa using hc
        simp only [restsTimes, hc2, Bool.false_eq_true, if_false, List.not_mem_nil, false_iff]
        rintro ⟨m, hm, hall, h⟩
        cases m with
        | nil => simp at hm
        | cons a m =>
          simp only [List.cons_append, List.cons.injEq] at h
          obtain ⟨rfl, _⟩ := h
          have := hall c (List.mem_cons_self _ _)
          rw [hc2] at this
          exact absurd this (by decide)

theorem mem_rests_char (c : Char) (cs t : List Char) :
    t ∈ (Re.char c).rests cs ↔ cs = c :: t := by
  cases cs with
  | nil => simp [Re.rests]
  | cons x xs =>
    by_cases hx : x = c
    · subst hx
      simp [Re.rests]
      exact eq_comm
    · rw [show (Re.char c).rests (x :: xs) = [] by simp [Re.rests, hx]]
      simp only [List.not_mem_nil, false_iff]
      intro h
      exact hx (List.cons.inj h).1

theorem test_iff (r : Re) (s : String) : r.test s = true ↔ [] ∈ r.rests s.data := by
  unfold Re.test
  rw [List.any_eq_true]
  constructor
  · rintro ⟨x, hx, hemp⟩
    rw [List.isEmpty_iff] at hemp
    exact hemp ▸ hx
  · intro h
    exact ⟨[], h, rfl⟩

theorem mem_rests_seq (a b : Re) (cs t : List Char) :
    t ∈ (Re.seq a b).rests cs ↔ ∃ u ∈ a.rests cs, t ∈ b.rests u := by
  simp [Re.rests, List.mem_flatMap]

theorem notSpaceAt_iff (c : Char) :
    notSpaceAt c = true ↔ isJsWhitespace c = false ∧ c ≠ '@' := by
  simp [notSpaceAt]

/-- The email pattern of the server accepts exactly the strings of the shape
the specification describes. -/
theorem emailRegex_test_iff (t : String) : emailRegex.test t = true ↔ EmailShape t := by
  rw [test_iff]
  unfold emailRegex EmailShape
  constructor
  · intro h
    obtain ⟨u1, h1, h⟩ := (mem_rests_seq _ _ _ _).mp h
    obtain ⟨u2, h2, h⟩ := (mem_rests_seq _ _ _ _).mp h
    obtain ⟨u3, h3, h⟩ := (mem_rests_seq _ _ _ _).mp h
    obtain ⟨u4, h4, h5⟩ := (mem_rests_seq _ _ _ _).mp h
    obtain ⟨name, hn, hnall, hcs⟩ := (mem_restsPlus _ _ _).mp h1
    have hu1 := (mem_rests_char _ _ _).mp h2
    obtain ⟨dom, hd, hdall, hu2⟩ := (mem_restsPlus _ _ _).mp h3
    have hu3 := (mem_rests_char _ _ _).mp h4
    obtain ⟨tld, ht, htall, hu4⟩ := (mem_restsPlus _ _ _).mp h5
    refine ⟨name, dom, tld, ?_, hn, hd, ht, ?_⟩
    · rw [hcs, hu1, hu2, hu3, hu4, List.append_nil]
    · intro c hc
      apply (notSpaceAt_iff c).mp
      rcases List.mem_append.mp hc with hc | hc
      · rcases List.mem_append.mp hc with hc | hc
        · exact hnall c hc
        · exact hdall c hc
      · exact htall c hc
  · rintro ⟨name, dom, tld, hcs, hn, hd, ht, hall⟩
    have hcls : ∀ c ∈ name ++ dom ++ tld, notSpaceAt c = true :=
      fun c hc => (notSpaceAt_iff c).mpr (hall c hc)
    refine (mem_rests_seq _ _ _ _).mpr ⟨'@' :: (dom ++ '.' :: tld), ?_, ?_⟩
    · refine (mem_restsPlus _ _ _).mpr ⟨name, hn, ?_, hcs⟩
      intro c hc
      exact hcls c (List.mem_append_left _ (List.mem_append_left _ hc))
    refine (mem_rests_seq _ _ _ _).mpr ⟨dom ++ '.' :: tld, ?_, ?_⟩
    · exact (mem_rests_char _ _ _).mpr rfl
    refine (mem_rests_seq _ _ _ _).mpr ⟨'.' :: tld, ?_, ?_⟩
    · refine (mem_restsPlus _ _ _).mpr ⟨dom, hd, ?_, rfl⟩
      intro c hc
      exact hcls c (List.mem_append_left _ (List.mem_append_right _ hc))
    refine (mem_rests_seq _ _ _ _).mpr ⟨tld, ?_, ?_⟩
    · exact (mem_rests_char _ _ _).mpr rfl
    · refine (mem_restsPlus _ _ _).mpr ⟨tld, ht, ?_, by simp⟩
      intro c hc
      exact hcls c (List.mem_append_right _ hc)

theorem isDigit09_iff (c : Char) :
    isDigit09 c = true ↔ c ∈ ['0', '1', '2', '3', '4', '5', '6', '7', '8', '9'] := by
  constructor
  · intro h
    simp only [isDigit09, Bool.and_eq_true, decide_eq_true_eq] at h
    obtain ⟨h1, h2⟩ := h
    have hc : c = Char.ofNat c.toNat := (Char.ofNat_toNat c).symm
    generalize c.toNat = n at h1 h2 hc
    subst hc
    interval_cases n <;> decide
  · intro h
    simp only [List.mem_cons, List.mem_singleton, List.not_mem_nil, or_false] at h
    rcases h with rfl | rfl | rfl | rfl | rfl | rfl | rfl | rfl | rfl | rfl <;> decide

/-- The phone pattern of the server accepts exactly the strings of ten
digits. -/
theorem phoneRegex_test_iff (t : String) : phoneRegex.test t = true ↔ TenDigits t := by
  rw [test_iff]
  unfold phoneRegex TenDigits
  show [] ∈ restsTimes isDigit09 10 t.data ↔ _
  rw [mem_restsTimes]
  constructor
  · rintro ⟨m, hm, hall, h⟩
    rw [List.append_nil] at h
    subst h
    exact ⟨hm, fun c hc => (isDigit09_iff c).mp (hall c hc)⟩
  · rintro ⟨hlen, hall⟩
    exact ⟨t.data, hlen, fun c hc => (isDigit09_iff c).mpr (hall c hc), by simp⟩

theorem trimChars_eq_nil_iff (cs : List Char) :
    trimChars cs = [] ↔ ∀ c ∈ cs, isJsWhitespace c = true := by
  unfold trimChars
  rw [List.reverse_eq_nil_iff, List.dropWhile_eq_nil_iff]
  constructor
  · intro h
    have hd : cs.dropWhile isJsWhitespace = [] := by
      by_contra hne
      have h1 := List.head_dropWhile_not isJsWhitespace cs hne
      have h2 := h _ (List.mem_reverse.mpr (List.head_mem hne))
      rw [h2] at h1
      exact absurd h1 (by decide)
    exact List.dropWhile_eq_nil_iff.mp hd
  · intro h c hc
    have hd : cs.dropWhile isJsWhitespace = [] := List.dropWhile_eq_nil_iff.mpr h
    rw [hd] at hc
    simp at hc

theorem jsTrim_eq_empty_iff (t : String) :
    jsTrim t = "" ↔ ∀ c ∈ t.data, isJsWhitespace c = true := by
  rw [← trimChars_eq_nil_iff]
  unfold jsTrim
  constructor
  · intro h
    have := congrArg String.data h
    exact this
  · intro h
    rw [h]

/-- The blank test of the handlers, `!field || field.trim() === ''`, is the
rule "field is blank". -/
theorem blank_test_iff (v : Option String) :
    (!truthyStr v || jsTrim (strOf v) == "") = true ↔ IsBlank v := by
  cases v with
  | none => simp [truthyStr, IsBlank]
  | some t =>
    have hsome : IsBlank (some t) ↔ ∀ c ∈ t.data, isJsWhitespace c = true := by
      unfold IsBlank
      constructor
      · rintro (h | ⟨t2, h, hall⟩)
        · exact absurd h (by simp)
        · obtain rfl : t = t2 := Option.some.inj h
          exact hall
      · intro h
        exact Or.inr ⟨t, rfl, h⟩
    rw [hsome, ← jsTrim_eq_empty_iff]
    by_cases ht : t = ""
    · subst ht
      simp [truthyStr, strOf]
      rfl
    · simp [truthyStr, strOf, ht]

/-- The `errors` array of the registration handler, field by field. -/
theorem memberErrors_eq (req : MemberRequest) :
    memberErrors req =
      (if (!truthyStr req.name || jsTrim (strOf req.name) == "") = true then
        ["Name is required"] else []) ++
      (if (!truthyStr req.email || jsTrim (strOf req.email) == "") = true then
        ["Email is required"]
       else if emailRegex.test (strOf req.email) = true then [] else ["Invalid email format"]) ++
      (if (!truthyStr req.phone || jsTrim (strOf req.phone) == "") = true then
        ["Phone is required"]
       else if phoneRegex.test (strOf req.phone) = true then [] else ["Phone must be 10 digits"]) := by
  unfold memberErrors pushIf
  by_cases h1 : (!truthyStr req.name || jsTrim (strOf req.name) == "") = true <;>
  by_cases h2 : (!truthyStr req.email || jsTrim (strOf req.email) == "") = true <;>
  by_cases h3 : (!truthyStr req.phone || jsTrim (strOf req.phone) == "") = true <;>
  by_cases h4 : emailRegex.test (strOf req.email) = true <;>
  by_cases h5 : phoneRegex.test (strOf req.phone) = true <;>
  simp only [h1, h2, h3, h4, h5, if_true, if_false, Bool.not_true, Bool.not_false,
    Bool.false_eq_true, List.nil_append, List.append_nil, List.cons_append,
    Bool.not_eq_true]

/-! ## Claims on the catalog and membership stores -/

/-- C13 (duplicate ISBN is rejected on add): when an add-book request passes
the field validation and its `isbn` string equals the `isbn` of a book of the
catalog, `addBook` answers 400 "A book with this ISBN already exists"
(DuplicateKey) and the state, the catalog included, is unchanged. -/
theorem duplicate_isbn_rejected (s : State) (currentYear : JsNum) (req : BookRequest)
    (hvalid : bookErrors currentYear req = [])
    (hdup : ∃ b ∈ s.books, req.isbn = some b.isbn) :
    (addBook s currentYear req).2 = .failure 400 "A book with this ISBN already exists" ∧
    (addBook s currentYear req).1 = s ∧
    (addBook s currentYear req).1.books = s.books := by
  obtain ⟨b, hb, hisbn⟩ := hdup
  have hne : s.books.find? (fun x => x.isbn == strOf req.isbn) ≠ none := by
    intro hnone
    have h1 := List.find?_eq_none.mp hnone b hb
    apply h1
    simp [hisbn, strOf]
  obtain ⟨x, hx⟩ := Option.ne_none_iff_exists'.mp hne
  rw [addBook_duplicate hvalid hx]
  exact ⟨rfl, rfl, rfl⟩

/-- Witness of C13: a valid request with the isbn of seed book 1. -/
theorem duplicate_isbn_rejected_witness :
    (addBook seed 2026 gatsbyAgain).2 =
      .failure 400 "A book with this ISBN already exists" ∧
    (addBook seed 2026 gatsbyAgain).1 = seed ∧
    (addBook seed 2026 gatsbyAgain).1.books = seed.books :=
  duplicate_isbn_rejected seed 2026 gatsbyAgain (by decide)
    ⟨seed.books.get ⟨0, by decide⟩, by decide, by decide⟩

/-- C12 at its failing input: `caseVariantRequest` passes the field
validation and its email differs from the email of seed member 1 only in
letter case, yet `addMember` answers 201 and the member list then holds two
members with the email `john.doe@email.com`.  The handler compares the stored,
lower-cased emails with the email as typed. -/
theorem register_case_variant_email_accepted :
    memberErrors caseVariantRequest = [] ∧
    (∃ m ∈ seed.members, m.email ≠ strOf caseVariantRequest.email ∧
      toLowerCase m.email = toLowerCase (strOf caseVariantRequest.email)) ∧
    (addMember seed "2026-11-04" caseVariantRequest).2 =
      .success 201 "Member registered successfully"
        { id := 3, name := "Johnny Doe", email := "john.doe@email.com",
          phone := "5551234567", membershipDate := "2026-11-04", borrowedBooks := [] } ∧
    (addMember seed "2026-11-04" caseVariantRequest).2 ≠
      .failure 400 "A member with this email already exists" ∧
    ((addMember seed "2026-11-04" caseVariantRequest).1.members.map (fun m => m.email)) =
      ["john.doe@email.com", "jane.smith@email.com", "john.doe@email.com"] :=
  ⟨by decide, ⟨seed.members.get ⟨0, by decide⟩, by decide, by decide, by decide⟩,
    by decide, by decide, by decide⟩

/-- C15 (book update and `available <= total`), as the handler does it: an
accepted update of an existing book with `availableCopies <= copies` never
changes `availableCopies`.  When the request has no `copies`, or has
`copies = 0` (which is accepted and ignored), `copies` is unchanged and the
updated book still has `availableCopies <= copies`.  When the request has a
non-zero `copies`, the stored `copies` is `parseInt` of that number, and the
updated book has `availableCopies <= copies` when the stored value is at least
the book's `availableCopies` and `copies < availableCopies` when it is
less. -/
theorem book_update_keeps_available (s : State) (currentYear : JsNum) (bookId : Int)
    (req : BookRequest) (currentBook : Book) (status : Nat) (message : String)
    (updated : Book)
    (hb : s.books.find? (fun b => b.id == bookId) = some currentBook)
    (hle : currentBook.availableCopies ≤ currentBook.copies)
    (h : (updateBook s currentYear bookId req).2 = .success status message updated) :
    updated.availableCopies = currentBook.availableCopies ∧
    (updateBook s currentYear bookId req).1.books.find? (fun b => b.id == bookId) =
      some updated ∧
    (req.copies = none ∨ req.copies = some 0 →
      updated.copies = currentBook.copies ∧ updated.availableCopies ≤ updated.copies) ∧
    (∀ n, req.copies = some n → n ≠ 0 →
      updated.copies = parseInt n ∧
      (currentBook.availableCopies ≤ parseInt n →
        updated.availableCopies ≤ updated.copies) ∧
      (parseInt n < currentBook.availableCopies →
        updated.copies < updated.availableCopies)) := by
  obtain ⟨cur, b1, b2, hb2, _, hu, _, hn, hbooks, _, _⟩ := updateBook_books_of_success h
  rw [hb] at hb2
  obtain rfl : currentBook = cur := Option.some.inj hb2
  have hid : currentBook.id = bookId := find?_id_eq hb
  subst hu
  refine ⟨rfl, ?_, ?_, ?_⟩
  · rw [hbooks]
    refine find?_append_cons _ b1 b2 _ ?_ hn
    show ((mergeBook currentBook req).id == bookId) = true
    simp [mergeBook, hid]
  · rintro (hf | hf)
    · simp [mergeBook, hf, truthyNum_none, hle]
    · simp [mergeBook, hf, truthyNum_zero, hle]
  · intro n hreq hne
    have ht : truthyNum req.copies = true := by rw [hreq]; exact truthyNum_some hne
    have hc : (mergeBook currentBook req).copies = parseInt n := by
      show (if truthyNum req.copies = true then parseInt (numOf req.copies)
        else currentBook.copies) = parseInt n
      rw [if_pos ht, hreq]
      rfl
    refine ⟨hc, ?_, ?_⟩
    · intro hge
      rw [hc]
      exact hge
    · intro hlt
      rw [hc]
      exact hlt

/-- Witness of C15: seed book 1 (3 of 5 copies available) updated to 8
copies. -/
theorem book_update_keeps_available_witness :
    ∃ updated : Book,
      (updateBook seed 2026 1 { emptyBookRequest with copies := some 8 }).2 =
        .success 200 "Book updated successfully" updated ∧
      updated.availableCopies = 3 ∧ updated.copies = 8 ∧
      updated.availableCopies ≤ updated.copies :=
  ⟨_, rfl,
    (book_update_keeps_available seed 2026 1 { emptyBookRequest with copies := some 8 }
      (seed.books.get ⟨0, by decide⟩) 200 "Book updated successfully" _ rfl (by decide) rfl).1,
    ((book_update_keeps_available seed 2026 1 { emptyBookRequest with copies := some 8 }
      (seed.books.get ⟨0, by decide⟩) 200 "Book updated successfully" _ rfl (by decide)
      rfl).2.2.2 8 rfl (by decide)).1.trans (by decide),
    ((book_update_keeps_available seed 2026 1 { emptyBookRequest with copies := some 8 }
      (seed.books.get ⟨0, by decide⟩) 200 "Book updated successfully" _ rfl (by decide)
      rfl).2.2.2 8 rfl (by decide)).2.1 (by decide)⟩

/-- Counterexample to C15 as stated: seed book 1 has 3 of 5 copies available;
the update that supplies only `copies = 1` is accepted and the stored book
then has 3 available copies of 1.  The update that supplies only
`copies = 1e21` is accepted as well and also stores `copies = 1`, because
`parseInt` reads the number through its string `1e+21`. -/
theorem update_copies_below_available_counterexample :
    (∃ book, seed.books.find? (fun b => b.id == 1) = some book ∧
      book.availableCopies ≤ book.copies) ∧
    bookUpdateErrors 2026 oneCopyUpdate = [] ∧
    (∃ updated, (updateBook seed 2026 1 oneCopyUpdate).2 =
        .success 200 "Book updated successfully" updated ∧
      (updateBook seed 2026 1 oneCopyUpdate).1.books.find? (fun b => b.id == 1) =
        some updated ∧
      updated.availableCopies = 3 ∧ updated.copies = 1 ∧
      ¬ updated.availableCopies ≤ updated.copies) ∧
    bookUpdateErrors 2026 hugeCopiesUpdate = [] ∧
    (∃ updated, (updateBook seed 2026 1 hugeCopiesUpdate).2 =
        .success 200 "Book updated successfully" updated ∧
      updated.availableCopies = 3 ∧ updated.copies = 1 ∧
      ¬ updated.availableCopies ≤ updated.copies) :=
  ⟨⟨_, rfl, by decide⟩, by decide, ⟨_, rfl, by decide, by decide, by decide, by decide⟩,
    by decide, ⟨_, rfl, by decide, by decide, by decide⟩⟩

/-- C20 (book update is a partial merge that cannot touch availability), as
the handler does it: an update for an unknown id answers 404 "Book not found"
and changes nothing.  An accepted update of an existing book gives a book with
the same `id` and the same `availableCopies`; a string field among `title`,
`author`, `isbn`, `category` that the request has as a non-empty string is the
trimmed value, and one that is absent or the empty string keeps its previous
value; `publishYear` and `copies` are `parseInt` of the number the request
has when that number is not 0, and keep their previous value when the field
is absent or 0; the updated book takes the place of the old one in the
catalog, no other book changes, and members and ledger are untouched. -/
theorem book_update_partial_merge (s : State) (currentYear : JsNum) (bookId : Int)
    (req : BookRequest) :
    (s.books.find? (fun b => b.id == bookId) = none →
      (updateBook s currentYear bookId req).2 = .failure 404 "Book not found" ∧
      (updateBook s currentYear bookId req).1 = s) ∧
    (∀ (currentBook : Book) (status : Nat) (message : String) (updated : Book),
      s.books.find? (fun b => b.id == bookId) = some currentBook →
      (updateBook s currentYear bookId req).2 = .success status message updated →
      updated.id = currentBook.id ∧
      updated.availableCopies = currentBook.availableCopies ∧
      (∀ v, req.title = some v → v ≠ "" → updated.title = jsTrim v) ∧
      (req.title = none ∨ req.title = some "" → updated.title = currentBook.title) ∧
      (∀ v, req.author = some v → v ≠ "" → updated.author = jsTrim v) ∧
      (req.author = none ∨ req.author = some "" → updated.author = currentBook.author) ∧
      (∀ v, req.isbn = some v → v ≠ "" → updated.isbn = jsTrim v) ∧
      (req.isbn = none ∨ req.isbn = some "" → updated.isbn = currentBook.isbn) ∧
      (∀ v, req.category = some v → v ≠ "" → updated.category = jsTrim v) ∧
      (req.category = none ∨ req.category = some "" →
        updated.category = currentBook.category) ∧
      (∀ n, req.publishYear = some n → n ≠ 0 → updated.publishYear = parseInt n) ∧
      (req.publishYear = none ∨ req.publishYear = some 0 →
        updated.publishYear = currentBook.publishYear) ∧
      (∀ n, req.copies = some n → n ≠ 0 → updated.copies = parseInt n) ∧
      (req.copies = none ∨ req.copies = some 0 → updated.copies = currentBook.copies) ∧
      (∃ b1 b2, s.books = b1 ++ currentBook :: b2 ∧ (∀ y ∈ b1, y.id ≠ bookId) ∧
        (updateBook s currentYear bookId req).1.books = b1 ++ updated :: b2) ∧
      (updateBook s currentYear bookId req).1.members = s.members ∧
      (updateBook s currentYear bookId req).1.borrowRecords = s.borrowRecords) := by
  constructor
  · intro hb
    rw [updateBook_not_found hb]
    exact ⟨rfl, rfl⟩
  · intro currentBook status message updated hb h
    obtain ⟨cur, b1, b2, hb2, _, hu, hl, hn, hbooks, hmem, hrec⟩ :=
      updateBook_books_of_success h
    rw [hb] at hb2
    obtain rfl : currentBook = cur := Option.some.inj hb2
    subst hu
    have hstr : ∀ (field : Option String) (old : String),
        (∀ v, field = some v → v ≠ "" →
          (if truthyStr field = true then jsTrim (strOf field) else old) = jsTrim v) ∧
        (field = none ∨ field = some "" →
          (if truthyStr field = true then jsTrim (strOf field) else old) = old) := by
      intro field old
      constructor
      · intro v hv hne
        subst hv
        simp [truthyStr_some hne, strOf]
      · rintro (hv | hv)
        · subst hv; simp [truthyStr_none]
        · subst hv; simp [truthyStr_empty]
    have hnum : ∀ (field : Option JsNum) (old : JsNum),
        (∀ n, field = some n → n ≠ 0 →
          (if truthyNum field = true then parseInt (numOf field) else old) = parseInt n) ∧
        (field = none ∨ field = some 0 →
          (if truthyNum field = true then parseInt (numOf field) else old) = old) := by
      intro field old
      constructor
      · intro n hv hne
        subst hv
        simp [truthyNum_some hne, numOf]
      · rintro (hv | hv)
        · subst hv; simp [truthyNum_none]
        · subst hv; simp [truthyNum_zero]
    refine ⟨rfl, rfl, (hstr req.title currentBook.title).1, (hstr req.title currentBook.title).2,
      (hstr req.author currentBook.author).1, (hstr req.author currentBook.author).2,
      (hstr req.isbn currentBook.isbn).1, (hstr req.isbn currentBook.isbn).2,
      (hstr req.category currentBook.category).1, (hstr req.category currentBook.category).2,
      (hnum req.publishYear currentBook.publishYear).1,
      (hnum req.publishYear currentBook.publishYear).2,
      (hnum req.copies currentBook.copies).1, (hnum req.copies currentBook.copies).2,
      ⟨b1, b2, hl, ?_, hbooks⟩, hmem, hrec⟩
    intro y hy
    have := hn y hy
    simpa using this

/-- Witness of C20 on the seed data: an update for the unknown id 9, and an
update of book 2 that supplies a padded title and leaves the rest out. -/
theorem book_update_partial_merge_witness :
    ((updateBook seed 2026 9 emptyBookRequest).2 = .failure 404 "Book not found" ∧
      (updateBook seed 2026 9 emptyBookRequest).1 = seed) ∧
    (∃ updated : Book,
      (updateBook seed 2026 2 { emptyBookRequest with title := some "  Mockingbird " }).2 =
        .success 200 "Book updated successfully" updated ∧
      updated.id = 2 ∧ updated.availableCopies = 4 ∧ updated.title = "Mockingbird" ∧
      updated.author = "Harper Lee") :=
  ⟨(book_update_partial_merge seed 2026 9 emptyBookRequest).1 (by decide),
   ⟨_, rfl,
    ((book_update_partial_merge seed 2026 2
      { emptyBookRequest with title := some "  Mockingbird " }).2
      (seed.books.get ⟨1, by decide⟩) 200 "Book updated successfully" _ rfl rfl).1,
    ((book_update_partial_merge seed 2026 2
      { emptyBookRequest with title := some "  Mockingbird " }).2
      (seed.books.get ⟨1, by decide⟩) 200 "Book updated successfully" _ rfl rfl).2.1,
    (((book_update_partial_merge seed 2026 2
      { emptyBookRequest with title := some "  Mockingbird " }).2
      (seed.books.get ⟨1, by decide⟩) 200 "Book updated successfully" _ rfl
      rfl).2.2.1 "  Mockingbird " rfl (by decide)).trans (by decide),
    ((book_update_partial_merge seed 2026 2
      { emptyBookRequest with title := some "  Mockingbird " }).2
      (seed.books.get ⟨1, by decide⟩) 200 "Book updated successfully" _ rfl
      rfl).2.2.2.2.2.1 (Or.inl rfl)⟩⟩

/-- Counterexample to C20 as stated: the update of seed book 2 that supplies
the empty string as `title` is accepted, and the stored title is the previous
one, not the trimmed supplied value; the update that supplies `copies = 1e21`
is accepted and stores `copies = 1`. -/
theorem update_empty_title_counterexample :
    (∃ updated, (updateBook seed 2026 2 emptyTitleUpdate).2 =
        .success 200 "Book updated successfully" updated ∧
      emptyTitleUpdate.title = some "" ∧
      updated.title = "To Kill a Mockingbird" ∧ updated.title ≠ jsTrim "") ∧
    (∃ updated, (updateBook seed 2026 2 hugeCopiesUpdate).2 =
        .success 200 "Book updated successfully" updated ∧
      hugeCopiesUpdate.copies = some 1000000000000000000000 ∧ updated.copies = 1) :=
  ⟨⟨_, rfl, rfl, by decide, by decide⟩, ⟨_, rfl, rfl, by decide⟩⟩

/-- C16 (next-id assignment): the id expression gives 1 on an empty
collection and 1 + the maximum id on a non-empty one; the id it gives differs
from every id of the collection, so pairwise-distinct ids stay pairwise
distinct when it is appended.  A successful `addBook`, `addMember` or `borrow`
appends exactly one element whose id is that expression over the ids of the
books, members or borrow records before the call; and a newly added book has
`availableCopies = copies`. -/
theorem next_id_assignment :
    nextId [] = 1 ∧
    (∀ ids : List Int, ids ≠ [] →
      ∃ mx ∈ ids, (∀ i ∈ ids, i ≤ mx) ∧ nextId ids = 1 + mx) ∧
    (∀ ids : List Int, ∀ i ∈ ids, i ≠ nextId ids) ∧
    (∀ ids : List Int, ids.Nodup → (ids ++ [nextId ids]).Nodup) ∧
    (∀ (s : State) (currentYear : JsNum) (req : BookRequest) (status : Nat) (message : String)
        (book : Book),
      (addBook s currentYear req).2 = .success status message book →
      book.id = nextId (s.books.map (fun b => b.id)) ∧
      (addBook s currentYear req).1.books = s.books ++ [book] ∧
      book.availableCopies = book.copies) ∧
    (∀ (s : State) (todayIso : String) (req : MemberRequest) (status : Nat) (message : String)
        (member : Member),
      (addMember s todayIso req).2 = .success status message member →
      member.id = nextId (s.members.map (fun m => m.id)) ∧
      (addMember s todayIso req).1.members = s.members ++ [member]) ∧
    (∀ (s : State) (clock : Clock) (memberId bookId : Int) (status : Nat) (message : String)
        (data : BorrowData),
      (borrow s clock memberId bookId).2 = .success status message data →
      data.record.id = nextId (s.borrowRecords.map (fun r => r.id)) ∧
      (borrow s clock memberId bookId).1.borrowRecords = s.borrowRecords ++ [data.record]) := by
  refine ⟨rfl, ?_, ?_, ?_, ?_, ?_, ?_⟩
  · intro ids hne
    refine ⟨mathMax ids, mathMax_mem hne, fun i hi => le_mathMax hi, ?_⟩
    rw [nextId_of_ne_nil hne, add_comm]
  · intro ids i hi
    exact ne_of_lt (lt_nextId hi)
  · intro ids hnd
    rw [List.nodup_append]
    refine ⟨hnd, List.nodup_singleton _, ?_⟩
    intro a ha hb
    rw [List.mem_singleton] at hb
    exact ne_of_lt (lt_nextId ha) hb
  · intro s currentYear req status message book h
    obtain ⟨_, _, hb, hs⟩ := addBook_of_success h
    refine ⟨by rw [hb]; rfl, by rw [hs], by rw [hb]; rfl⟩
  · intro s todayIso req status message member h
    obtain ⟨_, _, hm, hs⟩ := addMember_of_success h
    exact ⟨by rw [hm]; rfl, by rw [hs]⟩
  · intro s clock memberId bookId status message data h
    obtain ⟨member, book, hm, hb, _, _, hs⟩ := borrow_fst_of_success h
    have hrec := borrow_data_of_success hm hb h
    refine ⟨by rw [hrec], ?_⟩
    rw [hs, hrec]
    rfl

/-- Witness of C16 on the seed data: the ids of the three books give 4, and
a book, a member and a loan are created with ids 4, 3 and 2. -/
theorem next_id_assignment_witness :
    (∃ mx ∈ [(1 : Int), 2, 3], (∀ i ∈ [(1 : Int), 2, 3], i ≤ mx) ∧
      nextId [1, 2, 3] = 1 + mx) ∧
    (∃ book : Book, (addBook seed 2026 duneRequest).2 =
        .success 201 "Book added successfully" book ∧
      book.id = nextId (seed.books.map (fun b => b.id)) ∧
      book.availableCopies = book.copies) ∧
    (∃ member : Member, (addMember seed "2026-11-04" caseVariantRequest).2 =
        .success 201 "Member registered successfully" member ∧
      member.id = nextId (seed.members.map (fun m => m.id))) ∧
    (∃ data : BorrowData, (borrow seed (utcClock 0) 2 2).2 =
        .success 201 "Book borrowed successfully" data ∧
      data.record.id = nextId (seed.borrowRecords.map (fun r => r.id))) :=
  ⟨next_id_assignment.2.1 [1, 2, 3] (by decide),
   ⟨_, rfl,
    (next_id_assignment.2.2.2.2.1 seed 2026 duneRequest 201 "Book added successfully" _ rfl).1,
    (next_id_assignment.2.2.2.2.1 seed 2026 duneRequest 201 "Book added successfully" _
      rfl).2.2⟩,
   ⟨_, rfl,
    (next_id_assignment.2.2.2.2.2.1 seed "2026-11-04" caseVariantRequest 201
      "Member registered successfully" _ rfl).1⟩,
   ⟨_, rfl,
    (next_id_assignment.2.2.2.2.2.2 seed (utcClock 0) 2 2 201 "Book borrowed successfully" _
      rfl).1⟩⟩

/-- C17 (book ids over the life of the catalog), as the handlers do it: the
id a successful `addBook` assigns is strictly greater than the id of every
book that is in the catalog at that moment, and the new book is appended;
`deleteBook` only takes books out, it puts none in and changes no id. -/
theorem new_book_id_above_catalog (s : State) (currentYear : JsNum) (req : BookRequest)
    (status : Nat) (message : String) (book : Book)
    (h : (addBook s currentYear req).2 = .success status message book) :
    (∀ x ∈ s.books, x.id < book.id) ∧
    (addBook s currentYear req).1.books = s.books ++ [book] ∧
    (∀ bookId : Int, ∀ x ∈ (deleteBook s bookId).1.books, x ∈ s.books) := by
  obtain ⟨_, _, hb, hs⟩ := addBook_of_success h
  refine ⟨?_, by rw [hs], ?_⟩
  · intro x hx
    rw [hb]
    show x.id < nextId (s.books.map (fun b => b.id))
    exact lt_nextId (List.mem_map_of_mem _ hx)
  · intro bookId x hx
    cases hf : s.books.find? (fun b => b.id == bookId) with
    | none =>
      have h2 : deleteBook s bookId = (s, .failure 404 "Book not found") := by
        simp [deleteBook, hf]
      rw [h2] at hx
      exact hx
    | some found =>
      by_cases ha : s.borrowRecords.any (isActiveLoanOf bookId) = true
      · rw [deleteBook_blocked hf ha] at hx
        exact hx
      · have ha2 : s.borrowRecords.any (isActiveLoanOf bookId) = false := by
          simpa using ha
        rw [deleteBook_success hf ha2] at hx
        exact List.mem_of_mem_eraseP hx

/-- Witness of C17: the book added to the seed data gets id 4, above the
ids 1, 2 and 3 of the catalog. -/
theorem new_book_id_above_catalog_witness :
    ∃ book : Book, (addBook seed 2026 duneRequest).2 =
        .success 201 "Book added successfully" book ∧
      (∀ x ∈ seed.books, x.id < book.id) :=
  ⟨_, rfl,
    (new_book_id_above_catalog seed 2026 duneRequest 201 "Book added successfully" _ rfl).1⟩

/-- Counterexample to C17 as stated: a book added to the seed data gets id
4; it is deleted; the next book added gets id 4 again, which is not greater
than the id assigned before. -/
theorem book_id_reused_counterexample :
    ∃ first second deleted : Book,
      (addBook seed 2026 duneRequest).2 = .success 201 "Book added successfully" first ∧
      (deleteBook (addBook seed 2026 duneRequest).1 4).2 =
        .success 200 "Book deleted successfully" deleted ∧
      (addBook (deleteBook (addBook seed 2026 duneRequest).1 4).1 2026 emmaRequest).2 =
        .success 201 "Book added successfully" second ∧
      first.id = 4 ∧ deleted = first ∧ second.id = 4 ∧ ¬ first.id < second.id :=
  ⟨_, _, _, rfl, rfl, rfl, by decide, by decide, by decide, by decide⟩

/-- Where the handlers do keep isbns distinct: in a catalog where no two
books have the same isbn, a successful `addBook` whose isbn has no leading or
trailing whitespace leaves no two books with the same isbn; a successful
`updateBook` does so when the request supplies no isbn, or when no book other
than the updated one has the trimmed supplied isbn. -/
theorem isbnUnique_of_fresh_isbn (s : State) (currentYear : JsNum)
    (req : BookRequest) (hu : isbnUnique s.books) :
    (∀ (status : Nat) (message : String) (book : Book),
      (addBook s currentYear req).2 = .success status message book →
      jsTrim (strOf req.isbn) = strOf req.isbn →
      isbnUnique (addBook s currentYear req).1.books) ∧
    (∀ (bookId : Int) (status : Nat) (message : String) (updated : Book),
      (updateBook s currentYear bookId req).2 = .success status message updated →
      (truthyStr req.isbn = false ∨
        ∀ x ∈ s.books, x.isbn = jsTrim (strOf req.isbn) →
          s.books.find? (fun b => b.id == bookId) = some x) →
      isbnUnique (updateBook s currentYear bookId req).1.books) := by
  constructor
  · intro status message book h htrim
    obtain ⟨_, hf, hb, hs⟩ := addBook_of_success h
    rw [hs]
    show ((s.books ++ [book]).map (fun b => b.isbn)).Nodup
    rw [List.map_append, List.map_singleton, List.nodup_append]
    refine ⟨hu, List.nodup_singleton _, ?_⟩
    intro a ha hb2
    rw [List.mem_singleton] at hb2
    obtain ⟨x, hx, hxa⟩ := List.mem_map.mp ha
    have h1 := List.find?_eq_none.mp hf x hx
    apply h1
    have hbi : book.isbn = strOf req.isbn := by rw [hb]; exact htrim
    simp [hxa, hb2, hbi]
  · intro bookId status message updated h hcond
    obtain ⟨cur, b1, b2, hb, _, hupd, hl, _, hbooks, _, _⟩ := updateBook_books_of_success h
    rw [hbooks]
    have hu2 : ((b1 ++ cur :: b2).map (fun b => b.isbn)).Nodup := hl ▸ hu
    show ((b1 ++ updated :: b2).map (fun b => b.isbn)).Nodup
    rw [List.map_append, List.map_cons] at hu2 ⊢
    rw [List.nodup_middle] at hu2 ⊢
    rw [List.nodup_cons] at hu2 ⊢
    refine ⟨?_, hu2.2⟩
    by_cases ht : truthyStr req.isbn = true
    · have hnew : updated.isbn = jsTrim (strOf req.isbn) := by
        rw [hupd]; simp [mergeBook, ht]
      rcases hcond with hfalse | hother
      · rw [hfalse] at ht; exact absurd ht (by decide)
      · intro hmem
        rw [← List.map_append] at hmem
        obtain ⟨x, hx, hxa⟩ := List.mem_map.mp hmem
        have hxs : x ∈ s.books := by
          rw [hl]
          rcases List.mem_append.mp hx with h1 | h1
          · exact List.mem_append_left _ h1
          · exact List.mem_append_right _ (List.mem_cons_of_mem _ h1)
        have hxc := hother x hxs (by rw [← hnew]; exact hxa)
        rw [hb] at hxc
        obtain rfl : cur = x := Option.some.inj hxc
        apply hu2.1
        rw [← List.map_append]
        exact List.mem_map_of_mem _ hx
    · have hold : updated.isbn = cur.isbn := by
        rw [hupd]; simp [mergeBook, ht]
      rw [hold]
      exact hu2.1

/-- C14 (ISBN uniqueness), evaluated where the handlers break it.  The isbns
of the seed data are pairwise distinct.  `PUT /api/books/2` with the isbn of
book 1 is accepted and afterwards books 1 and 2 have the same isbn: the
update handler has no duplicate check.  `POST /api/books` with the isbn of
book 1 padded with a space on each side is accepted as well, because the
duplicate check compares the untrimmed isbn while the trimmed one is stored;
afterwards books 1 and 4 have the same isbn. -/
theorem isbn_duplicated_by_update_and_add :
    isbnUnique seed.books ∧
    (∃ updated, (updateBook seed 2026 2 isbnClashUpdate).2 =
        .success 200 "Book updated successfully" updated ∧
      updated.id = 2 ∧ updated.isbn = "978-0-7432-7356-5") ∧
    (updateBook seed 2026 2 isbnClashUpdate).1.books.map (fun b => b.isbn) =
      ["978-0-7432-7356-5", "978-0-7432-7356-5", "978-0-452-28423-4"] ∧
    ¬ isbnUnique (updateBook seed 2026 2 isbnClashUpdate).1.books ∧
    (∃ book, (addBook seed 2026 paddedGatsby).2 =
        .success 201 "Book added successfully" book ∧
      book.id = 4 ∧ book.isbn = "978-0-7432-7356-5") ∧
    (addBook seed 2026 paddedGatsby).1.books.map (fun b => b.isbn) =
      ["978-0-7432-7356-5", "978-0-06-112008-4", "978-0-452-28423-4",
        "978-0-7432-7356-5"] ∧
    ¬ isbnUnique (addBook seed 2026 paddedGatsby).1.books :=
  ⟨by decide, ⟨_, rfl, by decide, by decide⟩, by decide, by decide,
    ⟨_, rfl, by decide, by decide⟩, by decide, by decide⟩

/-- C18 (registration validation reports every violated rule): the error
list of `addMember` is the list for the name, followed by the list for the
email, followed by the list for the phone.  Each of the three is a single
entry when the field's rule is violated and empty when it is satisfied:
"Name is required" for a blank name; "Email is required" for a blank email and
"Invalid email format" for a non-blank one not of email shape; "Phone is
required" for a blank phone and "Phone must be 10 digits" for a non-blank one
that is not exactly ten digits.  The request is answered 400 with that list
(ValidationFailed), leaving the state as it was, if and only if the list is
non-empty. -/
theorem registration_reports_every_violation (req : MemberRequest) :
    (∃ eName eEmail ePhone : List String,
      memberErrors req = eName ++ eEmail ++ ePhone ∧
      (IsBlank req.name → eName = ["Name is required"]) ∧
      (¬ IsBlank req.name → eName = []) ∧
      (IsBlank req.email → eEmail = ["Email is required"]) ∧
      (¬ IsBlank req.email → ¬ EmailShape (strOf req.email) →
        eEmail = ["Invalid email format"]) ∧
      (¬ IsBlank req.email → EmailShape (strOf req.email) → eEmail = []) ∧
      (IsBlank req.phone → ePhone = ["Phone is required"]) ∧
      (¬ IsBlank req.phone → ¬ TenDigits (strOf req.phone) →
        ePhone = ["Phone must be 10 digits"]) ∧
      (¬ IsBlank req.phone → TenDigits (strOf req.phone) → ePhone = [])) ∧
    (∀ (s : State) (todayIso : String),
      ((∃ status errors, (addMember s todayIso req).2 = .invalid status errors) ↔
        memberErrors req ≠ []) ∧
      (memberErrors req ≠ [] →
        (addMember s todayIso req).2 = .invalid 400 (memberErrors req) ∧
        (addMember s todayIso req).1 = s)) := by
  constructor
  · refine ⟨_, _, _, memberErrors_eq req, ?_, ?_, ?_, ?_, ?_, ?_, ?_, ?_⟩
    · intro h
      rw [if_pos ((blank_test_iff _).mpr h)]
    · intro h
      rw [if_neg (fun hc => h ((blank_test_iff _).mp hc))]
    · intro h
      rw [if_pos ((blank_test_iff _).mpr h)]
    · intro h hshape
      rw [if_neg (fun hc => h ((blank_test_iff _).mp hc)),
        if_neg (fun hc => hshape ((emailRegex_test_iff _).mp hc))]
    · intro h hshape
      rw [if_neg (fun hc => h ((blank_test_iff _).mp hc)),
        if_pos ((emailRegex_test_iff _).mpr hshape)]
    · intro h
      rw [if_pos ((blank_test_iff _).mpr h)]
    · intro h hten
      rw [if_neg (fun hc => h ((blank_test_iff _).mp hc)),
        if_neg (fun hc => hten ((phoneRegex_test_iff _).mp hc))]
    · intro h hten
      rw [if_neg (fun hc => h ((blank_test_iff _).mp hc)),
        if_pos ((phoneRegex_test_iff _).mpr hten)]
  · intro s todayIso
    constructor
    · constructor
      · rintro ⟨status, errors, h⟩ hnil
        rcases addMember_cases s todayIso req with ⟨hne, _⟩ | ⟨_, _, h2⟩ | ⟨_, _, h2⟩
        · exact hne hnil
        · rw [h2] at h; simp at h
        · rw [h2] at h; simp at h
      · intro hne
        exact ⟨400, memberErrors req, by rw [addMember_invalid hne]⟩
    · intro hne
      rw [addMember_invalid hne]
      exact ⟨rfl, rfl⟩

/-- Witness of C18: `allWrongRequest` has a blank name, an email without
`@` and a phone of five digits; all three entries are reported, in that order,
and the seed data are left as they were. -/
theorem registration_reports_every_violation_witness :
    memberErrors allWrongRequest =
      ["Name is required", "Invalid email format", "Phone must be 10 digits"] ∧
    (addMember seed "2026-11-04" allWrongRequest).2 =
      .invalid 400 ["Name is required", "Invalid email format", "Phone must be 10 digits"] ∧
    (addMember seed "2026-11-04" allWrongRequest).1 = seed :=
  ⟨by decide,
   ((registration_reports_every_violation allWrongRequest).2 seed "2026-11-04").2
     (by decide)⟩

/-- C19 at its failing input: seed member 1 has an email of valid shape and
a phone of ten digits; the update that supplies only the email `"   "` passes
the validation block, is answered 200, and the member stored afterwards has
the empty email, which is not of email shape.  The validation skips an email
that trims to nothing, the merge does not. -/
theorem member_update_blank_email_accepted :
    (∃ member, seed.members.find? (fun m => m.id == 1) = some member ∧
      emailRegex.test member.email = true ∧ phoneRegex.test member.phone = true) ∧
    memberUpdateErrors blankEmailUpdate = [] ∧
    (∃ updated, (updateMember seed 1 blankEmailUpdate).2 =
        .success 200 "Member updated successfully" updated ∧
      (updateMember seed 1 blankEmailUpdate).1.members.find? (fun m => m.id == 1) =
        some updated ∧
      updated.email = "" ∧ emailRegex.test updated.email = false ∧
      ¬ EmailShape updated.email ∧ phoneRegex.test updated.phone = true) :=
  ⟨⟨_, rfl, by decide, by decide⟩, by decide,
    ⟨_, rfl, by decide, by decide, by decide,
      fun h => absurd ((emailRegex_test_iff _).mpr h) (by decide), by decide⟩⟩

/-! ## Active records belong to members -/

theorem members_ids_borrow (s : State) (clock : Clock) (memberId bookId : Int) :
    (borrow s clock memberId bookId).1.members.map (fun m => m.id) =
      s.members.map (fun m => m.id) := by
  rcases borrow_cases s clock memberId bookId with
    ⟨_, h2⟩ | ⟨_, _, _, h2⟩ | ⟨_, _, _, _, _, h2⟩ | ⟨_, _, _, _, _, _, h2⟩ |
    ⟨member, book, _, _, _, _, _, h2⟩
  · rw [h2]
  · rw [h2]
  · rw [h2]
  · rw [h2]
  · rw [h2]
    exact map_id_updateFirst (fun m : Member => m.id) (fun m => m.id == memberId)
      (fun m : Member => { m with borrowedBooks := m.borrowedBooks ++ [book.id] })
      s.members (fun _ => rfl)

theorem members_ids_returnBook (s : State) (today memberId bookId : Int) :
    (returnBook s today memberId bookId).1.members.map (fun m => m.id) =
      s.members.map (fun m => m.id) := by
  rcases returnBook_cases s today memberId bookId with
    ⟨_, h2⟩ | ⟨_, _, _, h2⟩ | ⟨_, _, _, _, _, h2⟩ | ⟨member, book, _, _, _, _, h2⟩
  · rw [h2]
  · rw [h2]
  · rw [h2]
  · rw [h2]
    exact map_id_updateFirst (fun m : Member => m.id) (fun m => m.id == memberId)
      (fun m : Member =>
        { m with borrowedBooks := m.borrowedBooks.filter (fun id => id != book.id) })
      s.members (fun _ => rfl)

theorem books_ids_borrow (s : State) (clock : Clock) (memberId bookId : Int) :
    (borrow s clock memberId bookId).1.books.map (fun b => b.id) =
      s.books.map (fun b => b.id) := by
  rcases borrow_cases s clock memberId bookId with
    ⟨_, h2⟩ | ⟨_, _, _, h2⟩ | ⟨_, _, _, _, _, h2⟩ | ⟨_, _, _, _, _, _, h2⟩ |
    ⟨member, book, _, _, _, _, _, h2⟩
  · rw [h2]
  · rw [h2]
  · rw [h2]
  · rw [h2]
  · rw [h2]
    exact map_id_updateFirst (fun b : Book => b.id) (fun b => b.id == bookId)
      (fun b : Book => { b with availableCopies := b.availableCopies - 1 })
      s.books (fun _ => rfl)

theorem books_ids_returnBook (s : State) (today memberId bookId : Int) :
    (returnBook s today memberId bookId).1.books.map (fun b => b.id) =
      s.books.map (fun b => b.id) := by
  rcases returnBook_cases s today memberId bookId with
    ⟨_, h2⟩ | ⟨_, _, _, h2⟩ | ⟨_, _, _, _, _, h2⟩ | ⟨member, book, _, _, _, _, h2⟩
  · rw [h2]
  · rw [h2]
  · rw [h2]
  · rw [h2]
    exact map_id_updateFirst (fun b : Book => b.id) (fun b => b.id == bookId)
      (fun b : Book => { b with availableCopies := b.availableCopies + 1 })
      s.books (fun _ => rfl)

theorem activeOwned_seed : ActiveOwned seed := by
  unfold ActiveOwned
  decide

theorem activeOwned_borrow (s : State) (clock : Clock) (memberId bookId : Int) (h : ActiveOwned s) :
    ActiveOwned (borrow s clock memberId bookId).1 := by
  intro r hr hact
  rw [members_ids_borrow]
  rcases borrow_cases s clock memberId bookId with
    ⟨_, h2⟩ | ⟨_, _, _, h2⟩ | ⟨_, _, _, _, _, h2⟩ | ⟨_, _, _, _, _, _, h2⟩ |
    ⟨member, book, hm, _, _, _, _, h2⟩
  · rw [h2] at hr; exact h r hr hact
  · rw [h2] at hr; exact h r hr hact
  · rw [h2] at hr; exact h r hr hact
  · rw [h2] at hr; exact h r hr hact
  · rw [h2] at hr
    rcases List.mem_append.mp hr with h1 | h1
    · exact h r h1 hact
    · rw [List.mem_singleton] at h1
      rw [h1]
      exact List.mem_map_of_mem _ (List.mem_of_find?_eq_some hm)

theorem activeOwned_returnBook (s : State) (today memberId bookId : Int) (h : ActiveOwned s) :
    ActiveOwned (returnBook s today memberId bookId).1 := by
  intro r hr hact
  rw [members_ids_returnBook]
  rcases returnBook_cases s today memberId bookId with
    ⟨_, h2⟩ | ⟨_, _, _, h2⟩ | ⟨_, _, _, _, _, h2⟩ | ⟨member, book, found, _, _, _, h2⟩
  · rw [h2] at hr; exact h r hr hact
  · rw [h2] at hr; exact h r hr hact
  · rw [h2] at hr; exact h r hr hact
  · rw [h2] at hr
    rcases mem_updateFirst hr with h1 | ⟨x, _, hx⟩
    · exact h r h1 hact
    · rw [hx] at hact
      simp at hact

theorem activeOwned_of_reachable {s : State} (h : Reachable s) : ActiveOwned s := by
  induction h with
  | seed => exact activeOwned_seed
  | borrow clock memberId bookId _ ih => exact activeOwned_borrow _ clock memberId bookId ih
  | returnBook today memberId bookId _ ih =>
    exact activeOwned_returnBook _ today memberId bookId ih

/-! ## Claims on the ledger, the listing and the form -/

/-- C21 (at most one active record per pair): in every state reachable from
the seed data by `borrow` and `returnBook` calls, for every member id and book
id, at most one ledger record with that pair has status `'borrowed'`. -/
theorem at_most_one_active_record (s : State) (h : Reachable s) (memberId bookId : Int) :
    activeCount s.borrowRecords memberId bookId ≤ 1 := by
  by_cases hmem : memberId ∈ s.members.map (fun m => m.id)
  · obtain ⟨m, hm, hid⟩ := List.mem_map.mp hmem
    have hinv := (ledgerInv_of_reachable h).2 m hm bookId
    rw [hid] at hinv
    by_cases hb : bookId ∈ m.borrowedBooks
    · exact le_of_eq (hinv.1 hb)
    · rw [hinv.2 hb]
      exact Nat.zero_le 1
  · have hzero : activeCount s.borrowRecords memberId bookId = 0 := by
      unfold activeCount
      rw [List.countP_eq_zero]
      intro r hr hact
      have h1 := (isActiveFor_iff memberId bookId r).mp hact
      have h2 := activeOwned_of_reachable h r hr h1.2.2
      rw [h1.1] at h2
      exact hmem h2
    rw [hzero]
    exact Nat.zero_le 1

/-- Witness of C21: after member 2 has borrowed book 3, returned it and
borrowed it again, the pair has one active record, and a pair that was never
lent has none. -/
theorem at_most_one_active_record_witness :
    activeCount (borrow (returnBook (borrow seed (utcClock 0) 2 3).1 5 2 3).1 (utcClock 6) 2 3).1.borrowRecords 2 3
      ≤ 1 ∧
    activeCount (borrow (returnBook (borrow seed (utcClock 0) 2 3).1 5 2 3).1 (utcClock 6) 2 3).1.borrowRecords 7 3
      ≤ 1 :=
  ⟨at_most_one_active_record _
      (Reachable.borrow (utcClock 6) 2 3 (Reachable.returnBook 5 2 3 (Reachable.borrow (utcClock 0) 2 3 Reachable.seed)))
      2 3,
   at_most_one_active_record _
      (Reachable.borrow (utcClock 6) 2 3 (Reachable.returnBook 5 2 3 (Reachable.borrow (utcClock 0) 2 3 Reachable.seed)))
      7 3⟩

theorem recordKept_self (r : BorrowRecord) : RecordKept r r :=
  ⟨rfl, rfl, rfl, rfl, rfl, fun _ => rfl, fun h => absurd rfl h⟩

theorem recordKept_close (r : BorrowRecord) (today : Int) (h : r.status = "borrowed") :
    RecordKept r { r with returnDate := some today, status := "returned" } := by
  refine ⟨rfl, rfl, rfl, rfl, rfl, ?_, fun _ => ⟨h, rfl⟩⟩
  intro hret
  rw [h] at hret
  exact absurd hret (by decide)

/-- C22 (the ledger is append-only and closed records are immutable): a
`borrow` call leaves the ledger as it was or appends one record with status
`'borrowed'` to it.  A `returnBook` call leaves the ledger as it was or
replaces exactly one record, which had status `'borrowed'`, by the same record
with status `'returned'` and the return date set, every record before and
after it staying in place.  So after either call every record that was in the
ledger is still there, at its position, with the same `id`, `memberId`,
`bookId`, `borrowDate` and `dueDate`; a record that was `'returned'` is
unchanged; and a status only ever changes from `'borrowed'` to
`'returned'`. -/
theorem ledger_append_only (s : State) (clock : Clock) (today memberId bookId : Int) :
    ((borrow s clock memberId bookId).1.borrowRecords = s.borrowRecords ∨
      ∃ r, (borrow s clock memberId bookId).1.borrowRecords = s.borrowRecords ++ [r] ∧
        r.status = "borrowed") ∧
    ((returnBook s today memberId bookId).1.borrowRecords = s.borrowRecords ∨
      ∃ l1 r l2, s.borrowRecords = l1 ++ r :: l2 ∧ r.status = "borrowed" ∧
        (returnBook s today memberId bookId).1.borrowRecords =
          l1 ++ { r with returnDate := some today, status := "returned" } :: l2) ∧
    List.Forall₂ RecordKept s.borrowRecords
      ((borrow s clock memberId bookId).1.borrowRecords.take s.borrowRecords.length) ∧
    List.Forall₂ RecordKept s.borrowRecords
      (returnBook s today memberId bookId).1.borrowRecords := by
  have hsame : List.Forall₂ RecordKept s.borrowRecords s.borrowRecords :=
    List.forall₂_same.mpr (fun r _ => recordKept_self r)
  have hborrow : (borrow s clock memberId bookId).1.borrowRecords = s.borrowRecords ∨
      ∃ r, (borrow s clock memberId bookId).1.borrowRecords = s.borrowRecords ++ [r] ∧
        r.status = "borrowed" := by
    rcases borrow_cases s clock memberId bookId with
      ⟨_, h2⟩ | ⟨_, _, _, h2⟩ | ⟨_, _, _, _, _, h2⟩ | ⟨_, _, _, _, _, _, h2⟩ |
      ⟨member, book, _, _, _, _, _, h2⟩
    · rw [h2]; exact Or.inl rfl
    · rw [h2]; exact Or.inl rfl
    · rw [h2]; exact Or.inl rfl
    · rw [h2]; exact Or.inl rfl
    · rw [h2]; exact Or.inr ⟨_, rfl, rfl⟩
  have hreturn : (returnBook s today memberId bookId).1.borrowRecords = s.borrowRecords ∨
      ∃ l1 r l2, s.borrowRecords = l1 ++ r :: l2 ∧ r.status = "borrowed" ∧
        (returnBook s today memberId bookId).1.borrowRecords =
          l1 ++ { r with returnDate := some today, status := "returned" } :: l2 := by
    rcases returnBook_cases s today memberId bookId with
      ⟨_, h2⟩ | ⟨_, _, _, h2⟩ | ⟨_, _, _, _, _, h2⟩ | ⟨member, book, found, _, _, hr, h2⟩
    · rw [h2]; exact Or.inl rfl
    · rw [h2]; exact Or.inl rfl
    · rw [h2]; exact Or.inl rfl
    · rw [h2]
      obtain ⟨l1, l2, hl, _, hu⟩ := updateFirst_of_find?_some
        (fun r : BorrowRecord => { r with returnDate := some today, status := "returned" }) hr
      have hact := (isActiveFor_iff member.id book.id found).mp (List.find?_some hr)
      exact Or.inr ⟨l1, found, l2, hl, hact.2.2, hu⟩
  refine ⟨hborrow, hreturn, ?_, ?_⟩
  · rcases hborrow with h1 | ⟨r, h1, _⟩
    · rw [h1, List.take_length]
      exact hsame
    · rw [h1, List.take_left]
      exact hsame
  · rcases hreturn with h1 | ⟨l1, r, l2, hl, hst, h1⟩
    · rw [h1]
      exact hsame
    · rw [h1, hl]
      refine List.rel_append (List.forall₂_same.mpr (fun x _ => recordKept_self x)) ?_
      exact List.Forall₂.cons (recordKept_close r today hst)
        (List.forall₂_same.mpr (fun x _ => recordKept_self x))

/-- Witness of C22 on the seed data: the return of book 1 by member 1 on day
5 closes record 1 and nothing else, and a borrow keeps record 1 as it is. -/
theorem ledger_append_only_witness :
    List.Forall₂ RecordKept seed.borrowRecords
      ((borrow seed (utcClock 0) 2 2).1.borrowRecords.take seed.borrowRecords.length) ∧
    List.Forall₂ RecordKept seed.borrowRecords (returnBook seed 5 1 1).1.borrowRecords :=
  ⟨(ledger_append_only seed (utcClock 0) 0 2 2).2.2.1, (ledger_append_only seed (utcClock 5) 5 1 1).2.2.2⟩

theorem enrich_toBorrowRecord (s : State) (r : BorrowRecord) :
    (enrich s r).toBorrowRecord = r := rfl

theorem find?_id_isSome {α : Type} (idOf : α → Int) (l : List α) (i : Int) :
    (∃ x ∈ l, idOf x = i) ↔ ∃ x, l.find? (fun a => idOf a == i) = some x := by
  constructor
  · rintro ⟨x, hx, hid⟩
    have hne : l.find? (fun a => idOf a == i) ≠ none := by
      intro hnone
      have h1 := List.find?_eq_none.mp hnone x hx
      apply h1
      simp [hid]
    exact Option.ne_none_iff_exists'.mp hne
  · rintro ⟨x, hx⟩
    exact ⟨x, List.mem_of_find?_eq_some hx, find?_id_eq hx⟩

/-- C23 (loan listing tolerates dangling references): `listLoans` always
answers with `success: true` and leaves the state as it was; the data are one
enriched record per ledger record, in ledger order, each carrying the fields
of its ledger record unchanged, and `count` is their number.  `memberName` is
the name of the member that `record.memberId` resolves to when a member with
that id exists and `'Unknown'` when none does; `bookTitle` is the title of the
book that `record.bookId` resolves to when a book with that id exists and
`'Unknown'` when none does. -/
theorem loan_listing_tolerates_dangling (s : State) :
    (listLoans s).1 = s ∧
    (listLoans s).2.success = true ∧
    (listLoans s).2.count = s.borrowRecords.length ∧
    (listLoans s).2.data.map (fun e => e.toBorrowRecord) = s.borrowRecords ∧
    List.Forall₂
      (fun (r : BorrowRecord) (e : EnrichedRecord) =>
        e.toBorrowRecord = r ∧
        ((∃ m ∈ s.members, m.id = r.memberId) →
          ∃ m, s.members.find? (fun m => m.id == r.memberId) = some m ∧
            e.memberName = m.name) ∧
        ((¬ ∃ m ∈ s.members, m.id = r.memberId) → e.memberName = "Unknown") ∧
        ((∃ b ∈ s.books, b.id = r.bookId) →
          ∃ b, s.books.find? (fun b => b.id == r.bookId) = some b ∧ e.bookTitle = b.title) ∧
        ((¬ ∃ b ∈ s.books, b.id = r.bookId) → e.bookTitle = "Unknown"))
      s.borrowRecords (listLoans s).2.data := by
  refine ⟨rfl, rfl, ?_, ?_, ?_⟩
  · show (s.borrowRecords.map (enrich s)).length = _
    rw [List.length_map]
  · show (s.borrowRecords.map (enrich s)).map (fun e => e.toBorrowRecord) = _
    rw [List.map_map]
    conv_rhs => rw [← List.map_id s.borrowRecords]
    rfl
  · show List.Forall₂ _ s.borrowRecords (s.borrowRecords.map (enrich s))
    rw [List.forall₂_map_right_iff, List.forall₂_same]
    intro r _
    refine ⟨rfl, ?_, ?_, ?_, ?_⟩
    · intro hex
      obtain ⟨m, hm⟩ := (find?_id_isSome (fun m : Member => m.id) s.members r.memberId).mp hex
      exact ⟨m, hm, by simp [enrich, hm]⟩
    · intro hno
      have hnone : s.members.find? (fun m => m.id == r.memberId) = none := by
        cases hf : s.members.find? (fun m => m.id == r.memberId) with
        | none => rfl
        | some m =>
          exact absurd
            ((find?_id_isSome (fun m : Member => m.id) s.members r.memberId).mpr ⟨m, hf⟩) hno
      simp [enrich, hnone]
    · intro hex
      obtain ⟨b, hb⟩ := (find?_id_isSome (fun b : Book => b.id) s.books r.bookId).mp hex
      exact ⟨b, hb, by simp [enrich, hb]⟩
    · intro hno
      have hnone : s.books.find? (fun b => b.id == r.bookId) = none := by
        cases hf : s.books.find? (fun b => b.id == r.bookId) with
        | none => rfl
        | some b =>
          exact absurd
            ((find?_id_isSome (fun b : Book => b.id) s.books r.bookId).mpr ⟨b, hf⟩) hno
      simp [enrich, hnone]

/-- Witness of C23: the listing of the seed data, and of the seed ledger
after every member and book has been taken away. -/
theorem loan_listing_tolerates_dangling_witness :
    (listLoans seed).2.data.map (fun e => (e.memberName, e.bookTitle)) =
      [("John Doe", "The Great Gatsby")] ∧
    (listLoans { seed with members := [], books := [] }).2.data.map
        (fun e => (e.memberName, e.bookTitle)) = [("Unknown", "Unknown")] ∧
    (listLoans { seed with members := [], books := [] }).2.data.map
        (fun e => e.toBorrowRecord) = seed.borrowRecords :=
  ⟨by decide, by decide,
    (loan_listing_tolerates_dangling { seed with members := [], books := [] }).2.2.2.1⟩

/-! ## Conservation of copies -/

theorem ne_of_nodup_map_split {α : Type} (idOf : α → Int) {l1 l2 : List α} {x : α}
    (h : ((l1 ++ x :: l2).map idOf).Nodup) :
    ∀ y, y ∈ l1 ∨ y ∈ l2 → idOf y ≠ idOf x := by
  rw [List.map_append, List.map_cons] at h
  have h2 := List.nodup_middle.mp h
  rw [List.nodup_cons] at h2
  intro y hy hid
  apply h2.1
  rw [← hid, ← List.map_append]
  exact List.mem_map_of_mem _ (List.mem_append.mpr hy)

theorem activeLoansOf_append_singleton (rs : List BorrowRecord) (r : BorrowRecord)
    (bookId : Int) :
    activeLoansOf (rs ++ [r]) bookId =
      activeLoansOf rs bookId + (if isActiveLoanOf bookId r = true then 1 else 0) := by
  unfold activeLoansOf
  rw [List.countP_append, List.countP_singleton]

theorem countP_updateFirst_found {α : Type} (p q : α → Bool) (f : α → α) (l : List α) (x : α)
    (h : l.find? p = some x) :
    (updateFirst p f l).countP q + (if q x = true then 1 else 0) =
      l.countP q + (if q (f x) = true then 1 else 0) := by
  obtain ⟨l1, l2, hl, _, hu⟩ := updateFirst_of_find?_some f h
  rw [hu, hl]
  simp only [List.countP_append, List.countP_cons]
  omega

theorem activeLoansOf_close {rs : List BorrowRecord} {memberId bookId today : Int}
    {found : BorrowRecord} (hr : rs.find? (isActiveFor memberId bookId) = some found)
    (i : Int) :
    activeLoansOf (updateFirst (isActiveFor memberId bookId)
      (fun r => { r with returnDate := some today, status := "returned" }) rs) i +
      (if i = bookId then 1 else 0) = activeLoansOf rs i := by
  have hact := (isActiveFor_iff memberId bookId found).mp (List.find?_some hr)
  have h1 := countP_updateFirst_found (isActiveFor memberId bookId) (isActiveLoanOf i)
    (fun r => { r with returnDate := some today, status := "returned" }) rs found hr
  have hclosed : isActiveLoanOf i
      { found with returnDate := some today, status := "returned" } = false := by
    simp [isActiveLoanOf]
  dsimp only at h1
  rw [hclosed] at h1
  unfold activeLoansOf
  by_cases hi : i = bookId
  · have hf : isActiveLoanOf i found = true :=
      (isActiveLoanOf_iff i found).mpr ⟨hact.2.1.trans hi.symm, hact.2.2⟩
    rw [hf] at h1
    simp only [hi, if_true, Bool.false_eq_true, if_false, Nat.add_zero] at h1 ⊢
    exact h1
  · have hf : isActiveLoanOf i found = false := by
      rw [← Bool.not_eq_true, isActiveLoanOf_iff]
      rintro ⟨h2, _⟩
      exact hi (h2.symm.trans hact.2.1)
    rw [hf] at h1
    simp only [hi, if_false, Bool.false_eq_true, Nat.add_zero] at h1 ⊢
    exact h1

theorem copiesKept_same (rs : List BorrowRecord) (B : Book) : CopiesKept rs rs B B :=
  ⟨rfl, rfl⟩

/-- Conservation over a catalog in which one book is replaced and the others
stay, when the ledger moves by as much as that book's `availableCopies`. -/
theorem copiesKept_split {rs rs2 : List BorrowRecord} {l1 l2 : List Book} {book book2 : Book}
    (hnd : ((l1 ++ book :: l2).map (fun b => b.id)).Nodup)
    (hother : ∀ i : Int, i ≠ book.id → activeLoansOf rs2 i = activeLoansOf rs i)
    (hbook : CopiesKept rs rs2 book book2) :
    List.Forall₂ (CopiesKept rs rs2) (l1 ++ book :: l2) (l1 ++ book2 :: l2) := by
  have hne := ne_of_nodup_map_split (fun b : Book => b.id) hnd
  have hkeep : ∀ x, x ∈ l1 ∨ x ∈ l2 → CopiesKept rs rs2 x x := by
    intro x hx
    refine ⟨rfl, ?_⟩
    rw [hother x.id (hne x hx)]
  refine List.rel_append (List.forall₂_same.mpr (fun x hx => hkeep x (Or.inl hx))) ?_
  exact List.Forall₂.cons hbook (List.forall₂_same.mpr (fun x hx => hkeep x (Or.inr hx)))

/-- C25 (frame of a successful lending operation): when `borrow` succeeds,
the catalog is the old one with the resolved book, whose id is the book id,
replaced by itself with 1 subtracted from `availableCopies`, and the member list is the
old one with the resolved member, whose id is the member id, replaced by
itself with the book id appended at the end of the borrowed list.  When
`returnBook` succeeds, the same holds with 1 added to `availableCopies` and with
every occurrence of the book id removed from the borrowed list.  In both
cases every other book and member is untouched and at its position, the ids of
books and of members are the same lists as before, and the other book ids of
the borrowed list keep their order. -/
theorem lending_frame (s : State) (clock : Clock) (today memberId bookId : Int) :
    (∀ (status : Nat) (message : String) (data : BorrowData),
      (borrow s clock memberId bookId).2 = .success status message data →
      ∃ (member : Member) (book : Book) (b1 b2 : List Book) (m1 m2 : List Member),
        book.id = bookId ∧ member.id = memberId ∧
        s.books = b1 ++ book :: b2 ∧
        (borrow s clock memberId bookId).1.books =
          b1 ++ { book with availableCopies := book.availableCopies - 1 } :: b2 ∧
        s.members = m1 ++ member :: m2 ∧
        (borrow s clock memberId bookId).1.members =
          m1 ++ { member with borrowedBooks := member.borrowedBooks ++ [bookId] } :: m2 ∧
        (member.borrowedBooks ++ [bookId]).filter (fun id => id != bookId) =
          member.borrowedBooks.filter (fun id => id != bookId) ∧
        (borrow s clock memberId bookId).1.books.map (fun b => b.id) =
          s.books.map (fun b => b.id) ∧
        (borrow s clock memberId bookId).1.members.map (fun m => m.id) =
          s.members.map (fun m => m.id)) ∧
    (∀ (status : Nat) (message : String) (data : ReturnData),
      (returnBook s today memberId bookId).2 = .success status message data →
      ∃ (member : Member) (book : Book) (b1 b2 : List Book) (m1 m2 : List Member),
        book.id = bookId ∧ member.id = memberId ∧
        s.books = b1 ++ book :: b2 ∧
        (returnBook s today memberId bookId).1.books =
          b1 ++ { book with availableCopies := book.availableCopies + 1 } :: b2 ∧
        s.members = m1 ++ member :: m2 ∧
        (returnBook s today memberId bookId).1.members =
          m1 ++ { member with
            borrowedBooks := member.borrowedBooks.filter (fun id => id != bookId) } :: m2 ∧
        bookId ∉ member.borrowedBooks.filter (fun id => id != bookId) ∧
        (returnBook s today memberId bookId).1.books.map (fun b => b.id) =
          s.books.map (fun b => b.id) ∧
        (returnBook s today memberId bookId).1.members.map (fun m => m.id) =
          s.members.map (fun m => m.id)) := by
  constructor
  · intro status message data h
    obtain ⟨member, book, hm, hb, _, _, hs⟩ := borrow_fst_of_success h
    have hmid : member.id = memberId := find?_id_eq hm
    have hbid : book.id = bookId := find?_id_eq hb
    obtain ⟨b1, b2, hbl, _, hbu⟩ := updateFirst_of_find?_some
      (fun b : Book => { b with availableCopies := b.availableCopies - 1 }) hb
    obtain ⟨m1, m2, hml, _, hmu⟩ := updateFirst_of_find?_some
      (fun m : Member => { m with borrowedBooks := m.borrowedBooks ++ [book.id] }) hm
    refine ⟨member, book, b1, b2, m1, m2, hbid, hmid, hbl, ?_, hml, ?_, ?_,
      books_ids_borrow s clock memberId bookId, members_ids_borrow s clock memberId bookId⟩
    · rw [hs]; exact hbu
    · rw [hs, ← hbid]; exact hmu
    · simp [List.filter_append]
  · intro status message data h
    obtain ⟨member, book, found, hm, hb, _, hs⟩ := returnBook_fst_of_success h
    have hmid : member.id = memberId := find?_id_eq hm
    have hbid : book.id = bookId := find?_id_eq hb
    obtain ⟨b1, b2, hbl, _, hbu⟩ := updateFirst_of_find?_some
      (fun b : Book => { b with availableCopies := b.availableCopies + 1 }) hb
    obtain ⟨m1, m2, hml, _, hmu⟩ := updateFirst_of_find?_some
      (fun m : Member =>
        { m with borrowedBooks := m.borrowedBooks.filter (fun id => id != book.id) }) hm
    refine ⟨member, book, b1, b2, m1, m2, hbid, hmid, hbl, ?_, hml, ?_, ?_,
      books_ids_returnBook s today memberId bookId,
      members_ids_returnBook s today memberId bookId⟩
    · rw [hs]; exact hbu
    · rw [hs, ← hbid]; exact hmu
    · simp [List.mem_filter]

/-- Witness of C25 on the seed data: member 2 borrows book 2, and member 1
returns book 1; in both cases books 3 and the other member are as before. -/
theorem lending_frame_witness :
    (∃ (member : Member) (book : Book) (b1 b2 : List Book) (m1 m2 : List Member),
      book.id = 2 ∧ member.id = 2 ∧ seed.books = b1 ++ book :: b2 ∧
      (borrow seed (utcClock 0) 2 2).1.books =
        b1 ++ { book with availableCopies := book.availableCopies - 1 } :: b2 ∧
      seed.members = m1 ++ member :: m2 ∧
      (borrow seed (utcClock 0) 2 2).1.members =
        m1 ++ { member with borrowedBooks := member.borrowedBooks ++ [2] } :: m2 ∧
      (member.borrowedBooks ++ [2]).filter (fun id => id != 2) =
        member.borrowedBooks.filter (fun id => id != 2) ∧
      (borrow seed (utcClock 0) 2 2).1.books.map (fun b => b.id) = seed.books.map (fun b => b.id) ∧
      (borrow seed (utcClock 0) 2 2).1.members.map (fun m => m.id) =
        seed.members.map (fun m => m.id)) ∧
    (returnBook seed 5 1 1).1.books.map (fun b => b.id) = seed.books.map (fun b => b.id) :=
  ⟨(lending_frame seed (utcClock 0) 0 2 2).1 201 "Book borrowed successfully" _ rfl,
   by
    obtain ⟨_, _, _, _, _, _, _, _, _, _, _, _, _, h, _⟩ :=
      (lending_frame seed (utcClock 5) 5 1 1).2 200 "Book returned successfully" _ rfl
    exact h⟩

/-! ## The phone rule of the form and of the server -/

theorem digit_not_whitespace (c : Char)
    (h : c ∈ ['0', '1', '2', '3', '4', '5', '6', '7', '8', '9']) :
    isJsWhitespace c = false := by
  simp only [List.mem_cons, List.mem_singleton, List.not_mem_nil, or_false] at h
  rcases h with rfl | rfl | rfl | rfl | rfl | rfl | rfl | rfl | rfl | rfl <;> decide

theorem tenDigits_not_blank {t : String} (h : TenDigits t) : ¬ IsBlank (some t) := by
  rintro (hnone | ⟨t2, ht, hall⟩)
  · exact absurd hnone (by simp)
  · obtain rfl : t = t2 := Option.some.inj ht
    obtain ⟨hlen, hdig⟩ := h
    cases hd : t.data with
    | nil => rw [hd] at hlen; simp at hlen
    | cons c cs =>
      have hc : c ∈ t.data := by rw [hd]; exact List.mem_cons_self _ _
      have h1 := hall c hc
      rw [digit_not_whitespace c (hdig c hc)] at h1
      exact absurd h1 (by decide)

theorem stripNonDigits_tenDigits_iff (phone : String) :
    TenDigits (stripNonDigits phone) ↔
      (phone.data.filter
        (fun c => decide (c ∈ ['0', '1', '2', '3', '4', '5', '6', '7', '8', '9']))).length
        = 10 := by
  have hfilter : phone.data.filter isDigit09 =
      phone.data.filter
        (fun c => decide (c ∈ ['0', '1', '2', '3', '4', '5', '6', '7', '8', '9'])) := by
    apply List.filter_congr
    intro c _
    by_cases hc : isDigit09 c = true
    · rw [hc]
      exact (decide_eq_true ((isDigit09_iff c).mp hc)).symm
    · have hc2 : isDigit09 c = false := by simpa using hc
      rw [hc2]
      exact (decide_eq_false (fun hmem => hc ((isDigit09_iff c).mpr hmem))).symm
  unfold TenDigits stripNonDigits
  show (phone.data.filter isDigit09).length = 10 ∧
    (∀ c ∈ phone.data.filter isDigit09, _) ↔ _
  rw [← hfilter]
  constructor
  · exact fun h => h.1
  · intro h
    refine ⟨h, ?_⟩
    intro c hc
    exact (isDigit09_iff c).mp (List.mem_filter.mp hc).2

/-- The server takes the phone of a registration request exactly when the
field holds a string of exactly ten digits. -/
theorem server_phone_accepted_iff (req : MemberRequest) :
    ("Phone is required" ∉ memberErrors req ∧ "Phone must be 10 digits" ∉ memberErrors req) ↔
      ∃ t, req.phone = some t ∧ TenDigits t := by
  rw [memberErrors_eq]
  constructor
  · rintro ⟨h1, h2⟩
    by_cases hb : (!truthyStr req.phone || jsTrim (strOf req.phone) == "") = true
    · exfalso
      apply h1
      rw [if_pos hb]
      simp
    · by_cases ht : phoneRegex.test (strOf req.phone) = true
      · cases hp : req.phone with
        | none => rw [hp] at hb; simp [truthyStr] at hb
        | some t =>
          rw [hp] at ht
          exact ⟨t, rfl, (phoneRegex_test_iff t).mp ht⟩
      · exfalso
        apply h2
        rw [if_neg hb, if_neg ht]
        simp
  · rintro ⟨t, hp, hten⟩
    have hb : ¬ (!truthyStr req.phone || jsTrim (strOf req.phone) == "") = true := by
      intro hc
      have := (blank_test_iff req.phone).mp hc
      rw [hp] at this
      exact tenDigits_not_blank hten this
    have ht : phoneRegex.test (strOf req.phone) = true := by
      rw [hp]
      exact (phoneRegex_test_iff t).mpr hten
    rw [if_neg hb, if_pos ht]
    constructor
    · intro hmem
      simp only [List.append_nil, List.mem_append] at hmem
      rcases hmem with hmem | hmem
      · split at hmem <;> simp at hmem
      · split at hmem
        · simp at hmem
        · split at hmem <;> simp at hmem
    · intro hmem
      simp only [List.append_nil, List.mem_append] at hmem
      rcases hmem with hmem | hmem
      · split at hmem <;> simp at hmem
      · split at hmem
        · simp at hmem
        · split at hmem <;> simp at hmem

/-- C26 (client-side phone rule of the registration form): `validateForm`
records no phone error if and only if the phone field is not blank after
trimming and holds exactly ten digit characters once every character other
than `0` to `9` is taken out; the formatted input `(123) 456-7890` is accepted.
The server's registration records no phone error exactly when the field is a
string of exactly ten digits, and it answers the formatted input with "Phone
must be 10 digits". -/
theorem form_phone_rule :
    (∀ phone : String,
      formPhoneError phone = none ↔
        jsTrim phone ≠ "" ∧
        (phone.data.filter
          (fun c => decide (c ∈ ['0', '1', '2', '3', '4', '5', '6', '7', '8', '9']))).length
          = 10) ∧
    formPhoneError "(123) 456-7890" = none ∧
    (∀ req : MemberRequest,
      ("Phone is required" ∉ memberErrors req ∧ "Phone must be 10 digits" ∉ memberErrors req) ↔
        ∃ t, req.phone = some t ∧ TenDigits t) ∧
    memberErrors formattedPhoneRequest = ["Phone must be 10 digits"] ∧
    (∀ s : State, (addMember s "2026-11-04" formattedPhoneRequest).2 =
      .invalid 400 ["Phone must be 10 digits"]) := by
  refine ⟨?_, by decide, server_phone_accepted_iff, by decide, ?_⟩
  · intro phone
    rw [← stripNonDigits_tenDigits_iff, ← phoneRegex_test_iff]
    unfold formPhoneError
    by_cases hb : jsTrim phone = ""
    · simp [hb]
    · by_cases ht : phoneRegex.test (stripNonDigits phone) = true
      · simp [hb, ht]
      · simp [hb, ht]
  · intro s
    have hne : memberErrors formattedPhoneRequest ≠ [] := by decide
    rw [addMember_invalid hne]
    show Response.invalid 400 (memberErrors formattedPhoneRequest) = _
    rw [show memberErrors formattedPhoneRequest = ["Phone must be 10 digits"] by decide]

/-- Witness of C26: the form takes `555 123 4567`, which has ten digits and
two spaces, and a request with ten plain digits passes the server's phone
check. -/
theorem form_phone_rule_witness :
    formPhoneError "555 123 4567" = none ∧
    ("Phone is required" ∉ memberErrors caseVariantRequest ∧
      "Phone must be 10 digits" ∉ memberErrors caseVariantRequest) :=
  ⟨(form_phone_rule.1 "555 123 4567").mpr ⟨by decide, by decide⟩,
   (form_phone_rule.2.2.1 caseVariantRequest).mpr ⟨"5551234567", rfl, by decide, by decide⟩⟩

/-! ## What every state the API can reach satisfies -/

theorem nodup_append_nextId (ids : List Int) (h : ids.Nodup) : (ids ++ [nextId ids]).Nodup := by
  rw [List.nodup_append]
  refine ⟨h, List.nodup_singleton _, ?_⟩
  intro a ha hb
  rw [List.mem_singleton] at hb
  have := lt_nextId ha
  omega

theorem deleteBook_not_found {s : State} {bookId : Int}
    (hb : s.books.find? (fun b => b.id == bookId) = none) :
    deleteBook s bookId = (s, .failure 404 "Book not found") := by
  simp [deleteBook, hb]

theorem deleteMember_not_found {s : State} {memberId : Int}
    (hm : s.members.find? (fun m => m.id == memberId) = none) :
    deleteMember s memberId = (s, .failure 404 "Member not found") := by
  simp [deleteMember, hm]

/-- An active record of a pair makes the count of the pair positive. -/
theorem activeCount_pos_of_mem {rs : List BorrowRecord} {r : BorrowRecord}
    (hr : r ∈ rs) (hact : r.status = "borrowed") :
    0 < activeCount rs r.memberId r.bookId := by
  unfold activeCount
  rw [List.countP_pos_iff]
  exact ⟨r, hr, (isActiveFor_iff _ _ r).mpr ⟨rfl, rfl, hact⟩⟩

theorem apiInv_seed : ApiInv seed := ⟨ledgerInv_seed, activeOwned_seed, by decide⟩

theorem apiInv_addBook (s : State) (currentYear : JsNum) (req : BookRequest) (h : ApiInv s) :
    ApiInv (addBook s currentYear req).1 := by
  rcases addBook_cases s currentYear req with ⟨_, h2⟩ | ⟨_, _, h2⟩ | ⟨_, _, h2⟩
  · rw [h2]; exact h
  · rw [h2]; exact h
  · rw [h2]
    refine ⟨h.1, h.2.1, ?_⟩
    show ((s.books ++ [newBookOf s req]).map (fun b => b.id)).Nodup
    rw [List.map_append, List.map_singleton]
    exact nodup_append_nextId _ h.2.2

theorem apiInv_updateBook (s : State) (currentYear : JsNum) (bookId : Int) (req : BookRequest)
    (h : ApiInv s) : ApiInv (updateBook s currentYear bookId req).1 := by
  cases hb : s.books.find? (fun b => b.id == bookId) with
  | none => rw [updateBook_not_found hb]; exact h
  | some cur =>
    by_cases he : bookUpdateErrors currentYear req = []
    · rw [updateBook_success hb he]
      refine ⟨h.1, h.2.1, ?_⟩
      obtain ⟨l1, l2, hl, _, hu⟩ := updateFirst_of_find?_some
        (fun _ : Book => mergeBook cur req) hb
      show ((updateFirst _ _ s.books).map (fun b => b.id)).Nodup
      rw [hu]
      have h3 := h.2.2
      rw [hl] at h3
      simpa [mergeBook] using h3
    · rw [updateBook_invalid hb he]; exact h

theorem apiInv_deleteBook (s : State) (bookId : Int) (h : ApiInv s) :
    ApiInv (deleteBook s bookId).1 := by
  cases hb : s.books.find? (fun b => b.id == bookId) with
  | none => rw [deleteBook_not_found hb]; exact h
  | some book =>
    by_cases ha : s.borrowRecords.any (isActiveLoanOf bookId) = true
    · rw [deleteBook_blocked hb ha]; exact h
    · have ha2 : s.borrowRecords.any (isActiveLoanOf bookId) = false := by simpa using ha
      rw [deleteBook_success hb ha2]
      refine ⟨h.1, h.2.1, ?_⟩
      exact List.Nodup.sublist (List.Sublist.map _ (List.eraseP_sublist _)) h.2.2

theorem apiInv_addMember (s : State) (todayIso : String) (req : MemberRequest) (h : ApiInv s) :
    ApiInv (addMember s todayIso req).1 := by
  rcases addMember_cases s todayIso req with ⟨_, h2⟩ | ⟨_, _, h2⟩ | ⟨_, _, h2⟩
  · rw [h2]; exact h
  · rw [h2]; exact h
  · rw [h2]
    obtain ⟨⟨hnd, hag⟩, hown, hbooks⟩ := h
    refine ⟨⟨?_, ?_⟩, ?_, hbooks⟩
    · show ((s.members ++ [newMemberOf s todayIso req]).map (fun m => m.id)).Nodup
      rw [List.map_append, List.map_singleton]
      exact nodup_append_nextId _ hnd
    · intro m hm b
      rcases List.mem_append.mp hm with h1 | h1
      · exact hag m h1 b
      · rw [List.mem_singleton] at h1
        subst h1
        refine ⟨fun hin => absurd hin (List.not_mem_nil _), fun _ => ?_⟩
        show activeCount s.borrowRecords (nextId (s.members.map (fun m => m.id))) b = 0
        unfold activeCount
        rw [List.countP_eq_zero]
        intro r hr hact
        have h3 := (isActiveFor_iff _ _ r).mp hact
        have h4 := hown r hr h3.2.2
        rw [h3.1] at h4
        have := lt_nextId h4
        omega
    · intro r hr hact
      show r.memberId ∈ (s.members ++ [newMemberOf s todayIso req]).map (fun m => m.id)
      rw [List.map_append]
      exact List.mem_append_left _ (hown r hr hact)

theorem apiInv_updateMember (s : State) (memberId : Int) (req : MemberRequest) (h : ApiInv s) :
    ApiInv (updateMember s memberId req).1 := by
  cases hm : s.members.find? (fun m => m.id == memberId) with
  | none => rw [updateMember_not_found hm]; exact h
  | some cur =>
    by_cases he : memberUpdateErrors req = []
    · rw [updateMember_success hm he]
      obtain ⟨⟨hnd, hag⟩, hown, hbooks⟩ := h
      obtain ⟨l1, l2, hl, _, hu⟩ := updateFirst_of_find?_some
        (fun _ : Member => mergeMember cur req) hm
      have hids : (l1 ++ mergeMember cur req :: l2).map (fun m => m.id) =
          s.members.map (fun m => m.id) := by
        rw [hl]; simp [mergeMember]
      refine ⟨⟨?_, ?_⟩, ?_, hbooks⟩
      · show ((updateFirst _ _ s.members).map (fun m => m.id)).Nodup
        rw [hu, hids]; exact hnd
      · intro m hmem b
        have hmem2 : m ∈ l1 ++ mergeMember cur req :: l2 := by rw [← hu]; exact hmem
        have hcur : cur ∈ s.members := List.mem_of_find?_eq_some hm
        rcases List.mem_append.mp hmem2 with h1 | h1
        · exact hag m (by rw [hl]; exact List.mem_append_left _ h1) b
        · rcases List.mem_cons.mp h1 with h2 | h2
          · subst h2
            exact hag cur hcur b
          · exact hag m (by rw [hl]; exact List.mem_append_right _ (List.mem_cons_of_mem _ h2)) b
      · intro r hr hact
        show r.memberId ∈ (updateFirst _ _ s.members).map (fun m => m.id)
        rw [hu, hids]
        exact hown r hr hact
    · rw [updateMember_invalid hm he]; exact h

theorem apiInv_deleteMember (s : State) (memberId : Int) (h : ApiInv s) :
    ApiInv (deleteMember s memberId).1 := by
  cases hm : s.members.find? (fun m => m.id == memberId) with
  | none => rw [deleteMember_not_found hm]; exact h
  | some member =>
    by_cases he : member.borrowedBooks = []
    · rw [deleteMember_success hm he]
      obtain ⟨⟨hnd, hag⟩, hown, hbooks⟩ := h
      have hmem : member ∈ s.members := List.mem_of_find?_eq_some hm
      have hid : member.id = memberId := find?_id_eq hm
      have hsub : (s.members.eraseP (fun m => m.id == memberId)).Sublist s.members :=
        List.eraseP_sublist _
      refine ⟨⟨List.Nodup.sublist (List.Sublist.map _ hsub) hnd, ?_⟩, ?_, hbooks⟩
      · intro m hm2 b
        exact hag m (hsub.subset hm2) b
      · intro r hr hact
        have hr2 : r ∈ s.borrowRecords := hr
        have h1 := hown r hr2 hact
        obtain ⟨m, hm3, hm4⟩ := List.mem_map.mp h1
        have hne : m.id ≠ memberId := by
          intro hc
          have hzero := (hag member hmem r.bookId).2 (by rw [he]; exact List.not_mem_nil _)
          have hpos := activeCount_pos_of_mem hr2 hact
          rw [← hm4, hc, ← hid] at hpos
          omega
        show r.memberId ∈ (s.members.eraseP (fun m => m.id == memberId)).map (fun m => m.id)
        rw [← hm4]
        refine List.mem_map_of_mem _ ?_
        exact (List.mem_eraseP_of_neg (by simpa using hne)).mpr hm3
    · rw [deleteMember_blocked hm he]; exact h

theorem apiInv_borrow (s : State) (clock : Clock) (memberId bookId : Int) (h : ApiInv s) :
    ApiInv (borrow s clock memberId bookId).1 :=
  ⟨ledgerInv_borrow s clock memberId bookId h.1, activeOwned_borrow s clock memberId bookId h.2.1,
    by rw [books_ids_borrow]; exact h.2.2⟩

theorem apiInv_returnBook (s : State) (today memberId bookId : Int) (h : ApiInv s) :
    ApiInv (returnBook s today memberId bookId).1 :=
  ⟨ledgerInv_returnBook s today memberId bookId h.1,
    activeOwned_returnBook s today memberId bookId h.2.1,
    by rw [books_ids_returnBook]; exact h.2.2⟩

theorem apiInv_of_reachable {s : State} (h : ApiReachable s) : ApiInv s := by
  induction h with
  | seed => exact apiInv_seed
  | addBook currentYear req _ ih => exact apiInv_addBook _ currentYear req ih
  | updateBook currentYear bookId req _ ih => exact apiInv_updateBook _ currentYear bookId req ih
  | deleteBook bookId _ ih => exact apiInv_deleteBook _ bookId ih
  | addMember todayIso req _ ih => exact apiInv_addMember _ todayIso req ih
  | updateMember memberId req _ ih => exact apiInv_updateMember _ memberId req ih
  | deleteMember memberId _ ih => exact apiInv_deleteMember _ memberId ih
  | borrow clock memberId bookId _ ih => exact apiInv_borrow _ clock memberId bookId ih
  | returnBook today memberId bookId _ ih => exact apiInv_returnBook _ today memberId bookId ih

/-! ## Round trip and conservation on the states the API can reach -/

/-- C4 (borrow/return round trip), as the handlers do it: in every state the
API can reach in which `borrow` of a pair succeeds, the `returnBook` of the
same pair right after it succeeds; members are as before the borrow, so the
book id is absent from the member's borrowed list; the ledger is the ledger
before the borrow followed by the record the borrow created, now with status
`'returned'` and the return day as `returnDate`; and the book has had 1
subtracted from and then 1 added to `availableCopies` in double arithmetic,
which gives the catalog before the borrow when the book's `availableCopies`
was at most `2^53`. -/
theorem borrow_return_round_trip (s : State) (clock : Clock) (today2 memberId bookId : Int)
    (status : Nat) (message : String) (data : BorrowData)
    (hreach : ApiReachable s)
    (h : (borrow s clock memberId bookId).2 = .success status message data) :
    (∃ data2, (returnBook (borrow s clock memberId bookId).1 today2 memberId bookId).2 =
      .success 200 "Book returned successfully" data2) ∧
    (returnBook (borrow s clock memberId bookId).1 today2 memberId bookId).1.members =
      s.members ∧
    (∃ member,
      (returnBook (borrow s clock memberId bookId).1 today2 memberId bookId).1.members.find?
        (fun m => m.id == memberId) = some member ∧ bookId ∉ member.borrowedBooks) ∧
    (returnBook (borrow s clock memberId bookId).1 today2 memberId bookId).1.borrowRecords =
      s.borrowRecords ++
        [{ data.record with returnDate := some today2, status := "returned" }] ∧
    (∃ book, s.books.find? (fun b => b.id == bookId) = some book ∧
      (returnBook (borrow s clock memberId bookId).1 today2 memberId bookId).1.books.find?
        (fun b => b.id == bookId) =
        some { book with availableCopies := book.availableCopies - 1 + 1 } ∧
      (book.availableCopies.val ≤ 9007199254740992 →
        (returnBook (borrow s clock memberId bookId).1 today2 memberId bookId).1.books =
          s.books)) := by
  obtain ⟨⟨_, hag⟩, _, _⟩ := apiInv_of_reachable hreach
  obtain ⟨member, book, hm, hb, ha, hin, hs⟩ := borrow_fst_of_success h
  have hrec := borrow_data_of_success hm hb h
  have hbid : book.id = bookId := find?_id_eq hb
  have hm1 := @borrowedState_find_member s clock memberId bookId member book hm
  have hb1 := @borrowedState_find_book s clock memberId bookId member book hb
  have hnew : isActiveFor member.id book.id data.record = true := by
    rw [hrec]; simp [isActiveFor]
  have hlog : (borrowedState s clock memberId bookId member book).borrowRecords =
      s.borrowRecords ++ [data.record] := by
    rw [hrec]; rfl
  have hr0 : s.borrowRecords.find? (isActiveFor member.id book.id) = none :=
    find?_eq_none_of_countP _ _ ((hag member (List.mem_of_find?_eq_some hm) book.id).2 hin)
  have hfind : (borrowedState s clock memberId bookId member book).borrowRecords.find?
      (isActiveFor member.id book.id) = some data.record := by
    rw [hlog, List.find?_append, hr0]
    simp [List.find?, hnew]
  have hret := @returnBook_success _ today2 _ _ _ _ _ hm1 hb1 hfind
  rw [hs]
  have hmembers : (returnBook (borrowedState s clock memberId bookId member book) today2
      memberId bookId).1.members = s.members := by
    rw [hret]; exact round_trip_members _ _ hm hin (by rfl)
  have hbooks : (returnBook (borrowedState s clock memberId bookId member book) today2
      memberId bookId).1.books =
      updateFirst (fun b => b.id == bookId)
        (fun b => { b with availableCopies := b.availableCopies - 1 + 1 }) s.books := by
    rw [hret]; exact round_trip_books _ _ _ _
  have hrecs : (returnBook (borrowedState s clock memberId bookId member book) today2
      memberId bookId).1.borrowRecords =
      updateFirst (isActiveFor member.id book.id)
        (fun r => { r with returnDate := some today2, status := "returned" })
        (s.borrowRecords ++ [data.record]) := by
    rw [hret, ← hlog]; rfl
  refine ⟨by rw [hret]; exact ⟨_, rfl⟩, hmembers,
    ⟨member, by rw [hmembers]; exact hm, hbid ▸ hin⟩, ?_, book, hb, ?_, ?_⟩
  · rw [hrecs]
    exact updateFirst_append_of_none _ _ _ _ hr0 hnew
  · rw [hbooks, find?_updateFirst _ _ _ (by intro a; rfl), hb]
    rfl
  · intro hsafe
    rw [hbooks]
    obtain ⟨l1, l2, hl, _, hu⟩ := updateFirst_of_find?_some
      (fun b : Book => { b with availableCopies := b.availableCopies - 1 + 1 }) hb
    rw [hu]
    have hpos : 0 < book.availableCopies.val := by
      have := (lt_iff_val 0 book.availableCopies).mp ha
      rw [zero_val] at this
      exact this
    rw [dec_inc_exact book.availableCopies (by omega) hsafe]
    exact hl.symm

/-- Witness of C4: member 2 borrows book 2 from the seed data on day 0 and
returns it on day 3; books and members are the seed data again and the ledger
ends with the closed record. -/
theorem borrow_return_round_trip_witness :
    (returnBook (borrow seed (utcClock 0) 2 2).1 3 2 2).1.books = seed.books ∧
    (returnBook (borrow seed (utcClock 0) 2 2).1 3 2 2).1.members = seed.members ∧
    (returnBook (borrow seed (utcClock 0) 2 2).1 3 2 2).1.borrowRecords =
      seed.borrowRecords ++
        [{ id := 2, memberId := 2, bookId := 2, borrowDate := 0, dueDate := 14,
           returnDate := some 3, status := "returned" }] :=
  ⟨by
    obtain ⟨book, hb, _, hsafe⟩ :=
      (borrow_return_round_trip seed (utcClock 0) 3 2 2 201 "Book borrowed successfully" _
        ApiReachable.seed rfl).2.2.2.2
    have hb2 : book = seed.books.get ⟨1, by decide⟩ :=
      Option.some.inj (hb.symm.trans (by decide))
    exact hsafe (by rw [hb2]; decide),
   (borrow_return_round_trip seed (utcClock 0) 3 2 2 201 "Book borrowed successfully" _
      ApiReachable.seed rfl).2.1,
   (borrow_return_round_trip seed (utcClock 0) 3 2 2 201 "Book borrowed successfully" _
      ApiReachable.seed rfl).2.2.2.1⟩

/-- Counterexample to C4 as stated: `hugeStock` is the seed data after
`POST /api/books` with `copies = 9007199254740994`.  Member 2 borrows the new
book 4 and returns it; both calls succeed, and book 4 is left with
9007199254740992 available copies, not the 9007199254740994 it had before the
borrow. -/
theorem round_trip_loses_copies_counterexample :
    ApiReachable hugeStock ∧
    (∃ book, hugeStock.books.find? (fun b => b.id == 4) = some book ∧
      book.availableCopies = 9007199254740994) ∧
    (∃ data, (borrow hugeStock (utcClock 0) 2 4).2 =
      .success 201 "Book borrowed successfully" data) ∧
    (∃ data2, (returnBook (borrow hugeStock (utcClock 0) 2 4).1 3 2 4).2 =
      .success 200 "Book returned successfully" data2) ∧
    (∃ book, (returnBook (borrow hugeStock (utcClock 0) 2 4).1 3 2 4).1.books.find?
        (fun b => b.id == 4) = some book ∧
      book.availableCopies = 9007199254740992 ∧
      book.availableCopies ≠ 9007199254740994) :=
  ⟨ApiReachable.addBook 2026 hugeStockRequest ApiReachable.seed,
   ⟨_, rfl, by decide⟩, ⟨_, rfl⟩, ⟨_, rfl⟩, ⟨_, rfl, by decide, by decide⟩⟩

/-- C24 (conservation of copies), as the handlers keep it: in every state
the API can reach, after a `borrow` or `returnBook` call that fails, or that
is made on a book whose `availableCopies` is a safe integer (magnitude below
`2^53`), every book of the catalog is at its position with the same id, and
its `availableCopies` plus the number of ledger records with its id and status
`'borrowed'` is what it was before the call. -/
theorem copies_conserved (s : State) (clock : Clock) (today memberId bookId : Int)
    (hreach : ApiReachable s) :
    (((borrow s clock memberId bookId).2.isFailure = true ∨
        ∀ book, s.books.find? (fun b => b.id == bookId) = some book →
          isSafeInteger book.availableCopies) →
      List.Forall₂
        (CopiesKept s.borrowRecords (borrow s clock memberId bookId).1.borrowRecords)
        s.books (borrow s clock memberId bookId).1.books) ∧
    (((returnBook s today memberId bookId).2.isFailure = true ∨
        ∀ book, s.books.find? (fun b => b.id == bookId) = some book →
          isSafeInteger book.availableCopies) →
      List.Forall₂
        (CopiesKept s.borrowRecords (returnBook s today memberId bookId).1.borrowRecords)
        s.books (returnBook s today memberId bookId).1.books) := by
  have hnd := (apiInv_of_reachable hreach).2.2
  have hsame : List.Forall₂ (CopiesKept s.borrowRecords s.borrowRecords) s.books s.books :=
    List.forall₂_same.mpr (fun x _ => copiesKept_same _ x)
  constructor
  · intro hcond
    rcases borrow_cases s clock memberId bookId with
      ⟨_, h2⟩ | ⟨_, _, _, h2⟩ | ⟨_, _, _, _, _, h2⟩ | ⟨_, _, _, _, _, _, h2⟩ |
      ⟨member, book, hm, hb, ha, _, _, h2⟩
    · rw [h2]; exact hsame
    · rw [h2]; exact hsame
    · rw [h2]; exact hsame
    · rw [h2]; exact hsame
    · have hsafe : isSafeInteger book.availableCopies := by
        rcases hcond with hf | hsafe
        · rw [h2] at hf; simp [Response.isFailure] at hf
        · exact hsafe book hb
      rw [h2]
      obtain ⟨l1, l2, hl, _, hu⟩ := updateFirst_of_find?_some
        (fun b : Book => { b with availableCopies := b.availableCopies - 1 }) hb
      show List.Forall₂ (CopiesKept s.borrowRecords (s.borrowRecords ++ [_])) s.books
        (updateFirst _ _ s.books)
      rw [hu]
      conv_lhs => rw [hl]
      refine copiesKept_split (hl ▸ hnd) ?_ ?_
      · intro i hi
        rw [activeLoansOf_append_singleton]
        have hq : isActiveLoanOf i
            { id := nextId (s.borrowRecords.map (fun r => r.id)), memberId := member.id,
              bookId := book.id, borrowDate := clock.borrowDate, dueDate := clock.dueDate,
              returnDate := none, status := "borrowed" } = false := by
          simp [isActiveLoanOf, Ne.symm hi]
        rw [hq]
        simp
      · refine ⟨rfl, ?_⟩
        show (book.availableCopies - 1).val +
          (activeLoansOf (s.borrowRecords ++ [_]) book.id : Int) = _
        rw [activeLoansOf_append_singleton]
        have hq : isActiveLoanOf book.id
            { id := nextId (s.borrowRecords.map (fun r => r.id)), memberId := member.id,
              bookId := book.id, borrowDate := clock.borrowDate, dueDate := clock.dueDate,
              returnDate := none, status := "borrowed" } = true := by
          simp [isActiveLoanOf]
        rw [hq, dec_val_exact _ hsafe.1 (le_of_lt hsafe.2)]
        simp only [if_true]
        push_cast
        ring
  · intro hcond
    rcases returnBook_cases s today memberId bookId with
      ⟨_, h2⟩ | ⟨_, _, _, h2⟩ | ⟨_, _, _, _, _, h2⟩ | ⟨member, book, found, hm, hb, hr, h2⟩
    · rw [h2]; exact hsame
    · rw [h2]; exact hsame
    · rw [h2]; exact hsame
    · have hsafe : isSafeInteger book.availableCopies := by
        rcases hcond with hf | hsafe
        · rw [h2] at hf; simp [Response.isFailure] at hf
        · exact hsafe book hb
      rw [h2]
      obtain ⟨l1, l2, hl, _, hu⟩ := updateFirst_of_find?_some
        (fun b : Book => { b with availableCopies := b.availableCopies + 1 }) hb
      have hclose := fun i : Int => @activeLoansOf_close s.borrowRecords member.id book.id today
        found hr i
      show List.Forall₂ (CopiesKept s.borrowRecords (updateFirst _ _ s.borrowRecords)) s.books
        (updateFirst _ _ s.books)
      rw [hu]
      conv_lhs => rw [hl]
      refine copiesKept_split (hl ▸ hnd) ?_ ?_
      · intro i hi
        have h3 := hclose i
        simp only [hi, if_false, Nat.add_zero] at h3
        exact h3
      · refine ⟨rfl, ?_⟩
        have h3 := hclose book.id
        simp only [if_true] at h3
        show (book.availableCopies + 1).val + (activeLoansOf (updateFirst _ _ s.borrowRecords)
          book.id : Int) = _
        rw [← h3, inc_val_exact _ (le_of_lt hsafe.1) hsafe.2]
        push_cast
        ring

/-- Witness of C24 on the seed data: member 2 borrows book 2, of which 4
copies are available, and member 1 returns book 1, of which 3 are. -/
theorem copies_conserved_witness :
    List.Forall₂ (CopiesKept seed.borrowRecords (borrow seed (utcClock 0) 2 2).1.borrowRecords)
      seed.books (borrow seed (utcClock 0) 2 2).1.books ∧
    List.Forall₂ (CopiesKept seed.borrowRecords (returnBook seed 5 1 1).1.borrowRecords)
      seed.books (returnBook seed 5 1 1).1.books :=
  ⟨(copies_conserved seed (utcClock 0) 0 2 2 ApiReachable.seed).1
      (Or.inr (fun book hb => by
        have hb2 : book = seed.books.get ⟨1, by decide⟩ :=
          Option.some.inj (hb.symm.trans (by decide))
        rw [hb2]; decide)),
   (copies_conserved seed (utcClock 5) 5 1 1 ApiReachable.seed).2
      (Or.inr (fun book hb => by
        have hb2 : book = seed.books.get ⟨0, by decide⟩ :=
          Option.some.inj (hb.symm.trans (by decide))
        rw [hb2]; decide))⟩

/-- Counterexample to C24 as stated: in `hugeStock`, the seed data after
`POST /api/books` with `copies = 9007199254740994`, book 4 has
9007199254740994 available copies and no active loan.  The borrow of book 4
by member 2 succeeds; afterwards book 4 has 9007199254740992 available copies
and one active loan, so the sum has gone from 9007199254740994 to
9007199254740993. -/
theorem huge_stock_sum_changes_counterexample :
    ApiReachable hugeStock ∧
    (∃ data, (borrow hugeStock (utcClock 0) 2 4).2 =
      .success 201 "Book borrowed successfully" data) ∧
    (∃ B B2, hugeStock.books.find? (fun b => b.id == 4) = some B ∧
      (borrow hugeStock (utcClock 0) 2 4).1.books.find? (fun b => b.id == 4) = some B2 ∧
      B.availableCopies.val + (activeLoansOf hugeStock.borrowRecords 4 : Int) =
        9007199254740994 ∧
      B2.availableCopies.val +
        (activeLoansOf (borrow hugeStock (utcClock 0) 2 4).1.borrowRecords 4 : Int) =
        9007199254740993) ∧
    ¬ List.Forall₂
      (CopiesKept hugeStock.borrowRecords (borrow hugeStock (utcClock 0) 2 4).1.borrowRecords)
      hugeStock.books (borrow hugeStock (utcClock 0) 2 4).1.books :=
  ⟨ApiReachable.addBook 2026 hugeStockRequest ApiReachable.seed, ⟨_, rfl⟩,
   ⟨_, _, rfl, rfl, by decide, by decide⟩, by
    intro hall
    have h5 := ((List.forall₂_iff_get.mp hall).2 3 (by decide) (by decide)).2
    revert h5
    decide⟩

end Library
